import Mathlib

/-!
M5Stack DeDeNoise sample engine: shallow embedding.

The definitions below transcribe `src/src/audio_synthesis.cpp`, `src/src/audio_extras.cpp`,
`src/src/types.cpp`, the waveform renderer of `src/src/visual_rendering.cpp` and the two
volume steps of `src/src/main.cpp`.

Conventions of the embedding.

* `float` values are rationals.  The gain stage of `nextAudioSample`, the frequency sweep of
  the chirp tone, `nextSyncU8` and the volume steps are transcribed with the rounding of
  IEEE binary32 (`f32`, `fadd`, `fsub`, `fmul`, `fdiv`: round to nearest, ties to even,
  after every operation); elsewhere arithmetic is exact.  Infinities, NaN and the range of
  `(int)x` are outside the model.  The transcendental functions of `<math.h>` are fields of a parameter
  `Libm`, about which nothing is assumed.
* `int` values are integers; `(int)x` is truncation toward zero, C `/` and `%` on ints are
  `Int.tdiv` and `Int.tmod`, `x & (2^k - 1)` is reduction modulo `2^k`.
* `uint8_t` samples are naturals; every generator produces them through `clampU8` or `toU8`.
* Function-local `static` variables and the globals of a generator form one record per
  generator function; `State` holds one record for every generator plus the master gain.
* One call of a generator receives the outcomes of its `random` draws as a stream
  `d : Nat → Nat` of raw values, consumed in call order.
* A read or write outside an array, and an integer remainder by zero, make the call fail
  (`none`).
-/

namespace DeDeNoise

/-! ## Numeric primitives -/

/-- Conversion `(int)x` of a float: truncation toward zero. -/
def truncI (x : ℚ) : Int := if 0 ≤ x then ⌊x⌋ else ⌈x⌉

/-- Conversion `(uint8_t)v` of an int: reduction modulo 256. -/
def toU8 (v : Int) : Nat := (v % 256).toNat

/-- Transcription of `clampU8` (audio_synthesis.h). -/
def clampU8 (v : Int) : Nat :=
  if v < 0 then 0 else if v > 255 then 255 else v.toNat

/-- Function `roundf`: nearest integer, halves away from zero. -/
def roundf (x : ℚ) : ℚ := if 0 ≤ x then ⌊x + 1 / 2⌋ else ⌈x - 1 / 2⌉

/-- Function `fabsf`. -/
def fabsf (x : ℚ) : ℚ := |x|

/-! ## Binary32 arithmetic -/

/-- Round to the nearest integer, ties to the even one. -/
def roundEven (y : ℚ) : Int :=
  if y - ⌊y⌋ < 1 / 2 then ⌊y⌋
  else if y - ⌊y⌋ > 1 / 2 then ⌊y⌋ + 1
  else if ⌊y⌋ % 2 = 0 then ⌊y⌋ else ⌊y⌋ + 1

/-- The number of binary digits of `n` (0 for 0), counted with at most `fuel` halvings;
`fuel = n` is always enough. -/
def bitLength : Nat → Nat → Nat
  | 0, _ => 0
  | fuel + 1, n => if n = 0 then 0 else bitLength fuel (n / 2) + 1

/-- Floor of the binary logarithm of a positive rational `a`: the difference of the bit
lengths of numerator and denominator, less one when that overshoots. -/
def log2Floor (a : ℚ) : Int :=
  if (2 : ℚ) ^ ((bitLength a.num.natAbs a.num.natAbs : Int) - (bitLength a.den a.den : Int)) ≤ a
  then (bitLength a.num.natAbs a.num.natAbs : Int) - (bitLength a.den a.den : Int)
  else (bitLength a.num.natAbs a.num.natAbs : Int) - (bitLength a.den a.den : Int) - 1

/-- The binary exponent at which a positive magnitude `a` is rounded to `float`: that of
its binade, and -126 (the subnormal range) below 2^-126. -/
def f32Exp (a : ℚ) : Int := max (log2Floor a) (-126)

/-- The `float` (IEEE binary32) value of a real result `x`: round to nearest, ties to even,
on a 24-bit significand, subnormals included.  Overflow is not modelled, no generator
leaves the range. -/
def f32 (x : ℚ) : ℚ :=
  if x = 0 then 0
  else (roundEven (x / 2 ^ (f32Exp |x| - 23)) : ℚ) * 2 ^ (f32Exp |x| - 23)

/-- The `float` sum `a + b`. -/
def fadd (a b : ℚ) : ℚ := f32 (a + b)

/-- The `float` difference `a - b`. -/
def fsub (a b : ℚ) : ℚ := f32 (a - b)

/-- The `float` product `a * b`. -/
def fmul (a b : ℚ) : ℚ := f32 (a * b)

/-- The `float` quotient `a / b`. -/
def fdiv (a b : ℚ) : ℚ := f32 (a / b)

/-! ## Random draws and the math library -/

/-- Arduino `random(lo, hi)` on a raw generator value: `lo` when the range is empty,
otherwise `lo + raw % (hi - lo)`, a value of `[lo, hi)`. -/
def random (lo hi : Int) (raw : Nat) : Int :=
  if hi ≤ lo then lo else lo + (raw : Int) % (hi - lo)

/-- The functions of `<math.h>` used by the generators, and the value the target returns
for `__builtin_ctz(0)`, which the compiler leaves unspecified. -/
structure Libm where
  sinf : ℚ → ℚ
  cosf : ℚ → ℚ
  tanhf : ℚ → ℚ
  sqrtf : ℚ → ℚ
  expf : ℚ → ℚ
  log2f : ℚ → ℚ
  powf : ℚ → ℚ → ℚ
  ctz0 : Nat

/-- Trailing zero bits of `n`, looking at `fuel` bits. -/
def ctzAux : Nat → Nat → Nat
  | 0, _ => 0
  | fuel + 1, n => if n % 2 = 0 then 1 + ctzAux fuel (n / 2) else 0

/-- Builtin `__builtin_ctz` on a `uint32_t`. -/
def ctz32 (L : Libm) (n : Nat) : Nat := if n = 0 then L.ctz0 else ctzAux 32 n

/-! ## Configuration (config.h) -/

def TRACK_COUNT : Int := 46
def SAMPLE_RATE_HZ : Int := 11025
def TAU_F : ℚ := 6.28318530718
def NOISE_W : Nat := 280
def NOISE_H : Nat := 160
def NOISE_X : Int := (320 - 280) / 2
def NOISE_Y : Int := 40
def VIS_RING_SIZE : Nat := 1024
def VIS_RING_MASK : Nat := 1023

/-- Transcription of `hz_to_step` (audio_extras.cpp). -/
def hz_to_step (hz : ℚ) : ℚ := TAU_F * hz / (SAMPLE_RATE_HZ : ℚ)

/-- The idiom `if (p >= TAU_F) p -= TAU_F;`. -/
def wrapTau (p : ℚ) : ℚ := if p ≥ TAU_F then p - TAU_F else p

/-- The idiom `if (p >= 1.0f) p -= 1.0f;`. -/
def wrapOne (p : ℚ) : ℚ := if p ≥ 1 then p - 1 else p

/-- The idiom `if (v < lo) v = lo; if (v > hi) v = hi;`. -/
def clampLoHi (lo hi v : ℚ) : ℚ :=
  let v1 := if v < lo then lo else v
  if v1 > hi then hi else v1

/-- The idiom `if (v > hi) v = hi; if (v < lo) v = lo;`. -/
def clampHiLo (lo hi v : ℚ) : ℚ :=
  let v1 := if v > hi then hi else v
  if v1 < lo then lo else v1

/-- The same idiom on ints: `if (v < lo) v = lo; if (v > hi) v = hi;`. -/
def clampInt (lo hi v : Int) : Int :=
  let v1 := if v < lo then lo else v
  if v1 > hi then hi else v1

/-- Sum of `f 0, ..., f (n - 1)`, the accumulation loop `for (i = 0; i < n; ++i) sum += f(i)`. -/
def sumTo (n : Nat) (f : Nat → ℚ) : ℚ := ((List.range n).map f).sum

/-! ## Selectors (types.h) -/

/-- Selector `enum class NoiseType : uint8_t`, held by its numeric value: a variable of this
type can hold the 47 enumerated values and any other byte. -/
abbrev NoiseType := Nat

@[match_pattern] def NOISE_WHITE : NoiseType := 0
@[match_pattern] def NOISE_PINK : NoiseType := 1
@[match_pattern] def NOISE_BROWN : NoiseType := 2
@[match_pattern] def NOISE_BLUE : NoiseType := 3
@[match_pattern] def NOISE_VIOLET : NoiseType := 4
@[match_pattern] def TONE_SINE : NoiseType := 5
@[match_pattern] def TONE_SQUARE : NoiseType := 6
@[match_pattern] def TONE_TRIANGLE : NoiseType := 7
@[match_pattern] def TONE_SAW : NoiseType := 8
@[match_pattern] def TONE_CHIRP : NoiseType := 9
@[match_pattern] def TONE_SHEPARD : NoiseType := 10
@[match_pattern] def TONE_FM_BELL : NoiseType := 11
@[match_pattern] def TONE_AM_TREMOLO : NoiseType := 12
@[match_pattern] def TONE_SHEPARD_DOWN : NoiseType := 13
@[match_pattern] def TONE_KARPLUS : NoiseType := 14
@[match_pattern] def TONE_MODAL_DRUM : NoiseType := 15
@[match_pattern] def TONE_GRANULAR : NoiseType := 16
@[match_pattern] def TONE_SUPERSAW : NoiseType := 17
@[match_pattern] def TONE_PWM : NoiseType := 18
@[match_pattern] def FX_BITCRUSH : NoiseType := 19
@[match_pattern] def TONE_PHASE_DIST : NoiseType := 20
@[match_pattern] def TONE_WAVEFOLD : NoiseType := 21
@[match_pattern] def NOISE_BANDPASS : NoiseType := 22
@[match_pattern] def RHYTHM_EUCLIDEAN : NoiseType := 23
@[match_pattern] def RHYTHM_EUCLIDEAN_7_16 : NoiseType := 24
@[match_pattern] def RHYTHM_POLY_3_4 : NoiseType := 25
@[match_pattern] def TONE_RING_MOD : NoiseType := 26
@[match_pattern] def TONE_CHORUS : NoiseType := 27
@[match_pattern] def FX_SAMPLE_HOLD : NoiseType := 28
@[match_pattern] def FX_FORMANT : NoiseType := 29
@[match_pattern] def TONE_SYNC : NoiseType := 30
@[match_pattern] def TONE_SUPER_SQUARE : NoiseType := 31
@[match_pattern] def TONE_ISOCHRONIC : NoiseType := 32
@[match_pattern] def TONE_ACOUSTIC_BEAT : NoiseType := 33
@[match_pattern] def TONE_MISSING_FUND : NoiseType := 34
@[match_pattern] def TONE_COMBINATION_TONES : NoiseType := 35
@[match_pattern] def TONE_INFRASOUND : NoiseType := 36
@[match_pattern] def TONE_SOMATIC_BASS : NoiseType := 37
@[match_pattern] def TONE_EAR_RESONANCE : NoiseType := 38
@[match_pattern] def TONE_NEAR_NYQUIST : NoiseType := 39
@[match_pattern] def TONE_FEEDBACK_HOWL : NoiseType := 40
@[match_pattern] def TONE_FM_METAL : NoiseType := 41
@[match_pattern] def FX_STUTTER : NoiseType := 42
@[match_pattern] def FX_PHASER : NoiseType := 43
@[match_pattern] def FX_DOPPLER : NoiseType := 44
@[match_pattern] def FX_GATED_REVERB : NoiseType := 45
@[match_pattern] def FX_ALIASING_BUZZ : NoiseType := 46

/-- The `case` labels of the switch in `getGainForType` (types.cpp) with the value each
returns; `none` is the `default:` arm. -/
def gainCase : NoiseType → Option ℚ
  | NOISE_WHITE => some 0.55
  | NOISE_PINK => some 0.75
  | NOISE_BROWN => some 0.85
  | NOISE_BLUE => some 0.60
  | NOISE_VIOLET => some 0.55
  | TONE_SINE => some 0.70
  | TONE_SQUARE => some 0.50
  | TONE_TRIANGLE => some 0.70
  | TONE_SAW => some 0.60
  | TONE_CHIRP => some 0.65
  | TONE_SHEPARD => some 0.70
  | TONE_FM_BELL => some 0.60
  | TONE_AM_TREMOLO => some 0.70
  | TONE_SHEPARD_DOWN => some 0.70
  | TONE_KARPLUS => some 0.70
  | TONE_MODAL_DRUM => some 0.75
  | TONE_GRANULAR => some 0.65
  | TONE_SUPERSAW => some 0.55
  | TONE_PWM => some 0.60
  | FX_BITCRUSH => some 0.55
  | TONE_PHASE_DIST => some 0.60
  | TONE_WAVEFOLD => some 0.60
  | NOISE_BANDPASS => some 0.65
  | RHYTHM_EUCLIDEAN => some 0.60
  | RHYTHM_EUCLIDEAN_7_16 => some 0.60
  | RHYTHM_POLY_3_4 => some 0.60
  | TONE_RING_MOD => some 0.60
  | TONE_CHORUS => some 0.55
  | FX_SAMPLE_HOLD => some 0.55
  | FX_FORMANT => some 0.60
  | TONE_SYNC => some 0.60
  | TONE_SUPER_SQUARE => some 0.55
  | TONE_ISOCHRONIC => some 0.65
  | TONE_ACOUSTIC_BEAT => some 0.65
  | TONE_MISSING_FUND => some 0.60
  | TONE_COMBINATION_TONES => some 0.60
  | TONE_INFRASOUND => some 0.55
  | TONE_SOMATIC_BASS => some 0.70
  | TONE_EAR_RESONANCE => some 0.55
  | TONE_NEAR_NYQUIST => some 0.50
  | TONE_FEEDBACK_HOWL => some 0.60
  | TONE_FM_METAL => some 0.55
  | FX_STUTTER => some 0.55
  | FX_PHASER => some 0.60
  | FX_DOPPLER => some 0.60
  | FX_GATED_REVERB => some 0.60
  | FX_ALIASING_BUZZ => some 0.55
  | _ => none

/-- Transcription of `getGainForType` (types.cpp): the value of the selector's `case`, or the
`default:` value 0.65. -/
def getGainForType (t : NoiseType) : ℚ :=
  match gainCase t with
  | some g => g
  | none => 0.65

/-! ## Noise colours (audio_synthesis.cpp) -/

/-- Transcription of `nextWhiteSample`. -/
def nextWhiteSample (d : Nat → Nat) : Nat :=
  let s := random (-128) 128 (d 0)
  toU8 (s + 128)

/-- Statics of `nextPinkSample`. -/
structure PinkState where
  counter : Nat
  rows : Nat → Int
  init : Bool

/-- Transcription of `nextPinkSample`. -/
def nextPinkSample (L : Libm) (d : Nat → Nat) (st : PinkState) : PinkState × Nat :=
  let OCTAVES : Nat := 16
  let rows0 : Nat → Int :=
    if st.init then st.rows
    else fun i => if i < OCTAVES then random (-32768) 32767 (d i) else st.rows i
  let used : Nat := if st.init then 0 else OCTAVES
  let counter := (st.counter + 1) % 2 ^ 32
  let ctzRaw := ctz32 L counter
  let ctz := if ctzRaw ≥ OCTAVES then OCTAVES - 1 else ctzRaw
  let rows1 : Nat → Int :=
    fun i => if i ≤ ctz then random (-32768) 32767 (d (used + i)) else rows0 i
  let sum : Int := ((List.range OCTAVES).map rows1).sum
  let s : ℚ := (sum : ℚ) / ((OCTAVES : ℚ) * 32768)
  let sample := truncI (s * 127)
  ({ counter := counter, rows := rows1, init := true }, clampU8 (sample + 128))

/-- Statics of `nextBrownSample`. -/
structure BrownState where
  acc : ℚ

/-- Transcription of `nextBrownSample`. -/
def nextBrownSample (d : Nat → Nat) (st : BrownState) : BrownState × Nat :=
  let step : ℚ := (random (-64) 65 (d 0) : ℚ) / 256
  let acc1 := st.acc + step
  let acc2 := acc1 * 0.995
  let acc3 := clampLoHi (-1) 1 acc2
  let sample := truncI (acc3 * 127)
  ({ acc := acc3 }, clampU8 (sample + 128))

/-- Statics of `nextBlueSample`. -/
structure BlueState where
  prevW : Int

/-- Transcription of `nextBlueSample`. -/
def nextBlueSample (d : Nat → Nat) (st : BlueState) : BlueState × Nat :=
  let w := random (-128) 128 (d 0)
  let diff := w - st.prevW
  let sample := clampInt (-128) 127 (Int.tdiv (w + diff) 2)
  ({ prevW := w }, toU8 (sample + 128))

/-- Statics of `nextVioletSample`. -/
structure VioletState where
  w1 : Int
  w2 : Int

/-- Transcription of `nextVioletSample`. -/
def nextVioletSample (d : Nat → Nat) (st : VioletState) : VioletState × Nat :=
  let w0 := random (-128) 128 (d 0)
  let sample0 := w0 - 2 * st.w1 + st.w2
  let sample := clampInt (-128) 127 (Int.tdiv sample0 3)
  ({ w1 := w0, w2 := st.w1 }, toU8 (sample + 128))

/-! ## Basic tones and Shepard tones (audio_synthesis.cpp) -/

/-- Globals of `nextToneSample`: `g_phase`, `g_phase_mod`, `g_chirpFreq`, `g_chirpDir`. -/
structure ToneState where
  g_phase : ℚ
  g_phase_mod : ℚ
  g_chirpFreq : ℚ
  g_chirpDir : Int

/-- Transcription of `nextToneSample`. -/
def nextToneSample (L : Libm) (t : NoiseType) (d : Nat → Nat) (st : ToneState) :
    ToneState × Nat :=
  let r : ToneState × ℚ :=
    match t with
    | TONE_SINE | TONE_SQUARE | TONE_TRIANGLE =>
      let freq : ℚ := 440
      let step0 := TAU_F * freq / (SAMPLE_RATE_HZ : ℚ)
      let step := step0 + (random (-1) 2 (d 0) : ℚ) * 0.00005
      let g_phase := wrapTau (st.g_phase + step)
      let v : ℚ :=
        if t = TONE_SINE then L.sinf g_phase
        else if t = TONE_SQUARE then (if L.sinf g_phase ≥ 0 then 1 else -1)
        else
          let p := g_phase / TAU_F
          let saw := 2 * p - 1
          2 * fabsf saw - 1
      ({ st with g_phase := g_phase }, v)
    | TONE_SAW =>
      let freq : ℚ := 220
      let step0 := TAU_F * freq / (SAMPLE_RATE_HZ : ℚ)
      let step := step0 + (random (-1) 2 (d 0) : ℚ) * 0.00005
      let g_phase := wrapTau (st.g_phase + step)
      ({ st with g_phase := g_phase }, 2 * (g_phase / TAU_F) - 1)
    | TONE_CHIRP =>
      let freq := st.g_chirpFreq
      let delta : ℚ := fdiv 1000 (fmul (SAMPLE_RATE_HZ : ℚ) 4)
      let f1 := fadd st.g_chirpFreq (if st.g_chirpDir > 0 then delta else -delta)
      let f2 := if f1 > 1200 then 1200 else f1
      let dir2 := if f1 > 1200 then -1 else st.g_chirpDir
      let f3 := if f2 < 200 then 200 else f2
      let dir3 := if f2 < 200 then 1 else dir2
      let step := TAU_F * freq / (SAMPLE_RATE_HZ : ℚ)
      let g_phase := wrapTau (st.g_phase + step)
      ({ st with g_phase := g_phase, g_chirpFreq := f3, g_chirpDir := dir3 }, L.sinf g_phase)
    | TONE_FM_BELL =>
      let fc : ℚ := 440
      let fm : ℚ := 110
      let beta : ℚ := 2
      let step_m := TAU_F * fm / (SAMPLE_RATE_HZ : ℚ)
      let g_phase_mod := wrapTau (st.g_phase_mod + step_m)
      let instFreq := fc + beta * fm * L.sinf g_phase_mod
      let step_c := TAU_F * instFreq / (SAMPLE_RATE_HZ : ℚ)
      let g_phase := wrapTau (st.g_phase + step_c)
      ({ st with g_phase := g_phase, g_phase_mod := g_phase_mod }, L.sinf g_phase)
    | TONE_AM_TREMOLO =>
      let fc : ℚ := 440
      let fm : ℚ := 5
      let depth : ℚ := 0.8
      let step_c := TAU_F * fc / (SAMPLE_RATE_HZ : ℚ)
      let step_m := TAU_F * fm / (SAMPLE_RATE_HZ : ℚ)
      let g_phase := wrapTau (st.g_phase + step_c)
      let g_phase_mod := wrapTau (st.g_phase_mod + step_m)
      let carrier := L.sinf g_phase
      let mod := 0.5 * (1 + L.sinf g_phase_mod)
      let amp := (1 - depth) + depth * mod
      ({ st with g_phase := g_phase, g_phase_mod := g_phase_mod }, carrier * amp)
    | _ => (st, 0)
  let v := r.2 * 0.9
  let s := truncI (v * 127)
  (r.1, clampU8 (s + 128))

/-- Globals of `nextShepardUpU8`: `g_shepBaseHzUp`, `g_shepPhaseUp[12]`. -/
structure ShepardUpState where
  g_shepBaseHzUp : ℚ
  g_shepPhaseUp : Nat → ℚ

/-- Globals of `nextShepardDownU8`: `g_shepBaseHzDown`, `g_shepPhaseDown[12]`. -/
structure ShepardDownState where
  g_shepBaseHzDown : ℚ
  g_shepPhaseDown : Nat → ℚ

/-- Body of the partial loop shared verbatim by the two Shepard generators: one iteration
for partial `j` at base frequency `base`, on the accumulator (phases, sum, wsum). -/
def shepardPart (L : Libm) (base : ℚ) (acc : (Nat → ℚ) × ℚ × ℚ) (j : Nat) :
    (Nat → ℚ) × ℚ × ℚ :=
  let PARTS : Int := 12
  let center : ℚ := 440
  let sigma : ℚ := 0.55
  let k : Int := (j : Int) - (PARTS / 2 - 1)
  let f := base * L.powf 2 (k : ℚ)
  if f < 20 ∨ f > 6000 then acc
  else
    let step := TAU_F * f / (SAMPLE_RATE_HZ : ℚ)
    let pj := wrapTau (acc.1 j + step)
    let o := L.log2f (f / center)
    let w := L.expf (-0.5 * (o * o) / (sigma * sigma))
    (Function.update acc.1 j pj, acc.2.1 + w * L.sinf pj, acc.2.2 + w)

/-- Transcription of `nextShepardUpU8`. -/
def nextShepardUpU8 (L : Libm) (st : ShepardUpState) : ShepardUpState × Nat :=
  let PARTS : Nat := 12
  let center : ℚ := 440
  let rateSec : ℚ := 6
  let rate := L.powf 2 (1 / ((SAMPLE_RATE_HZ : ℚ) * rateSec))
  let base1 := st.g_shepBaseHzUp * rate
  let base := if base1 > center * 2 then base1 * 0.5 else base1
  let acc := (List.range PARTS).foldl (shepardPart L base) (st.g_shepPhaseUp, 0, 0)
  let v : ℚ := if acc.2.2 > 0 then acc.2.1 / acc.2.2 else 0
  let s := truncI (v * 127)
  ({ g_shepBaseHzUp := base, g_shepPhaseUp := acc.1 }, clampU8 (s + 128))

/-- Transcription of `nextShepardDownU8`. -/
def nextShepardDownU8 (L : Libm) (st : ShepardDownState) : ShepardDownState × Nat :=
  let PARTS : Nat := 12
  let center : ℚ := 440
  let rateSec : ℚ := 6
  let rate := L.powf 2 (1 / ((SAMPLE_RATE_HZ : ℚ) * rateSec))
  let base1 := st.g_shepBaseHzDown / rate
  let base := if base1 < center * 0.5 then base1 * 2 else base1
  let acc := (List.range PARTS).foldl (shepardPart L base) (st.g_shepPhaseDown, 0, 0)
  let v : ℚ := if acc.2.2 > 0 then acc.2.1 / acc.2.2 else 0
  let s := truncI (v * 127)
  ({ g_shepBaseHzDown := base, g_shepPhaseDown := acc.1 }, clampU8 (s + 128))

/-! ## Plucked string, drum, grains (audio_synthesis.cpp) -/

/-- Statics of `nextKarplusU8`; `buf` has `MAX_KS_LEN = 256` cells. -/
structure KarplusState where
  buf : Nat → ℚ
  len : Int
  idx : Int
  repluck : Int

/-- The loop `for (i = 0; i < len; ++i) buf[i] = random(-128, 128) / 256.0f`, the draws
taken from position `off` on. -/
def karplusFill (d : Nat → Nat) (off : Nat) (len : Int) (buf : Nat → ℚ) : Nat → ℚ :=
  fun i => if (i : Int) < len then (random (-128) 128 (d (off + i)) : ℚ) / 256 else buf i

/-- Transcription of `nextKarplusU8`. -/
def nextKarplusU8 (d : Nat → Nat) (st : KarplusState) : Option (KarplusState × Nat) :=
  let MAX_KS_LEN : Int := 256
  -- if (len == 0) { ... }
  let len0 : Int := truncI ((SAMPLE_RATE_HZ : ℚ) / 196)
  let len1 : Int := if len0 < 8 then 8 else len0
  let len2 : Int := if len1 > MAX_KS_LEN then MAX_KS_LEN else len1
  let len : Int := if st.len = 0 then len2 else st.len
  let repluck0 : Int := if st.len = 0 then truncI (0.8 * (SAMPLE_RATE_HZ : ℚ)) else st.repluck
  let buf0 : Nat → ℚ := if st.len = 0 then karplusFill d 0 len st.buf else st.buf
  let used : Nat := if st.len = 0 then len.toNat else 0
  -- if (--repluck <= 0) { ... }
  let repluck1 := repluck0 - 1
  if repluck1 ≤ 0 ∧ len > MAX_KS_LEN then none
  else
    let buf1 : Nat → ℚ := if repluck1 ≤ 0 then karplusFill d used len buf0 else buf0
    let repluck2 : Int := if repluck1 ≤ 0 then truncI (0.8 * (SAMPLE_RATE_HZ : ℚ)) else repluck1
    if len = 0 then none
    else
      let next := Int.tmod (st.idx + 1) len
      if st.idx < 0 ∨ MAX_KS_LEN ≤ st.idx ∨ next < 0 ∨ MAX_KS_LEN ≤ next then none
      else
        let y := buf1 st.idx.toNat
        let cell := 0.5 * (buf1 st.idx.toNat + buf1 next.toNat) * 0.996
        let buf2 := Function.update buf1 st.idx.toNat cell
        some ({ buf := buf2, len := len, idx := next, repluck := repluck2 },
          clampU8 (truncI (y * 127) + 128))

/-- Statics of `nextModalDrumU8`. -/
structure ModalDrumState where
  phase : Nat → ℚ
  env : ℚ
  retrig : Int

/-- Transcription of `nextModalDrumU8`. -/
def nextModalDrumU8 (L : Libm) (d : Nat → Nat) (st : ModalDrumState) : ModalDrumState × Nat :=
  let N : Nat := 4
  let freqs : Nat → ℚ := fun i => match i with
    | 0 => 180 | 1 => 300 | 2 => 460 | _ => 620
  let gains : Nat → ℚ := fun i => match i with
    | 0 => 1 | 1 => 0.6 | 2 => 0.45 | _ => 0.35
  let env0 : ℚ := if st.env < 0.0008 ∧ st.retrig ≤ 0 then 1 else st.env
  let phase0 : Nat → ℚ :=
    if st.env < 0.0008 ∧ st.retrig ≤ 0 then
      fun i => if i < N then (random 0 1000 (d i) : ℚ) * 0.001 * TAU_F else st.phase i
    else st.phase
  let retrig0 : Int :=
    if st.env < 0.0008 ∧ st.retrig ≤ 0 then truncI (0.6 * (SAMPLE_RATE_HZ : ℚ)) else st.retrig
  let retrig1 : Int := if retrig0 > 0 then retrig0 - 1 else retrig0
  let phase1 : Nat → ℚ := fun i =>
    if i < N then wrapTau (phase0 i + TAU_F * freqs i / (SAMPLE_RATE_HZ : ℚ)) else phase0 i
  let sum := sumTo N (fun i => gains i * L.sinf (phase1 i))
  let sum1 := sum * env0
  let env1 := env0 * 0.9992
  let s := clampInt (-127) 127 (truncI (sum1 * 100))
  ({ phase := phase1, env := env1, retrig := retrig1 }, toU8 (s + 128))

/-- The local `struct Grain` of `nextGranularU8`; `isOn` is the source field `on`. -/
structure Grain where
  isOn : Bool
  phase : ℚ
  dphase : ℚ
  amp : ℚ
  adec : ℚ
  left : Int

/-- Statics of `nextGranularU8`: the pool `g[8]`. -/
structure GranularState where
  g : Nat → Grain

/-- Transcription of `nextGranularU8`. -/
def nextGranularU8 (L : Libm) (d : Nat → Nat) (st : GranularState) : GranularState × Nat :=
  let g0 : Nat → Grain :=
    if random 0 1000 (d 0) < 6 then
      match (List.range 8).find? (fun i => !(st.g i).isOn) with
      | some i =>
        let f : ℚ := (random 200 2000 (d 1) : ℚ)
        let dur : Int := random (truncI (0.05 * (SAMPLE_RATE_HZ : ℚ)))
          (truncI (0.20 * (SAMPLE_RATE_HZ : ℚ))) (d 2)
        Function.update st.g i
          { isOn := true
            phase := 0
            dphase := TAU_F * f / (SAMPLE_RATE_HZ : ℚ)
            amp := 0.15 + (random 0 100 (d 3) : ℚ) * 0.003
            adec := L.powf 0.001 (1 / (dur : ℚ))
            left := dur }
      | none => st.g
    else st.g
  let sum := sumTo 8 (fun i => if (g0 i).isOn then (g0 i).amp * L.sinf (g0 i).phase else 0)
  let g1 : Nat → Grain := fun i =>
    if i < 8 ∧ (g0 i).isOn then
      let phase := wrapTau ((g0 i).phase + (g0 i).dphase)
      let amp := (g0 i).amp * (g0 i).adec
      let left := (g0 i).left - 1
      { isOn := !(decide (left ≤ 0) || decide (amp < 0.001))
        phase := phase
        dphase := (g0 i).dphase
        amp := amp
        adec := (g0 i).adec
        left := left }
    else g0 i
  ({ g := g1 }, clampU8 (truncI (sum * 127) + 128))

/-! ## Oscillator stacks and waveshapers (audio_synthesis.cpp) -/

/-- Statics of `nextSuperSawU8`. -/
structure SuperSawState where
  phase : Nat → ℚ

/-- Transcription of `nextSuperSawU8`. -/
def nextSuperSawU8 (st : SuperSawState) : SuperSawState × Nat :=
  let N : Nat := 6
  let det : Nat → ℚ := fun i => match i with
    | 0 => 0.985 | 1 => 0.992 | 2 => 0.998 | 3 => 1.002 | 4 => 1.008 | _ => 1.015
  let base : ℚ := 110
  let phase1 : Nat → ℚ := fun i =>
    if i < N then wrapOne (st.phase i + base * det i / (SAMPLE_RATE_HZ : ℚ)) else st.phase i
  let sum := sumTo N (fun i => 2 * phase1 i - 1)
  let sum1 := sum / (N : ℚ)
  ({ phase := phase1 }, clampU8 (truncI (sum1 * 120) + 128))

/-- Statics of `nextPwmU8`. -/
structure PwmState where
  p : ℚ
  lfo : ℚ

/-- Transcription of `nextPwmU8`. -/
def nextPwmU8 (L : Libm) (st : PwmState) : PwmState × Nat :=
  let fc : ℚ := 110
  let fm : ℚ := 2
  let p := wrapOne (st.p + fc / (SAMPLE_RATE_HZ : ℚ))
  let lfo := wrapOne (st.lfo + fm / (SAMPLE_RATE_HZ : ℚ))
  let duty := 0.5 + 0.4 * L.sinf (TAU_F * lfo)
  let v : ℚ := if p < duty then 1 else -1
  ({ p := p, lfo := lfo }, clampU8 (truncI (v * 110) + 128))

/-- Statics of `nextBitcrushU8`. -/
structure BitcrushState where
  ph : ℚ
  held : ℚ
  hold : Int

/-- Transcription of `nextBitcrushU8`. -/
def nextBitcrushU8 (L : Libm) (st : BitcrushState) : BitcrushState × Nat :=
  let holdN : Int := 8
  let q : Int := 8
  let st1 : BitcrushState :=
    if st.hold = 0 then
      let f : ℚ := 220
      let ph := wrapTau (st.ph + TAU_F * f / (SAMPLE_RATE_HZ : ℚ))
      let v := L.sinf ph
      let x := v * 0.5 + 0.5
      let qi : Int := truncI (roundf (x * ((q - 1 : Int) : ℚ)))
      let xq : ℚ := (qi : ℚ) / ((q - 1 : Int) : ℚ)
      { ph := ph, held := xq * 2 - 1, hold := holdN }
    else st
  ({ st1 with hold := st1.hold - 1 }, clampU8 (truncI (st1.held * 120) + 128))

/-- Statics of `nextPhaseDistU8`. -/
structure PhaseDistState where
  ph : ℚ
  lfo : ℚ

/-- Transcription of `nextPhaseDistU8`. -/
def nextPhaseDistU8 (L : Libm) (st : PhaseDistState) : PhaseDistState × Nat :=
  let fc : ℚ := 220
  let fm : ℚ := 1.2
  let ph := wrapTau (st.ph + TAU_F * fc / (SAMPLE_RATE_HZ : ℚ))
  let lfo := wrapTau (st.lfo + TAU_F * fm / (SAMPLE_RATE_HZ : ℚ))
  let amt := 1.2 * (0.5 + 0.5 * L.sinf lfo)
  let v := L.sinf (ph + amt * L.sinf ph)
  ({ ph := ph, lfo := lfo }, clampU8 (truncI (v * 120) + 128))

/-- Statics of `nextWavefoldU8`. -/
structure WavefoldState where
  ph : ℚ
  lfo : ℚ

/-- Transcription of `nextWavefoldU8`. -/
def nextWavefoldU8 (L : Libm) (st : WavefoldState) : WavefoldState × Nat :=
  let fc : ℚ := 220
  let fm : ℚ := 0.8
  let ph := wrapTau (st.ph + TAU_F * fc / (SAMPLE_RATE_HZ : ℚ))
  let lfo := wrapTau (st.lfo + TAU_F * fm / (SAMPLE_RATE_HZ : ℚ))
  let gain := 1.5 + 2 * (0.5 + 0.5 * L.sinf lfo)
  let v := L.tanhf (gain * L.sinf ph)
  ({ ph := ph, lfo := lfo }, clampU8 (truncI (v * 120) + 128))

/-- Statics of `nextBandpassNoiseU8`. -/
structure BandpassNoiseState where
  low : ℚ
  band : ℚ
  lfo : ℚ

/-- Transcription of `nextBandpassNoiseU8`. -/
def nextBandpassNoiseU8 (L : Libm) (d : Nat → Nat) (st : BandpassNoiseState) :
    BandpassNoiseState × Nat :=
  let x : ℚ := (random (-128) 128 (d 0) : ℚ) / 128
  let lfo := wrapOne (st.lfo + 0.3 / (SAMPLE_RATE_HZ : ℚ))
  let fc := 200 + 1800 * (0.5 + 0.5 * L.sinf (TAU_F * lfo))
  let f := 2 * L.sinf (3.14159265 * fc / (SAMPLE_RATE_HZ : ℚ))
  let q : ℚ := 0.3
  let low := st.low + f * st.band
  let high := x - low - q * st.band
  let band := st.band + f * high
  let bp := clampLoHi (-1) 1 band
  ({ low := low, band := band, lfo := lfo }, clampU8 (truncI (bp * 127) + 128))

/-! ## Rhythm gates (audio_synthesis.cpp) -/

/-- Statics of `nextEuclidU8` and, separately, of `nextEuclid716U8` (same declarations). -/
structure EuclidState where
  idx : Int
  toStep : Int
  env : ℚ
  ph : ℚ

/-- Body common to `nextEuclidU8` and `nextEuclid716U8`, which differ only in the pattern
`pat[16]`, the carrier frequency `f` and the envelope decay factor. -/
def euclidGate (L : Libm) (pat : List Bool) (f decay : ℚ) (st : EuclidState) :
    Option (EuclidState × Nat) :=
  let stepSamples : Int := truncI ((SAMPLE_RATE_HZ : ℚ) / 8)
  let toStep1 := st.toStep - 1
  if toStep1 ≤ 0 ∧ (st.idx < 0 ∨ 16 ≤ st.idx) then none
  else
    let env0 : ℚ := if toStep1 ≤ 0 ∧ pat.getD st.idx.toNat false = true then 1 else st.env
    let idx1 : Int := if toStep1 ≤ 0 then (st.idx + 1) % 16 else st.idx
    let toStep2 : Int := if toStep1 ≤ 0 then stepSamples else toStep1
    let ph := wrapTau (st.ph + TAU_F * f / (SAMPLE_RATE_HZ : ℚ))
    let v := env0 * L.sinf ph
    let env1 := env0 * decay
    some ({ idx := idx1, toStep := toStep2, env := env1, ph := ph },
      clampU8 (truncI (v * 127) + 128))

/-- The table `pat` of `nextEuclidU8`. -/
def euclidPat : List Bool :=
  [true, false, false, true, false, false, true, false,
   true, false, false, true, false, true, false, false]

/-- The table `pat` of `nextEuclid716U8`. -/
def euclid716Pat : List Bool :=
  [true, false, true, false, true, false, true, false,
   true, false, true, false, true, false, false, false]

/-- Transcription of `nextEuclidU8`. -/
def nextEuclidU8 (L : Libm) (st : EuclidState) : Option (EuclidState × Nat) :=
  euclidGate L euclidPat 1000 0.995 st

/-- Transcription of `nextEuclid716U8`. -/
def nextEuclid716U8 (L : Libm) (st : EuclidState) : Option (EuclidState × Nat) :=
  euclidGate L euclid716Pat 1600 0.994 st

/-- Statics of `nextPoly34U8`. -/
structure Poly34State where
  toA : Int
  toB : Int
  envA : ℚ
  envB : ℚ
  ph : ℚ

/-- Transcription of `nextPoly34U8`. -/
def nextPoly34U8 (L : Libm) (st : Poly34State) : Poly34State × Nat :=
  let stepA : Int := truncI ((SAMPLE_RATE_HZ : ℚ) / 3)
  let stepB : Int := truncI ((SAMPLE_RATE_HZ : ℚ) / 4)
  let envA0 : ℚ := if st.toA - 1 ≤ 0 then 1 else st.envA
  let toA1 : Int := if st.toA - 1 ≤ 0 then stepA else st.toA - 1
  let envB0 : ℚ := if st.toB - 1 ≤ 0 then 1 else st.envB
  let toB1 : Int := if st.toB - 1 ≤ 0 then stepB else st.toB - 1
  let f : ℚ := 1200
  let ph := wrapTau (st.ph + TAU_F * f / (SAMPLE_RATE_HZ : ℚ))
  let v := (envA0 + envB0) * 0.5 * L.sinf ph
  ({ toA := toA1, toB := toB1, envA := envA0 * 0.994, envB := envB0 * 0.994, ph := ph },
    clampU8 (truncI (v * 127) + 128))

/-! ## Modulation effects (audio_synthesis.cpp) -/

/-- Statics of `nextRingModU8`. -/
structure RingModState where
  phc : ℚ
  phm : ℚ

/-- Transcription of `nextRingModU8`. -/
def nextRingModU8 (L : Libm) (st : RingModState) : RingModState × Nat :=
  let fc : ℚ := 220
  let fm : ℚ := 60
  let phc := wrapTau (st.phc + TAU_F * fc / (SAMPLE_RATE_HZ : ℚ))
  let phm := wrapTau (st.phm + TAU_F * fm / (SAMPLE_RATE_HZ : ℚ))
  let v := L.sinf phc * L.sinf phm
  ({ phc := phc, phm := phm }, clampU8 (truncI (v * 120) + 128))

/-- Statics of `nextChorusU8`. -/
structure ChorusState where
  ph1 : ℚ
  ph2 : ℚ
  ph3 : ℚ
  l1 : ℚ
  l2 : ℚ

/-- Transcription of `nextChorusU8`. -/
def nextChorusU8 (L : Libm) (st : ChorusState) : ChorusState × Nat :=
  let base : ℚ := 220
  let l1 := wrapTau (st.l1 + 0.002)
  let l2 := wrapTau (st.l2 + 0.0013)
  let f1 := base * (1 + 0.004 * L.sinf l1)
  let f2 := base * (1 - 0.005 * L.sinf l2)
  let f3 := base
  let ph1 := wrapTau (st.ph1 + TAU_F * f1 / (SAMPLE_RATE_HZ : ℚ))
  let ph2 := wrapTau (st.ph2 + TAU_F * f2 / (SAMPLE_RATE_HZ : ℚ))
  let ph3 := wrapTau (st.ph3 + TAU_F * f3 / (SAMPLE_RATE_HZ : ℚ))
  let v := (L.sinf ph1 + L.sinf ph2 + L.sinf ph3) / 3
  ({ ph1 := ph1, ph2 := ph2, ph3 := ph3, l1 := l1, l2 := l2 },
    clampU8 (truncI (v * 120) + 128))

/-- Statics of `nextSampleHoldU8`. -/
structure SampleHoldState where
  hold : Int
  target : ℚ
  current : ℚ

/-- Transcription of `nextSampleHoldU8`. -/
def nextSampleHoldU8 (d : Nat → Nat) (st : SampleHoldState) : SampleHoldState × Nat :=
  let target : ℚ :=
    if st.hold - 1 ≤ 0 then (random (-128) 128 (d 0) : ℚ) / 128 else st.target
  let hold : Int := if st.hold - 1 ≤ 0 then random 30 800 (d 1) else st.hold - 1
  let current0 := st.current + 0.05 * (target - st.current)
  let current := clampLoHi (-1) 1 current0
  ({ hold := hold, target := target, current := current },
    clampU8 (truncI (current * 127) + 128))

/-- Statics of `nextFormantU8`. -/
structure FormantState where
  low1 : ℚ
  band1 : ℚ
  low2 : ℚ
  band2 : ℚ
  low3 : ℚ
  band3 : ℚ

/-- The lambda `svf` of `nextFormantU8`: the new (low, band); the returned value is the
new band. -/
def svf (L : Libm) (q x fc low band : ℚ) : ℚ × ℚ :=
  let f := 2 * L.sinf (3.14159265 * fc / (SAMPLE_RATE_HZ : ℚ))
  let low1 := low + f * band
  let high := x - low1 - q * band
  (low1, band + f * high)

/-- Transcription of `nextFormantU8`. -/
def nextFormantU8 (L : Libm) (d : Nat → Nat) (st : FormantState) : FormantState × Nat :=
  let fc1 : ℚ := 700
  let fc2 : ℚ := 1200
  let fc3 : ℚ := 2400
  let q : ℚ := 0.2
  let x : ℚ := (random (-128) 128 (d 0) : ℚ) / 128
  let r1 := svf L q x fc1 st.low1 st.band1
  let r2 := svf L q x fc2 st.low2 st.band2
  let r3 := svf L q x fc3 st.low3 st.band3
  let v0 := (r1.2 * 0.9 + r2.2 * 0.7 + r3.2 * 0.5) * 0.7
  let v := clampLoHi (-1) 1 v0
  ({ low1 := r1.1, band1 := r1.2, low2 := r2.1, band2 := r2.2, low3 := r3.1, band3 := r3.2 },
    clampU8 (truncI (v * 127) + 128))

/-- Statics of `nextSyncU8`. -/
structure SyncState where
  phM : ℚ
  phS : ℚ

/-- Transcription of `nextSyncU8`. -/
def nextSyncU8 (st : SyncState) : SyncState × Nat :=
  let fM : ℚ := 110
  let fS : ℚ := 330
  let phM0 := fadd st.phM (fdiv fM (SAMPLE_RATE_HZ : ℚ))
  let phM := if phM0 ≥ 1 then fsub phM0 1 else phM0
  let phS0 : ℚ := if phM0 ≥ 1 then 0 else st.phS
  let phS1 := fadd phS0 (fdiv fS (SAMPLE_RATE_HZ : ℚ))
  let phS := if phS1 ≥ 1 then fsub phS1 1 else phS1
  let v := fsub (fmul 2 phS) 1
  ({ phM := phM, phS := phS }, clampU8 (truncI (fmul v 120) + 128))

/-- Statics of `nextSuperSquareU8`. -/
structure SuperSquareState where
  p1 : ℚ
  p2 : ℚ
  p3 : ℚ
  p4 : ℚ

/-- Transcription of `nextSuperSquareU8`. -/
def nextSuperSquareU8 (st : SuperSquareState) : SuperSquareState × Nat :=
  let base : ℚ := 110
  let d1 : ℚ := 0.985
  let d2 : ℚ := 0.997
  let d3 : ℚ := 1.003
  let d4 : ℚ := 1.015
  let p1 := wrapOne (st.p1 + (base * d1) / (SAMPLE_RATE_HZ : ℚ))
  let p2 := wrapOne (st.p2 + (base * d2) / (SAMPLE_RATE_HZ : ℚ))
  let p3 := wrapOne (st.p3 + (base * d3) / (SAMPLE_RATE_HZ : ℚ))
  let p4 := wrapOne (st.p4 + (base * d4) / (SAMPLE_RATE_HZ : ℚ))
  let sq : ℚ → ℚ := fun ph => if ph < 0.5 then 1 else -1
  let v := (sq p1 + sq p2 + sq p3 + sq p4) / 4
  ({ p1 := p1, p2 := p2, p3 := p3, p4 := p4 }, clampU8 (truncI (v * 110) + 128))

/-! ## Extra generators (audio_extras.cpp) -/

/-- Statics of `nextIsochronicU8`. -/
structure IsochronicState where
  ph : ℚ
  gatePh : ℚ

/-- Transcription of `nextIsochronicU8`. -/
def nextIsochronicU8 (L : Libm) (st : IsochronicState) : IsochronicState × Nat :=
  let fc : ℚ := 440
  let fg : ℚ := 9
  let ph := wrapTau (st.ph + hz_to_step fc)
  let gatePh := wrapTau (st.gatePh + hz_to_step fg)
  let gate : ℚ := if L.sinf gatePh > 0 then 1 else 0
  let v := L.sinf ph * gate * 0.95
  ({ ph := ph, gatePh := gatePh }, clampU8 (truncI (v * 127) + 128))

/-- Statics of `nextAcousticBeatU8`. -/
structure AcousticBeatState where
  p1 : ℚ
  p2 : ℚ

/-- Transcription of `nextAcousticBeatU8`. -/
def nextAcousticBeatU8 (L : Libm) (st : AcousticBeatState) : AcousticBeatState × Nat :=
  let f1 : ℚ := 440
  let f2 : ℚ := 446
  let p1 := wrapTau (st.p1 + hz_to_step f1)
  let p2 := wrapTau (st.p2 + hz_to_step f2)
  let v0 := 0.5 * (L.sinf p1 + L.sinf p2)
  let v := v0 * 0.9
  ({ p1 := p1, p2 := p2 }, clampU8 (truncI (v * 127) + 128))

/-- Statics of `nextMissingFundU8`. -/
structure MissingFundState where
  p : ℚ

/-- Transcription of `nextMissingFundU8`. -/
def nextMissingFundU8 (L : Libm) (st : MissingFundState) : MissingFundState × Nat :=
  let f0 : ℚ := 180
  let p := wrapTau (st.p + hz_to_step f0)
  let v0 : ℚ := 0
  let v1 := v0 + (1 / 2) * L.sinf (2 * p)
  let v2 := v1 + (1 / 3) * L.sinf (3 * p)
  let v3 := v2 + (1 / 4) * L.sinf (4 * p)
  let v4 := v3 + (1 / 5) * L.sinf (5 * p)
  let v := v4 * 0.9
  ({ p := p }, clampU8 (truncI (v * 127) + 128))

/-- Statics of `nextCombinationToneU8`. -/
structure CombinationToneState where
  p1 : ℚ
  p2 : ℚ

/-- Transcription of `nextCombinationToneU8`. -/
def nextCombinationToneU8 (L : Libm) (st : CombinationToneState) :
    CombinationToneState × Nat :=
  let f1 : ℚ := 700
  let f2 : ℚ := 880
  let p1 := wrapTau (st.p1 + hz_to_step f1)
  let p2 := wrapTau (st.p2 + hz_to_step f2)
  let s := 0.8 * L.sinf p1 + 0.8 * L.sinf p2
  let v0 := L.tanhf (1.8 * s)
  let v := v0 * 0.9
  ({ p1 := p1, p2 := p2 }, clampU8 (truncI (v * 127) + 128))

/-- Statics of `nextInfrasoundU8`. -/
structure InfrasoundState where
  p : ℚ

/-- Transcription of `nextInfrasoundU8`. -/
def nextInfrasoundU8 (L : Libm) (st : InfrasoundState) : InfrasoundState × Nat :=
  let f : ℚ := 12
  let p := wrapTau (st.p + hz_to_step f)
  let v := 0.35 * L.sinf p
  ({ p := p }, clampU8 (truncI (v * 127) + 128))

/-- Statics of `nextSomaticBassU8`. -/
structure SomaticBassState where
  p : ℚ
  env : ℚ
  countdown : Int

/-- Transcription of `nextSomaticBassU8`. -/
def nextSomaticBassU8 (L : Libm) (st : SomaticBassState) : SomaticBassState × Nat :=
  let f : ℚ := 55
  let env0 : ℚ := if st.countdown - 1 ≤ 0 then 1 else st.env
  let countdown : Int :=
    if st.countdown - 1 ≤ 0 then truncI ((SAMPLE_RATE_HZ : ℚ) * 0.6) else st.countdown - 1
  let p := wrapTau (st.p + hz_to_step f)
  let v0 := L.sinf p * env0
  let env1 := env0 * 0.996
  let env2 := if env1 < 0.0003 then 0.0003 else env1
  let v := v0 * 0.95
  ({ p := p, env := env2, countdown := countdown }, clampU8 (truncI (v * 127) + 128))

/-- Statics of `nextEarResonanceU8`. -/
structure EarResonanceState where
  p : ℚ

/-- Transcription of `nextEarResonanceU8`. -/
def nextEarResonanceU8 (L : Libm) (st : EarResonanceState) : EarResonanceState × Nat :=
  let f : ℚ := 3000
  let p := wrapTau (st.p + hz_to_step f)
  let v0 := 0.85 * L.sinf p + 0.2 * L.sinf (2 * p)
  let v := v0 * 0.7
  ({ p := p }, clampU8 (truncI (v * 127) + 128))

/-- Statics of `nextNearNyquistU8`. -/
structure NearNyquistState where
  p : ℚ

/-- Transcription of `nextNearNyquistU8`. -/
def nextNearNyquistU8 (L : Libm) (st : NearNyquistState) : NearNyquistState × Nat :=
  let f : ℚ := 5000
  let p := wrapTau (st.p + hz_to_step f)
  let v := 0.8 * L.sinf p
  ({ p := p }, clampU8 (truncI (v * 127) + 128))

/-- Statics of `nextFeedbackHowlU8`. -/
structure FeedbackHowlState where
  y1 : ℚ
  y2 : ℚ
  lfo : ℚ

/-- Transcription of `nextFeedbackHowlU8`. -/
def nextFeedbackHowlU8 (L : Libm) (d : Nat → Nat) (st : FeedbackHowlState) :
    FeedbackHowlState × Nat :=
  let lfo := wrapTau (st.lfo + hz_to_step 0.12)
  let fc := 2500 + 800 * L.sinf lfo
  let w := TAU_F * fc / (SAMPLE_RATE_HZ : ℚ)
  let r : ℚ := 0.9955
  let a1 := 2 * r * L.cosf w
  let a2 := -r * r
  let x : ℚ := (random (-128) 128 (d 0) : ℚ) / 128 * 0.0025
  let y := a1 * st.y1 + a2 * st.y2 + x
  -- y2 = y1; y1 = y;  and only then the clamp of the local y
  let yc := clampHiLo (-1.3) 1.3 y
  let v := L.tanhf (1.2 * yc)
  ({ y1 := y, y2 := st.y1, lfo := lfo }, clampU8 (truncI (v * 127) + 128))

/-- Statics of `nextFMMetalU8`. -/
structure FMMetalState where
  pc : ℚ
  pm : ℚ

/-- Transcription of `nextFMMetalU8`. -/
def nextFMMetalU8 (L : Libm) (st : FMMetalState) : FMMetalState × Nat :=
  let fc : ℚ := 330
  let fm : ℚ := 780
  let beta : ℚ := 3.2
  let pm := wrapTau (st.pm + hz_to_step fm)
  let inst := fc + beta * fm * L.sinf pm
  let pc := wrapTau (st.pc + hz_to_step inst)
  let v := L.sinf pc * 0.95
  ({ pc := pc, pm := pm }, clampU8 (truncI (v * 127) + 128))

/-- Statics of `nextStutterU8`; `buffer` has 256 cells. -/
structure StutterState where
  modeLeft : Int
  len : Int
  idx : Int
  buffer : Nat → ℚ
  inited : Bool

/-- One iteration of the tone-grain loop of `nextStutterU8` on (buffer, ph, env):
`buffer[i] = sinf(ph) * env * 0.9f; ph += dph; wrap; env *= dec`. -/
def stutterToneStep (L : Libm) (dph dec : ℚ) (acc : (Nat → ℚ) × ℚ × ℚ) (i : Nat) :
    (Nat → ℚ) × ℚ × ℚ :=
  (Function.update acc.1 i (L.sinf acc.2.1 * acc.2.2 * 0.9),
    wrapTau (acc.2.1 + dph), acc.2.2 * dec)

/-- Transcription of `nextStutterU8`. -/
def nextStutterU8 (L : Libm) (d : Nat → Nat) (st : StutterState) :
    Option (StutterState × Nat) :=
  let buffer0 : Nat → ℚ :=
    if st.inited then st.buffer else fun i => if i < 256 then 0 else st.buffer i
  -- if (modeLeft <= 0) { ... }: the grain rebuilt (suffix R), used when modeLeft <= 0
  let len0 : Int := random 18 120 (d 0)
  let lenR : Int := if len0 > 256 then 256 else len0
  let bufferR : Nat → ℚ :=
    if random 0 100 (d 1) < 60 then
      let dph := hz_to_step (random 220 1800 (d 2) : ℚ)
      let dec := L.powf 0.01 (1 / (lenR : ℚ))
      ((List.range lenR.toNat).foldl (stutterToneStep L dph dec) (buffer0, 0, 1)).1
    else
      fun i =>
        if (i : Int) < lenR then (random (-128) 128 (d (2 + i)) : ℚ) / 128 * 0.8
        else buffer0 i
  let usedR : Nat := if random 0 100 (d 1) < 60 then 3 else 2 + lenR.toNat
  let modeLeftR : Int :=
    random (truncI (0.05 * (SAMPLE_RATE_HZ : ℚ))) (truncI (0.25 * (SAMPLE_RATE_HZ : ℚ))) (d usedR)
  let len : Int := if st.modeLeft ≤ 0 then lenR else st.len
  let buffer1 : Nat → ℚ := if st.modeLeft ≤ 0 then bufferR else buffer0
  let idx : Int := if st.modeLeft ≤ 0 then 0 else st.idx
  let modeLeft : Int := if st.modeLeft ≤ 0 then modeLeftR else st.modeLeft
  if idx < 0 ∨ 256 ≤ idx then none
  else if len = 0 then none
  else
    let v := buffer1 idx.toNat
    let idx1 := Int.tmod (idx + 1) len
    let vc := clampHiLo (-1) 1 v
    some ({ modeLeft := modeLeft - 1, len := len, idx := idx1, buffer := buffer1, inited := true },
      clampU8 (truncI (vc * 127) + 128))

/-- Statics of `nextPhaserU8`; `buf` has `BUF_SZ = 512` cells. -/
structure PhaserState where
  ph : ℚ
  lfo : ℚ
  buf : Nat → ℚ
  w : Int

/-- Transcription of `nextPhaserU8`. -/
def nextPhaserU8 (L : Libm) (st : PhaserState) : Option (PhaserState × Nat) :=
  let BUF_SZ : Int := 512
  let base : ℚ := 330
  let ph := wrapTau (st.ph + hz_to_step base)
  let lfo := wrapTau (st.lfo + hz_to_step 0.2)
  let vIn := L.sinf ph
  let dd := 2 + 19 * (0.5 + 0.5 * L.sinf lfo)
  let di : Int := truncI dd
  let r : Int := (st.w - di + BUF_SZ) % BUF_SZ
  let vDel := st.buf r.toNat
  if st.w < 0 ∨ BUF_SZ ≤ st.w then none
  else
    let buf1 := Function.update st.buf st.w.toNat (vIn + 0.6 * vDel)
    let w1 : Int := (st.w + 1) % BUF_SZ
    let vOut := clampHiLo (-1) 1 (0.6 * vIn + 0.6 * vDel)
    some ({ ph := ph, lfo := lfo, buf := buf1, w := w1 }, clampU8 (truncI (vOut * 127) + 128))

/-- Statics of `nextDopplerU8`. -/
structure DopplerState where
  ph : ℚ
  t : ℚ

/-- Transcription of `nextDopplerU8`. -/
def nextDopplerU8 (L : Libm) (st : DopplerState) : DopplerState × Nat :=
  let t0 := st.t + 1 / (SAMPLE_RATE_HZ : ℚ)
  let t := if t0 > 2.5 then 0 else t0
  let x := if t < 1.25 then t / 1.25 else 2 - t / 1.25
  let beta := 0.5 * (2 * x - 1) * 0.25
  let scale := L.sqrtf ((1 + beta) / (1 - beta))
  let fc := 660 * scale
  let ph := wrapTau (st.ph + hz_to_step fc)
  let amp := 0.4 + 0.6 * (1 - fabsf (2 * x - 1))
  let v := L.sinf ph * amp * 0.95
  ({ ph := ph, t := t }, clampU8 (truncI (v * 127) + 128))

/-- Statics of `nextGatedReverbU8`; `comb` has `D = 900` cells. -/
structure GatedReverbState where
  comb : Nat → ℚ
  w : Int
  env : ℚ
  retrig : Int
  tail : Int

/-- Transcription of `nextGatedReverbU8`. -/
def nextGatedReverbU8 (d : Nat → Nat) (st : GatedReverbState) :
    Option (GatedReverbState × Nat) :=
  let D : Int := 900
  let env0 : ℚ := if st.retrig - 1 ≤ 0 then 1 else st.env
  let retrig : Int :=
    if st.retrig - 1 ≤ 0 then truncI ((SAMPLE_RATE_HZ : ℚ) * 0.9) else st.retrig - 1
  let x : ℚ := (random (-128) 128 (d 0) : ℚ) / 128 * env0
  let env1 := env0 * 0.985
  let r : Int := Int.tmod (st.w + 1) D
  if r < 0 ∨ D ≤ r then none
  else
    let y0 := x + 0.80 * st.comb r.toNat
    let y1 : ℚ :=
      if env1 < 0.03 then (if st.tail > truncI (0.18 * (SAMPLE_RATE_HZ : ℚ)) then 0 else y0)
      else y0
    let tail : Int := if env1 < 0.03 then st.tail + 1 else 0
    if st.w < 0 ∨ D ≤ st.w then none
    else
      let comb1 := Function.update st.comb st.w.toNat (y1 * 0.88)
      let yc := clampHiLo (-1) 1 y1
      some ({ comb := comb1, w := r, env := env1, retrig := retrig, tail := tail },
        clampU8 (truncI (yc * 127) + 128))

/-- Statics of `nextAliasingBuzzU8`. -/
structure AliasingBuzzState where
  ph : ℚ
  held : ℚ
  hold : Int
  lfo : ℚ

/-- Transcription of `nextAliasingBuzzU8`. -/
def nextAliasingBuzzU8 (L : Libm) (st : AliasingBuzzState) : AliasingBuzzState × Nat :=
  let f : ℚ := 1800
  let lfo := wrapTau (st.lfo + hz_to_step 0.15)
  let holdN : Int := 2 + truncI (roundf (12 * (0.5 + 0.5 * L.sinf lfo)))
  let ph : ℚ := if st.hold ≤ 0 then wrapTau (st.ph + hz_to_step f) else st.ph
  let held : ℚ := if st.hold ≤ 0 then L.sinf ph * 0.95 else st.held
  let hold0 : Int := if st.hold ≤ 0 then holdN else st.hold
  ({ ph := ph, held := held, hold := hold0 - 1, lfo := lfo },
    clampU8 (truncI (held * 127) + 128))

/-! ## The generator registry and the engine state -/

/-- The generator functions of the engine, one constructor per function. -/
inductive Generator where
  | white | pink | brown | blue | violet | tone | shepardUp | shepardDown
  | karplus | modalDrum | granular | superSaw | pwm | bitcrush | phaseDist | wavefold
  | bandpassNoise | euclid | euclid716 | poly34 | ringMod | chorus | sampleHold | formant
  | sync | superSquare
  | isochronic | acousticBeat | missingFund | combinationTone | infrasound | somaticBass
  | earResonance | nearNyquist | feedbackHowl | fmMetal | stutter | phaser | doppler
  | gatedReverb | aliasingBuzz
  deriving DecidableEq, Repr, Fintype

/-- The record of statics (and private globals) of each generator function. -/
@[reducible] def StateOf : Generator → Type
  | .white => Unit
  | .pink => PinkState
  | .brown => BrownState
  | .blue => BlueState
  | .violet => VioletState
  | .tone => ToneState
  | .shepardUp => ShepardUpState
  | .shepardDown => ShepardDownState
  | .karplus => KarplusState
  | .modalDrum => ModalDrumState
  | .granular => GranularState
  | .superSaw => SuperSawState
  | .pwm => PwmState
  | .bitcrush => BitcrushState
  | .phaseDist => PhaseDistState
  | .wavefold => WavefoldState
  | .bandpassNoise => BandpassNoiseState
  | .euclid => EuclidState
  | .euclid716 => EuclidState
  | .poly34 => Poly34State
  | .ringMod => RingModState
  | .chorus => ChorusState
  | .sampleHold => SampleHoldState
  | .formant => FormantState
  | .sync => SyncState
  | .superSquare => SuperSquareState
  | .isochronic => IsochronicState
  | .acousticBeat => AcousticBeatState
  | .missingFund => MissingFundState
  | .combinationTone => CombinationToneState
  | .infrasound => InfrasoundState
  | .somaticBass => SomaticBassState
  | .earResonance => EarResonanceState
  | .nearNyquist => NearNyquistState
  | .feedbackHowl => FeedbackHowlState
  | .fmMetal => FMMetalState
  | .stutter => StutterState
  | .phaser => PhaserState
  | .doppler => DopplerState
  | .gatedReverb => GatedReverbState
  | .aliasingBuzz => AliasingBuzzState

/-- Engine state: the global `g_masterGain` and the record of every generator. -/
structure State where
  g_masterGain : ℚ
  gen : (g : Generator) → StateOf g

/-- Initial value of every generator record, as written in the declarations (statics
without an initialiser are zero). -/
def initOf : (g : Generator) → StateOf g
  | .white => ()
  | .pink => { counter := 0, rows := fun _ => 0, init := false }
  | .brown => { acc := 0 }
  | .blue => { prevW := 0 }
  | .violet => { w1 := 0, w2 := 0 }
  | .tone => { g_phase := 0, g_phase_mod := 0, g_chirpFreq := 200, g_chirpDir := 1 }
  | .shepardUp => { g_shepBaseHzUp := 110, g_shepPhaseUp := fun _ => 0 }
  | .shepardDown => { g_shepBaseHzDown := 1760, g_shepPhaseDown := fun _ => 0 }
  | .karplus => { buf := fun _ => 0, len := 0, idx := 0, repluck := 0 }
  | .modalDrum => { phase := fun _ => 0, env := 0, retrig := 0 }
  | .granular =>
    { g := fun _ => { isOn := false, phase := 0, dphase := 0, amp := 0, adec := 0, left := 0 } }
  | .superSaw => { phase := fun _ => 0 }
  | .pwm => { p := 0, lfo := 0 }
  | .bitcrush => { ph := 0, held := 0, hold := 0 }
  | .phaseDist => { ph := 0, lfo := 0 }
  | .wavefold => { ph := 0, lfo := 0 }
  | .bandpassNoise => { low := 0, band := 0, lfo := 0 }
  | .euclid => { idx := 0, toStep := 0, env := 0, ph := 0 }
  | .euclid716 => { idx := 0, toStep := 0, env := 0, ph := 0 }
  | .poly34 => { toA := 0, toB := 0, envA := 0, envB := 0, ph := 0 }
  | .ringMod => { phc := 0, phm := 0 }
  | .chorus => { ph1 := 0, ph2 := 0, ph3 := 0, l1 := 0, l2 := 1.3 }
  | .sampleHold => { hold := 0, target := 0, current := 0 }
  | .formant => { low1 := 0, band1 := 0, low2 := 0, band2 := 0, low3 := 0, band3 := 0 }
  | .sync => { phM := 0, phS := 0 }
  | .superSquare => { p1 := 0, p2 := 0, p3 := 0, p4 := 0 }
  | .isochronic => { ph := 0, gatePh := 0 }
  | .acousticBeat => { p1 := 0, p2 := 0 }
  | .missingFund => { p := 0 }
  | .combinationTone => { p1 := 0, p2 := 0 }
  | .infrasound => { p := 0 }
  | .somaticBass => { p := 0, env := 0, countdown := 0 }
  | .earResonance => { p := 0 }
  | .nearNyquist => { p := 0 }
  | .feedbackHowl => { y1 := 0, y2 := 0, lfo := 0 }
  | .fmMetal => { pc := 0, pm := 0 }
  | .stutter => { modeLeft := 0, len := 64, idx := 0, buffer := fun _ => 0, inited := false }
  | .phaser => { ph := 0, lfo := 0, buf := fun _ => 0, w := 0 }
  | .doppler => { ph := 0, t := 0 }
  | .gatedReverb => { comb := fun _ => 0, w := 0, env := 0, retrig := 0, tail := 0 }
  | .aliasingBuzz => { ph := 0, held := 0, hold := 0, lfo := 0 }

/-- The state at power-on. -/
def State.init : State := { g_masterGain := 1, gen := initOf }

/-- One call of generator function `g` on its own record; `t` is the argument that
`nextToneSample` receives. -/
def genStep (L : Libm) (t : NoiseType) (d : Nat → Nat) :
    (g : Generator) → StateOf g → Option (StateOf g × Nat)
  | .white, _ => some ((), nextWhiteSample d)
  | .pink, st => some (nextPinkSample L d st)
  | .brown, st => some (nextBrownSample d st)
  | .blue, st => some (nextBlueSample d st)
  | .violet, st => some (nextVioletSample d st)
  | .tone, st => some (nextToneSample L t d st)
  | .shepardUp, st => some (nextShepardUpU8 L st)
  | .shepardDown, st => some (nextShepardDownU8 L st)
  | .karplus, st => nextKarplusU8 d st
  | .modalDrum, st => some (nextModalDrumU8 L d st)
  | .granular, st => some (nextGranularU8 L d st)
  | .superSaw, st => some (nextSuperSawU8 st)
  | .pwm, st => some (nextPwmU8 L st)
  | .bitcrush, st => some (nextBitcrushU8 L st)
  | .phaseDist, st => some (nextPhaseDistU8 L st)
  | .wavefold, st => some (nextWavefoldU8 L st)
  | .bandpassNoise, st => some (nextBandpassNoiseU8 L d st)
  | .euclid, st => nextEuclidU8 L st
  | .euclid716, st => nextEuclid716U8 L st
  | .poly34, st => some (nextPoly34U8 L st)
  | .ringMod, st => some (nextRingModU8 L st)
  | .chorus, st => some (nextChorusU8 L st)
  | .sampleHold, st => some (nextSampleHoldU8 d st)
  | .formant, st => some (nextFormantU8 L d st)
  | .sync, st => some (nextSyncU8 st)
  | .superSquare, st => some (nextSuperSquareU8 st)
  | .isochronic, st => some (nextIsochronicU8 L st)
  | .acousticBeat, st => some (nextAcousticBeatU8 L st)
  | .missingFund, st => some (nextMissingFundU8 L st)
  | .combinationTone, st => some (nextCombinationToneU8 L st)
  | .infrasound, st => some (nextInfrasoundU8 L st)
  | .somaticBass, st => some (nextSomaticBassU8 L st)
  | .earResonance, st => some (nextEarResonanceU8 L st)
  | .nearNyquist, st => some (nextNearNyquistU8 L st)
  | .feedbackHowl, st => some (nextFeedbackHowlU8 L d st)
  | .fmMetal, st => some (nextFMMetalU8 L st)
  | .stutter, st => nextStutterU8 L d st
  | .phaser, st => nextPhaserU8 L st
  | .doppler, st => some (nextDopplerU8 L st)
  | .gatedReverb, st => nextGatedReverbU8 d st
  | .aliasingBuzz, st => some (nextAliasingBuzzU8 L st)

/-- A call of generator function `g` from the engine: it works on its own record and
returns the raw sample. -/
def runGenerator (L : Libm) (g : Generator) (t : NoiseType) (d : Nat → Nat) (s : State) :
    Option (State × Nat) :=
  match genStep L t d g (s.gen g) with
  | none => none
  | some r => some ({ s with gen := Function.update s.gen g r.1 }, r.2)

/-! ## Dispatch and gain stage -/

/-- Transcription of `extraTypeSupported` (audio_extras.cpp). -/
def extraTypeSupported : NoiseType → Bool
  | TONE_ISOCHRONIC | TONE_ACOUSTIC_BEAT | TONE_MISSING_FUND | TONE_COMBINATION_TONES
  | TONE_INFRASOUND | TONE_SOMATIC_BASS | TONE_EAR_RESONANCE | TONE_NEAR_NYQUIST
  | TONE_FEEDBACK_HOWL | TONE_FM_METAL | FX_STUTTER | FX_PHASER | FX_DOPPLER
  | FX_GATED_REVERB | FX_ALIASING_BUZZ => true
  | _ => false

/-- Transcription of `isExtraType`. -/
def isExtraType (t : NoiseType) : Bool := extraTypeSupported t

/-- The `case` labels of the switch in `nextAudioSampleExtra`, each with the generator
function its arm calls; `none` is the `default:` arm. -/
def extraCase : NoiseType → Option Generator
  | TONE_ISOCHRONIC => some .isochronic
  | TONE_ACOUSTIC_BEAT => some .acousticBeat
  | TONE_MISSING_FUND => some .missingFund
  | TONE_COMBINATION_TONES => some .combinationTone
  | TONE_INFRASOUND => some .infrasound
  | TONE_SOMATIC_BASS => some .somaticBass
  | TONE_EAR_RESONANCE => some .earResonance
  | TONE_NEAR_NYQUIST => some .nearNyquist
  | TONE_FEEDBACK_HOWL => some .feedbackHowl
  | TONE_FM_METAL => some .fmMetal
  | FX_STUTTER => some .stutter
  | FX_PHASER => some .phaser
  | FX_DOPPLER => some .doppler
  | FX_GATED_REVERB => some .gatedReverb
  | FX_ALIASING_BUZZ => some .aliasingBuzz
  | _ => none

/-- Transcription of `nextAudioSampleExtra`: the arm of the selector, or the `default:`
arm `return 128`. -/
def nextAudioSampleExtra (L : Libm) (t : NoiseType) (d : Nat → Nat) (s : State) :
    Option (State × Nat) :=
  match extraCase t with
  | some g => runGenerator L g t d s
  | none => some (s, 128)

/-- The `case` labels of the switch in `nextAudioSample`, each with the generator function
its arm calls; `none` is the `default:` arm, which leaves `raw = 128`. -/
def builtinCase : NoiseType → Option Generator
  | NOISE_WHITE => some .white
  | NOISE_PINK => some .pink
  | NOISE_BROWN => some .brown
  | NOISE_BLUE => some .blue
  | NOISE_VIOLET => some .violet
  | TONE_SINE | TONE_SQUARE | TONE_TRIANGLE | TONE_SAW | TONE_CHIRP | TONE_FM_BELL
  | TONE_AM_TREMOLO => some .tone
  | TONE_KARPLUS => some .karplus
  | TONE_MODAL_DRUM => some .modalDrum
  | TONE_GRANULAR => some .granular
  | TONE_SUPERSAW => some .superSaw
  | TONE_PWM => some .pwm
  | FX_BITCRUSH => some .bitcrush
  | TONE_PHASE_DIST => some .phaseDist
  | TONE_WAVEFOLD => some .wavefold
  | NOISE_BANDPASS => some .bandpassNoise
  | RHYTHM_EUCLIDEAN => some .euclid
  | TONE_SHEPARD => some .shepardUp
  | TONE_SHEPARD_DOWN => some .shepardDown
  | RHYTHM_EUCLIDEAN_7_16 => some .euclid716
  | RHYTHM_POLY_3_4 => some .poly34
  | TONE_RING_MOD => some .ringMod
  | TONE_CHORUS => some .chorus
  | FX_SAMPLE_HOLD => some .sampleHold
  | FX_FORMANT => some .formant
  | TONE_SYNC => some .sync
  | TONE_SUPER_SQUARE => some .superSquare
  | _ => none

/-- Transcription of `nextAudioSample`. -/
def nextAudioSample (L : Libm) (t : NoiseType) (d : Nat → Nat) (s : State) :
    Option (State × Nat) :=
  if isExtraType t then
    match nextAudioSampleExtra L t d s with
    | none => none
    | some (s1, rawExtra) =>
      let centeredExtra : Int := (rawExtra : Int) - 128
      let gExtra := f32 (getGainForType t)
      let scaledExtra : Int := truncI (fmul (fmul (centeredExtra : ℚ) gExtra) s1.g_masterGain)
      some (s1, clampU8 (scaledExtra + 128))
  else
    let r : Option (State × Nat) :=
      match builtinCase t with
      | some g => runGenerator L g t d s
      | none => some (s, 128)
    match r with
    | none => none
    | some (s1, raw) =>
      let centered : Int := (raw : Int) - 128
      let g := f32 (getGainForType t)
      let scaled : Int := truncI (fmul (fmul (centered : ℚ) g) s1.g_masterGain)
      some (s1, clampU8 (scaled + 128))

/-- Transcription of `setMasterGain`. -/
def setMasterGain (g : ℚ) (s : State) : State :=
  let g1 := if g < 0 then 0 else g
  let g2 := if g1 > 1 then 1 else g1
  { s with g_masterGain := g2 }

/-- Transcription of `getMasterGain`. -/
def getMasterGain (s : State) : ℚ := s.g_masterGain

/-- Effect of `initAudioState` on the engine state. -/
def initAudioState (s : State) : State := { s with g_masterGain := 1 }

/-- The volume step that `loop` (main.cpp) takes while button A is held:
`float g = getMasterGain() - 0.02f; if (g < 0.0f) g = 0.0f; setMasterGain(g);`. -/
def volumeDownStep (s : State) : State :=
  let g := fsub (getMasterGain s) (f32 0.02)
  let g1 := if g < 0 then 0 else g
  setMasterGain g1 s

/-- The volume step that `loop` (main.cpp) takes while button C is held:
`float g = getMasterGain() + 0.02f; if (g > 1.0f) g = 1.0f; setMasterGain(g);`. -/
def volumeUpStep (s : State) : State :=
  let g := fadd (getMasterGain s) (f32 0.02)
  let g1 := if g > 1 then 1 else g
  setMasterGain g1 s

/-- Consecutive calls `nextAudioSample(t)`, one per element of `ds` (the draws of each call),
as the sample loop of `audioTask` and the paused renderer make them. -/
def produceSamples (L : Libm) (t : NoiseType) : List (Nat → Nat) → State →
    Option (State × List Nat)
  | [], s => some (s, [])
  | d :: ds, s =>
    match nextAudioSample L t d s with
    | none => none
    | some (s1, v) =>
      match produceSamples L t ds s1 with
      | none => none
      | some (s2, vs) => some (s2, v :: vs)

/-! ## The waveform renderer (visual_rendering.cpp) -/

/-- Globals of the renderer that the waveform frame uses. -/
structure VisualState where
  g_visualType : NoiseType
  g_visRing : Nat → Nat
  g_visWriteIdx : Nat

/-- The column loop of `drawWaveformFrame`, `n` columns from column `x` on: each column
takes its sample from the ring when playing and from `nextAudioSample(t)` when paused;
the result lists the plotted heights `y`.  `ds x` holds the draws of the call made for
column `x`. -/
def waveformColumns (L : Libm) (isPlaying : Bool) (t : NoiseType) (ds : Nat → Nat → Nat)
    (vis : VisualState) (start : Int) : Nat → Nat → State → Option (State × List Int)
  | 0, _, s => some (s, [])
  | n + 1, x, s =>
    let yCenter : Int := NOISE_Y + (NOISE_H : Int) / 2
    let amp : Int := (NOISE_H : Int) / 2 - 3
    let r : Option (State × Nat) :=
      if isPlaying then some (s, vis.g_visRing ((start + (x : Int)) % 1024).toNat)
      else nextAudioSample L t (ds x) s
    match r with
    | none => none
    | some (s1, smp) =>
      let centered : Int := (smp : Int) - 128
      let y0 : Int := yCenter - Int.tdiv (centered * amp) 127
      let y := clampInt NOISE_Y (NOISE_Y + (NOISE_H : Int) - 1) y0
      match waveformColumns L isPlaying t ds vis start n (x + 1) s1 with
      | none => none
      | some (s2, ys) => some (s2, y :: ys)

/-- Transcription of `drawWaveformFrame`, the LCD calls left out: the engine state after
the frame and the heights plotted. -/
def drawWaveformFrame (L : Libm) (isPlaying : Bool) (t : NoiseType) (ds : Nat → Nat → Nat)
    (vis : VisualState) (s : State) : Option (State × List Int) :=
  let widx : Int := (vis.g_visWriteIdx : Int)
  let start : Int := (widx - (NOISE_W : Int)) % 1024
  waveformColumns L isPlaying t ds vis start NOISE_W 0 s

/-- Transcription of `drawNoiseFrame`. -/
def drawNoiseFrame (L : Libm) (isPlaying : Bool) (t : NoiseType) (ds : Nat → Nat → Nat)
    (vis : VisualState) (s : State) : Option (VisualState × State × List Int) :=
  let vis1 : VisualState := { vis with g_visualType := t }
  match drawWaveformFrame L isPlaying t ds vis1 s with
  | none => none
  | some r => some (vis1, r.1, r.2)

/-! ## Vocabulary of the properties -/

/-- The generator function that `nextAudioSample(t)` calls, if any: the arm of the extras
switch when `isExtraType(t)`, the arm of its own switch otherwise. -/
def generatorOf (t : NoiseType) : Option Generator :=
  if isExtraType t then extraCase t else builtinCase t

/-- The gain stage of `nextAudioSample`, `clampU8((int)(centered * g * g_masterGain) + 128)`,
on a raw sample `r`, the gain `g` written in the table of `getGainForType` (a `float`
literal, so the `float` nearest to `g`) and the master gain `m`: both products are `float`
products. -/
def gainStage (r : Nat) (g m : ℚ) : Nat :=
  clampU8 (truncI (fmul (fmul (((r : Int) - 128 : Int) : ℚ) (f32 g)) m) + 128)

/-- Memory-safety condition on a generator record: every index kept in the record lies
inside its array and no stored length is a zero divisor.  Only the generators that index
an array by a stored index carry a condition. -/
def GenValid : (g : Generator) → StateOf g → Prop
  | .karplus, st => 0 ≤ st.idx ∧ st.idx < 256 ∧ (st.len = 0 ∨ (1 ≤ st.len ∧ st.len ≤ 256))
  | .euclid, st => 0 ≤ st.idx ∧ st.idx < 16
  | .euclid716, st => 0 ≤ st.idx ∧ st.idx < 16
  | .stutter, st => 0 ≤ st.idx ∧ st.idx < 256 ∧ 1 ≤ st.len ∧ st.len ≤ 256
  | .phaser, st => 0 ≤ st.w ∧ st.w < 512
  | .gatedReverb, st => 0 ≤ st.w ∧ st.w < 900
  | _, _ => True

/-- The memory-safety condition of a record can be checked by evaluation. -/
instance GenValid.decidable : (g : Generator) → (st : StateOf g) → Decidable (GenValid g st)
  | .karplus, st => by unfold GenValid; infer_instance
  | .euclid, st => by unfold GenValid; infer_instance
  | .euclid716, st => by unfold GenValid; infer_instance
  | .stutter, st => by unfold GenValid; infer_instance
  | .phaser, st => by unfold GenValid; infer_instance
  | .gatedReverb, st => by unfold GenValid; infer_instance
  | .white, _ | .pink, _ | .brown, _ | .blue, _ | .violet, _ | .tone, _ | .shepardUp, _
  | .shepardDown, _ | .modalDrum, _ | .granular, _ | .superSaw, _ | .pwm, _ | .bitcrush, _
  | .phaseDist, _ | .wavefold, _ | .bandpassNoise, _ | .poly34, _ | .ringMod, _ | .chorus, _
  | .sampleHold, _ | .formant, _ | .sync, _ | .superSquare, _ | .isochronic, _
  | .acousticBeat, _ | .missingFund, _ | .combinationTone, _ | .infrasound, _
  | .somaticBass, _ | .earResonance, _ | .nearNyquist, _ | .feedbackHowl, _ | .fmMetal, _
  | .doppler, _ | .aliasingBuzz, _ => isTrue trivial

/-- A well-formed engine state: every generator record satisfies its memory-safety
condition.  The power-on state is well-formed and every call of the engine keeps the state
well-formed (`init_valid`, `reachable_valid`). -/
def State.Valid (s : State) : Prop := ∀ g, GenValid g (s.gen g)

/-- Well-formedness of a state can be checked by evaluation. -/
instance State.Valid.decidable (s : State) : Decidable s.Valid := by
  unfold State.Valid
  infer_instance


/-- The states the engine can be in: the power-on state, and the states that calls of
`nextAudioSample`, `setMasterGain` and `initAudioState` lead to. -/
inductive Reachable (L : Libm) : State → Prop where
  | init : Reachable L State.init
  | sample (t : NoiseType) (d : Nat → Nat) (s s1 : State) (v : Nat) :
      Reachable L s → nextAudioSample L t d s = some (s1, v) → Reachable L s1
  | gain (g : ℚ) (s : State) : Reachable L s → Reachable L (setMasterGain g s)
  | reinit (s : State) : Reachable L s → Reachable L (initAudioState s)

/-- What the output for selector `t` can depend on: the master gain and the record of the
generator that serves `t`. -/
def SameFor (t : NoiseType) (s1 s2 : State) : Prop :=
  s1.g_masterGain = s2.g_masterGain ∧ ∀ g, generatorOf t = some g → s1.gen g = s2.gen g

/-- The selector whose arm calls generator function `g`; for `nextToneSample`, which seven
arms call, the first of them. -/
def selectorOf : Generator → NoiseType
  | .white => NOISE_WHITE
  | .pink => NOISE_PINK
  | .brown => NOISE_BROWN
  | .blue => NOISE_BLUE
  | .violet => NOISE_VIOLET
  | .tone => TONE_SINE
  | .shepardUp => TONE_SHEPARD
  | .shepardDown => TONE_SHEPARD_DOWN
  | .karplus => TONE_KARPLUS
  | .modalDrum => TONE_MODAL_DRUM
  | .granular => TONE_GRANULAR
  | .superSaw => TONE_SUPERSAW
  | .pwm => TONE_PWM
  | .bitcrush => FX_BITCRUSH
  | .phaseDist => TONE_PHASE_DIST
  | .wavefold => TONE_WAVEFOLD
  | .bandpassNoise => NOISE_BANDPASS
  | .euclid => RHYTHM_EUCLIDEAN
  | .euclid716 => RHYTHM_EUCLIDEAN_7_16
  | .poly34 => RHYTHM_POLY_3_4
  | .ringMod => TONE_RING_MOD
  | .chorus => TONE_CHORUS
  | .sampleHold => FX_SAMPLE_HOLD
  | .formant => FX_FORMANT
  | .sync => TONE_SYNC
  | .superSquare => TONE_SUPER_SQUARE
  | .isochronic => TONE_ISOCHRONIC
  | .acousticBeat => TONE_ACOUSTIC_BEAT
  | .missingFund => TONE_MISSING_FUND
  | .combinationTone => TONE_COMBINATION_TONES
  | .infrasound => TONE_INFRASOUND
  | .somaticBass => TONE_SOMATIC_BASS
  | .earResonance => TONE_EAR_RESONANCE
  | .nearNyquist => TONE_NEAR_NYQUIST
  | .feedbackHowl => TONE_FEEDBACK_HOWL
  | .fmMetal => TONE_FM_METAL
  | .stutter => FX_STUTTER
  | .phaser => FX_PHASER
  | .doppler => FX_DOPPLER
  | .gatedReverb => FX_GATED_REVERB
  | .aliasingBuzz => FX_ALIASING_BUZZ

/-- A concrete `Libm` for evaluating the engine on examples: every function is constantly
zero. -/
def Libm.zero : Libm :=
  { sinf := fun _ => 0, cosf := fun _ => 0, tanhf := fun _ => 0, sqrtf := fun _ => 0,
    expf := fun _ => 0, log2f := fun _ => 0, powf := fun _ _ => 0, ctz0 := 32 }

/-- A renderer state for examples: an all-zero ring. -/
def VisualState.zero : VisualState :=
  { g_visualType := NOISE_WHITE, g_visRing := fun _ => 0, g_visWriteIdx := 0 }

/-! ## Track table (types.cpp) -/

/-- Transcription of `getCurrentNoiseType`. -/
def getCurrentNoiseType (trackIndex : Int) : NoiseType :=
  match trackIndex with
  | 0 => NOISE_WHITE
  | 1 => NOISE_PINK
  | 2 => NOISE_BROWN
  | 3 => NOISE_VIOLET
  | 4 => TONE_SINE
  | 5 => TONE_SQUARE
  | 6 => TONE_TRIANGLE
  | 7 => TONE_SAW
  | 8 => TONE_CHIRP
  | 9 => TONE_SHEPARD
  | 10 => TONE_FM_BELL
  | 11 => TONE_AM_TREMOLO
  | 12 => TONE_SHEPARD_DOWN
  | 13 => TONE_KARPLUS
  | 14 => TONE_MODAL_DRUM
  | 15 => TONE_GRANULAR
  | 16 => TONE_SUPERSAW
  | 17 => TONE_PWM
  | 18 => FX_BITCRUSH
  | 19 => TONE_PHASE_DIST
  | 20 => TONE_WAVEFOLD
  | 21 => NOISE_BANDPASS
  | 22 => RHYTHM_EUCLIDEAN
  | 23 => RHYTHM_EUCLIDEAN_7_16
  | 24 => RHYTHM_POLY_3_4
  | 25 => TONE_RING_MOD
  | 26 => TONE_CHORUS
  | 27 => FX_SAMPLE_HOLD
  | 28 => FX_FORMANT
  | 29 => TONE_SYNC
  | 30 => TONE_SUPER_SQUARE
  | 31 => TONE_ISOCHRONIC
  | 32 => TONE_ACOUSTIC_BEAT
  | 33 => TONE_MISSING_FUND
  | 34 => TONE_COMBINATION_TONES
  | 35 => TONE_INFRASOUND
  | 36 => TONE_SOMATIC_BASS
  | 37 => TONE_EAR_RESONANCE
  | 38 => TONE_NEAR_NYQUIST
  | 39 => TONE_FEEDBACK_HOWL
  | 40 => TONE_FM_METAL
  | 41 => FX_STUTTER
  | 42 => FX_PHASER
  | 43 => FX_DOPPLER
  | 44 => FX_GATED_REVERB
  | 45 => FX_ALIASING_BUZZ
  | _ => NOISE_WHITE

/-! ## Vocabulary of the generator properties -/

/-- The state before call number `k` (counting from 0) of consecutive calls of a generator
step `f` started on `st`; `none` when an earlier call failed. -/
def iterCalls {σ : Type} (f : σ → Option (σ × Nat)) : Nat → σ → Option σ
  | 0, st => some st
  | k + 1, st =>
    match iterCalls f k st with
    | none => none
    | some s => (f s).map Prod.fst

/-- Whether a call of the rhythm gate on `st` advances the pattern onto a hit: the test
`--toStep <= 0` succeeds and `pat[idx]` is set. -/
def euclidHit (pat : List Bool) (st : EuclidState) : Prop :=
  st.toStep - 1 ≤ 0 ∧ pat.getD st.idx.toNat false = true

/-- The hit test can be evaluated. -/
instance euclidHit.decidable (pat : List Bool) (st : EuclidState) :
    Decidable (euclidHit pat st) := by
  unfold euclidHit
  infer_instance

/-- The signal level held in the first `n` cells of a buffer: the largest absolute cell
value (0 for an empty range). -/
def bufLevel (n : Nat) (buf : Nat → ℚ) : ℚ :=
  ((List.range n).map (fun i => |buf i|)).foldr max 0

/-- Whether a call of `nextKarplusU8` on `st` fills the buffer with random values: the
first call (`len == 0`, the initial pluck) or a call on which the re-pluck timer fires
(`--repluck <= 0`). -/
def karplusPlucks (st : KarplusState) : Prop := st.len = 0 ∨ st.repluck - 1 ≤ 0

/-- The pluck test can be evaluated. -/
instance karplusPlucks.decidable (st : KarplusState) : Decidable (karplusPlucks st) := by
  unfold karplusPlucks
  infer_instance

/-- Bhaskara's rational approximation of the sine, `16 y (π - y) / (5 π² - 4 y (π - y))` on
`[0, π]`, continued by `sin (y + π) = - sin y` and by periodicity; it stays within 0.002 of
the sine. -/
def bhaskaraSin (x : ℚ) : ℚ :=
  let PI : ℚ := 3.14159265
  let y := x - 2 * PI * ⌊x / (2 * PI)⌋
  if y < PI then 16 * y * (PI - y) / (5 * PI * PI - 4 * y * (PI - y))
  else -(16 * (y - PI) * (2 * PI - y) / (5 * PI * PI - 4 * (y - PI) * (2 * PI - y)))

/-- A concrete `Libm` with trigonometry, for evaluating the oscillators on examples: `sinf`
and `cosf` are Bhaskara's approximation (`cos x = sin (x + π/2)`); the other functions are
constantly zero and play no part where this value is used. -/
def Libm.trig : Libm :=
  { sinf := bhaskaraSin, cosf := fun x => bhaskaraSin (x + 3.14159265 / 2),
    tanhf := fun _ => 0, sqrtf := fun _ => 0, expf := fun _ => 0, log2f := fun _ => 0,
    powf := fun _ _ => 0, ctz0 := 32 }

/-- The state of `nextPinkSample` after `n` calls from power-on, that is, before call
number `n + 1`; `ds k` holds the draws of call number `k + 1`. -/
def pinkCalls (L : Libm) (ds : Nat → Nat → Nat) : Nat → PinkState
  | 0 => initOf .pink
  | n + 1 => (nextPinkSample L (ds n) (pinkCalls L ds n)).1

/-- The last register written by the refresh loop `for (i = 0; i <= ctz; ++i)` of a call of
`nextPinkSample` on `st`: the trailing-zero count of the incremented counter, capped at
`OCTAVES - 1`. -/
def pinkRefreshTop (L : Libm) (st : PinkState) : Nat :=
  let ctzRaw := ctz32 L ((st.counter + 1) % 2 ^ 32)
  if ctzRaw ≥ 16 then 16 - 1 else ctzRaw

/-- The states of the tone globals that calls of `nextToneSample(TONE_CHIRP)` reach from
power-on. -/
inductive ChirpReachable (L : Libm) : ToneState → Prop where
  | init : ChirpReachable L (initOf .tone)
  | call (d : Nat → Nat) (st : ToneState) :
      ChirpReachable L st → ChirpReachable L (nextToneSample L TONE_CHIRP d st).1

/-! ## Vocabulary of the reachability and math-library properties -/

/-- The records of generator `g` that calls of its generator function reach from power-on
(whatever selector and random draws each call is given). -/
inductive GenReachable (L : Libm) (g : Generator) : StateOf g → Prop where
  | init : GenReachable L g (initOf g)
  | call (t : NoiseType) (d : Nat → Nat) (st st1 : StateOf g) (r : Nat) :
      GenReachable L g st → genStep L t d g st = some (st1, r) → GenReachable L g st1

/-- Whether a call of the rhythm gate on `st` advances the pattern: the test
`--toStep <= 0` succeeds. -/
def euclidAdvances (st : EuclidState) : Prop := st.toStep - 1 ≤ 0

/-- The advance test can be evaluated. -/
instance euclidAdvances.decidable (st : EuclidState) : Decidable (euclidAdvances st) := by
  unfold euclidAdvances
  infer_instance

/-- The waveform of `nextMissingFundU8` at phase `p` before the output scaling `v *= 0.9f`:
the four `v += ...` statements. -/
def missingFundWave (L : Libm) (p : ℚ) : ℚ :=
  0 + (1 / 2) * L.sinf (2 * p) + (1 / 3) * L.sinf (3 * p) + (1 / 4) * L.sinf (4 * p)
    + (1 / 5) * L.sinf (5 * p)

/-- The waveform as the specification words it: the unweighted sum of harmonics 2, 3, 4 and
5 of the phase `p`. -/
def unweightedHarmonics (L : Libm) (p : ℚ) : ℚ :=
  L.sinf (2 * p) + L.sinf (3 * p) + L.sinf (4 * p) + L.sinf (5 * p)

/-- What the Shepard generators rely on from the math library, each a property of the real
`powf`, `expf`, `log2f` and `sinf` on the arguments the generators pass: `powf(2, 0)` is 1,
the per-sample glide factor `powf(2, 1/(SAMPLE_RATE_HZ*6))` lies in [1,2], `expf` is never
negative and is positive from -7 upward, `log2f` stays within [-2,2] on [1/4,4], and `sinf`
stays within [-1,1]. -/
def ShepardLibm (L : Libm) : Prop :=
  L.powf 2 0 = 1 ∧
  1 ≤ L.powf 2 (1 / ((SAMPLE_RATE_HZ : ℚ) * 6)) ∧
  L.powf 2 (1 / ((SAMPLE_RATE_HZ : ℚ) * 6)) ≤ 2 ∧
  (∀ x, 0 ≤ L.expf x) ∧ (∀ x, -7 ≤ x → 0 < L.expf x) ∧
  (∀ y, 1 / 4 ≤ y → y ≤ 4 → |L.log2f y| ≤ 2) ∧
  (∀ x, |L.sinf x| ≤ 1)

/-- A rational stand-in for the math library in closed examples of the Shepard generators:
clamped Bhaskara sine and cosine, `expf x` as 1 / (1 + x^2), `log2f y` as y - 1 clamped to
[-2,2], `powf b e` by its first-order expansion 1 + e * (b - 1) (1 at e = 0). -/
def Libm.firstOrder : Libm :=
  { sinf := fun x => clampLoHi (-1) 1 (bhaskaraSin x)
    cosf := fun x => clampLoHi (-1) 1 (bhaskaraSin (x + 3.14159265 / 2))
    tanhf := fun x => clampLoHi (-1) 1 x
    sqrtf := fun _ => 0
    expf := fun x => 1 / (1 + x * x)
    log2f := fun y => clampLoHi (-2) 2 (y - 1)
    powf := fun b e => 1 + e * (b - 1)
    ctz0 := 32 }

/-- The grain that the spawn block of `nextGranularU8` writes from the draws of a call. -/
def spawnedGrain (L : Libm) (d : Nat → Nat) : Grain :=
  { isOn := true
    phase := 0
    dphase := TAU_F * (random 200 2000 (d 1) : ℚ) / (SAMPLE_RATE_HZ : ℚ)
    amp := 0.15 + (random 0 100 (d 3) : ℚ) * 0.003
    adec := L.powf 0.001 (1 / ((random (truncI (0.05 * (SAMPLE_RATE_HZ : ℚ)))
      (truncI (0.20 * (SAMPLE_RATE_HZ : ℚ))) (d 2) : Int) : ℚ))
    left := random (truncI (0.05 * (SAMPLE_RATE_HZ : ℚ)))
      (truncI (0.20 * (SAMPLE_RATE_HZ : ℚ))) (d 2) }

/-- The body of the update loop of `nextGranularU8` on one active grain: advance and wrap
the phase, `amp *= adec`, `if (--left <= 0 || amp < 0.001f) on = false`. -/
def grainTick (g : Grain) : Grain :=
  { isOn := !(decide (g.left - 1 ≤ 0) || decide (g.amp * g.adec < 0.001))
    phase := wrapTau (g.phase + g.dphase)
    dphase := g.dphase
    amp := g.amp * g.adec
    adec := g.adec
    left := g.left - 1 }

/-- The state after `k` consecutive calls of `nextGranularU8` from `st`, call number `j`
(from 0) taking the draws `ds j`. -/
def granularCalls (L : Libm) (ds : Nat → Nat → Nat) : Nat → GranularState → GranularState
  | 0, st => st
  | k + 1, st => (nextGranularU8 L (ds k) (granularCalls L ds k st)).1

/-- Accuracy asked of `powf(0.001, 1/dur)`, the per-sample decay of a grain of duration
`dur`: the value lies in [0.98, 1] and its `dur`-th power is at most 0.0011 (the exact root
has `dur`-th power 0.001 and lies in [0.9875, 0.9969] for 551 <= dur <= 2204). -/
def GrainDecayAccurate (L : Libm) (dur : Int) : Prop :=
  0.98 ≤ L.powf 0.001 (1 / (dur : ℚ)) ∧ L.powf 0.001 (1 / (dur : ℚ)) ≤ 1 ∧
  L.powf 0.001 (1 / (dur : ℚ)) ^ dur.toNat ≤ 0.0011

/-- A math library for closed examples of the grain decay: `powf b e` as 1 - 7 * e, which
for b = 0.001 and e = 1/551 is 544/551 (the exact root is about 0.98754). -/
def Libm.grainDecay : Libm :=
  { sinf := fun _ => 0, cosf := fun _ => 0, tanhf := fun _ => 0, sqrtf := fun _ => 0,
    expf := fun _ => 0, log2f := fun _ => 0, powf := fun _ e => 1 - 7 * e, ctz0 := 32 }

theorem bitLength_zero (fuel : Nat) : bitLength fuel 0 = 0 := by
  cases fuel <;> simp [bitLength]

theorem bitLength_spec (fuel : Nat) :
    ∀ n, n < 2 ^ fuel → n ≠ 0 →
      ∃ l, bitLength fuel n = l + 1 ∧ 2 ^ l ≤ n ∧ n < 2 ^ (l + 1) := by
  induction fuel with
  | zero =>
    intro n h hn
    simp at h
    exact absurd h hn
  | succ fuel ih =>
    intro n h hn
    have e : bitLength (fuel + 1) n = bitLength fuel (n / 2) + 1 := by
      simp [bitLength, hn]
    by_cases h2 : n / 2 = 0
    · refine ⟨0, ?_, ?_, ?_⟩
      · rw [e, h2, bitLength_zero]
      · simp
        omega
      · simp
        omega
    · have hlt : n / 2 < 2 ^ fuel := by
        rw [pow_succ] at h
        omega
      obtain ⟨l, hl, h1, h3⟩ := ih (n / 2) hlt h2
      refine ⟨l + 1, ?_, ?_, ?_⟩
      · rw [e, hl]
      · rw [pow_succ]
        omega
      · rw [pow_succ] at h3 ⊢
        omega

theorem log2_of_bits (a : ℚ) (N D ln ld : Nat) (hpos : 0 < a) (hD : 0 < D)
    (ha : a = (N : ℚ) / (D : ℚ)) (n1 : 2 ^ ln ≤ N) (n2 : N < 2 ^ (ln + 1))
    (d1 : 2 ^ ld ≤ D) (d2 : D < 2 ^ (ld + 1)) :
    (if (2 : ℚ) ^ ((ln : Int) - (ld : Int)) ≤ a then (ln : Int) - (ld : Int)
      else (ln : Int) - (ld : Int) - 1) = Int.log 2 a := by
  have hdpos : (0 : ℚ) < (D : ℚ) := by exact_mod_cast hD
  have n1' : (2 : ℚ) ^ ln ≤ (N : ℚ) := by exact_mod_cast n1
  have n2' : (N : ℚ) < (2 : ℚ) ^ (ln + 1) := by exact_mod_cast n2
  have d1' : (2 : ℚ) ^ ld ≤ (D : ℚ) := by exact_mod_cast d1
  have d2' : (D : ℚ) < (2 : ℚ) ^ (ld + 1) := by exact_mod_cast d2
  have p2 : ∀ m : Nat, (0 : ℚ) < 2 ^ m := fun m => pow_pos (by norm_num) m
  have up : a < (2 : ℚ) ^ ((ln : Int) - (ld : Int) + 1) := by
    have e : (2 : ℚ) ^ ((ln : Int) - (ld : Int) + 1) = (2 : ℚ) ^ (ln + 1) / (2 : ℚ) ^ ld := by
      rw [show (ln : Int) - (ld : Int) + 1 = ((ln + 1 : Nat) : Int) - ((ld : Nat) : Int) by
        push_cast; ring]
      rw [zpow_sub₀ (by norm_num : (2 : ℚ) ≠ 0), zpow_natCast, zpow_natCast]
    rw [e, ha, div_lt_div_iff₀ hdpos (p2 _)]
    calc (N : ℚ) * 2 ^ ld < 2 ^ (ln + 1) * 2 ^ ld := mul_lt_mul_of_pos_right n2' (p2 _)
      _ ≤ 2 ^ (ln + 1) * (D : ℚ) := mul_le_mul_of_nonneg_left d1' (le_of_lt (p2 _))
  have lo : (2 : ℚ) ^ ((ln : Int) - (ld : Int) - 1) ≤ a := by
    have e : (2 : ℚ) ^ ((ln : Int) - (ld : Int) - 1) = (2 : ℚ) ^ ln / (2 : ℚ) ^ (ld + 1) := by
      rw [show (ln : Int) - (ld : Int) - 1 = ((ln : Nat) : Int) - ((ld + 1 : Nat) : Int) by
        push_cast; ring]
      rw [zpow_sub₀ (by norm_num : (2 : ℚ) ≠ 0), zpow_natCast, zpow_natCast]
    rw [e, ha, div_le_div_iff₀ (p2 _) hdpos]
    calc (2 : ℚ) ^ ln * (D : ℚ) ≤ 2 ^ ln * 2 ^ (ld + 1) :=
          mul_le_mul_of_nonneg_left (le_of_lt d2') (le_of_lt (p2 _))
      _ ≤ (N : ℚ) * 2 ^ (ld + 1) := mul_le_mul_of_nonneg_right n1' (le_of_lt (p2 _))
  have h2 : ((2 : Nat) : ℚ) = 2 := by norm_num
  split_ifs with h
  · apply le_antisymm
    · apply (Int.zpow_le_iff_le_log (by norm_num : 1 < 2) hpos).mp
      rw [h2]
      exact h
    · have := (Int.lt_zpow_iff_log_lt (by norm_num : 1 < 2) hpos).mp (by rw [h2]; exact up)
      omega
  · apply le_antisymm
    · apply (Int.zpow_le_iff_le_log (by norm_num : 1 < 2) hpos).mp
      rw [h2]
      exact lo
    · have := (Int.lt_zpow_iff_log_lt (by norm_num : 1 < 2) hpos).mp
        (by rw [h2]; exact lt_of_not_le h)
      omega

/-- On positive rationals `log2Floor` is the floor of the binary logarithm. -/
theorem log2Floor_eq_log (a : ℚ) (ha : 0 < a) : log2Floor a = Int.log 2 a := by
  have hn0 : 0 < a.num := Rat.num_pos.mpr ha
  have hn : a.num.natAbs ≠ 0 := by
    intro h
    have := Int.natAbs_eq_zero.mp h
    omega
  have hd : a.den ≠ 0 := a.den_nz
  have hnum : ((a.num.natAbs : Nat) : ℚ) = (a.num : ℚ) := by
    have h1 : ((a.num.natAbs : Nat) : Int) = a.num := Int.natAbs_of_nonneg (le_of_lt hn0)
    calc ((a.num.natAbs : Nat) : ℚ) = (((a.num.natAbs : Nat) : Int) : ℚ) :=
          (Int.cast_natCast _).symm
      _ = (a.num : ℚ) := by rw [h1]
  have ea : a = ((a.num.natAbs : Nat) : ℚ) / ((a.den : Nat) : ℚ) := by
    rw [hnum]
    exact (Rat.num_div_den a).symm
  obtain ⟨ln, hln, n1, n2⟩ := bitLength_spec a.num.natAbs a.num.natAbs (Nat.lt_two_pow _) hn
  obtain ⟨ld, hld, d1, d2⟩ := bitLength_spec a.den a.den (Nat.lt_two_pow _) hd
  have hk : ((bitLength a.num.natAbs a.num.natAbs : Nat) : Int)
      - ((bitLength a.den a.den : Nat) : Int) = (ln : Int) - (ld : Int) := by
    rw [hln, hld]
    push_cast
    ring
  unfold log2Floor
  rw [hk]
  exact log2_of_bits a a.num.natAbs a.den ln ld ha (Nat.pos_of_ne_zero hd) ea n1 n2 d1 d2

/-- The rounding exponent of a positive magnitude is the floor of its binary logarithm,
held at -126 from below. -/
theorem f32Exp_eq (a : ℚ) (ha : 0 < a) : f32Exp a = max (Int.log 2 a) (-126) := by
  unfold f32Exp
  rw [log2Floor_eq_log a ha]

theorem roundEven_bounds (y : ℚ) :
    (⌊y⌋ ≤ roundEven y ∧ roundEven y ≤ ⌊y⌋ + 1) ∧
    |(roundEven y : ℚ) - y| ≤ 1 / 2 := by
  have h1 := Int.floor_le y
  have h2 := Int.lt_floor_add_one y
  unfold roundEven
  split_ifs with a b c
  · refine ⟨⟨le_refl _, by omega⟩, ?_⟩
    rw [abs_le]
    constructor <;> linarith
  · refine ⟨⟨by omega, le_refl _⟩, ?_⟩
    rw [abs_le]
    push_cast
    constructor <;> linarith
  · refine ⟨⟨le_refl _, by omega⟩, ?_⟩
    rw [abs_le]
    constructor <;> linarith
  · refine ⟨⟨by omega, le_refl _⟩, ?_⟩
    rw [abs_le]
    push_cast
    constructor <;> linarith

theorem roundEven_intCast (n : Int) : roundEven (n : ℚ) = n := by
  unfold roundEven
  simp

theorem roundEven_mono (y z : ℚ) (h : y ≤ z) : roundEven y ≤ roundEven z := by
  have hf : ⌊y⌋ ≤ ⌊z⌋ := Int.floor_mono h
  rcases lt_or_eq_of_le hf with hlt | heq
  · have := (roundEven_bounds y).1.2
    have := (roundEven_bounds z).1.1
    omega
  · unfold roundEven
    rw [heq]
    split_ifs <;> first | omega | (exfalso; linarith)

theorem roundEven_neg (y : ℚ) : roundEven (-y) = -roundEven y := by
  by_cases hi : (⌊y⌋ : ℚ) = y
  · rw [← hi, ← Int.cast_neg, roundEven_intCast, roundEven_intCast]
  · have h1 := Int.floor_le y
    have h2 := Int.lt_floor_add_one y
    have h3 : (⌊y⌋ : ℚ) < y := lt_of_le_of_ne h1 hi
    have hfl : ⌊-y⌋ = -⌊y⌋ - 1 := by
      rw [Int.floor_eq_iff]
      push_cast
      constructor <;> linarith
    unfold roundEven
    rw [hfl]
    push_cast
    split_ifs <;> first | omega | (exfalso; linarith)

theorem f32_zero : f32 0 = 0 := by
  unfold f32
  rw [if_pos rfl]

theorem f32_neg (x : ℚ) : f32 (-x) = -f32 x := by
  unfold f32
  by_cases h : x = 0
  · subst h
    simp
  · rw [if_neg h, if_neg (neg_ne_zero.mpr h), abs_neg, neg_div, roundEven_neg]
    push_cast
    ring

theorem two_zpow_pos (e : Int) : (0 : ℚ) < 2 ^ e := zpow_pos (by norm_num) e

/-- A positive value rounds into the closed binade it lies in. -/
theorem f32_pos_bounds (x : ℚ) (hx : 0 < x) :
    0 ≤ f32 x ∧ f32 x ≤ 2 ^ (f32Exp x + 1) ∧
    ((2 : ℚ) ^ f32Exp x ≤ x → (2 : ℚ) ^ f32Exp x ≤ f32 x) ∧
    |f32 x - x| ≤ 2 ^ (f32Exp x - 24) := by
  have hu := two_zpow_pos (f32Exp x - 23)
  have hlt : x < 2 ^ (f32Exp x + 1) := by
    have h1 : x < (2 : ℚ) ^ (Int.log 2 x + 1) := by
      have := Int.lt_zpow_succ_log_self (b := 2) (by norm_num) x
      exact_mod_cast this
    have h2 : (2 : ℚ) ^ (Int.log 2 x + 1) ≤ 2 ^ (f32Exp x + 1) :=
      zpow_le_zpow_right₀ (by norm_num) (by rw [f32Exp_eq x hx]; omega)
    linarith
  have e24 : (2 : ℚ) ^ (f32Exp x + 1) = (16777216 : ℚ) * 2 ^ (f32Exp x - 23) := by
    rw [show f32Exp x + 1 = 24 + (f32Exp x - 23) by ring, zpow_add₀ (by norm_num)]
    norm_num
  have e23 : (2 : ℚ) ^ (f32Exp x) = (8388608 : ℚ) * 2 ^ (f32Exp x - 23) := by
    rw [show f32Exp x = 23 + (f32Exp x - 23) by ring, zpow_add₀ (by norm_num)]
    norm_num
  have e22 : (2 : ℚ) ^ (f32Exp x - 24) = (1 / 2 : ℚ) * 2 ^ (f32Exp x - 23) := by
    rw [show f32Exp x - 24 = (-1) + (f32Exp x - 23) by ring, zpow_add₀ (by norm_num)]
    norm_num
  have hf : f32 x = (roundEven (x / 2 ^ (f32Exp x - 23)) : ℚ) * 2 ^ (f32Exp x - 23) := by
    unfold f32
    rw [if_neg (ne_of_gt hx), abs_of_pos hx]
  rw [hf]
  refine ⟨?_, ?_, ?_, ?_⟩
  · have : (0 : Int) ≤ roundEven (x / 2 ^ (f32Exp x - 23)) := by
      have := roundEven_mono ((0 : Int) : ℚ) (x / 2 ^ (f32Exp x - 23))
        (by push_cast; exact le_of_lt (div_pos hx hu))
      rw [roundEven_intCast] at this
      exact this
    have h0 : (0 : ℚ) ≤ (roundEven (x / 2 ^ (f32Exp x - 23)) : ℚ) := by exact_mod_cast this
    exact mul_nonneg h0 (le_of_lt hu)
  · have : roundEven (x / 2 ^ (f32Exp x - 23)) ≤ (16777216 : Int) := by
      have := roundEven_mono (x / 2 ^ (f32Exp x - 23)) ((16777216 : Int) : ℚ) (by
        push_cast
        rw [div_le_iff₀ hu, ← e24]
        exact le_of_lt hlt)
      rw [roundEven_intCast] at this
      exact this
    have h0 : (roundEven (x / 2 ^ (f32Exp x - 23)) : ℚ) ≤ 16777216 := by exact_mod_cast this
    rw [e24]
    exact mul_le_mul_of_nonneg_right h0 (le_of_lt hu)
  · intro hge
    have : (8388608 : Int) ≤ roundEven (x / 2 ^ (f32Exp x - 23)) := by
      have := roundEven_mono ((8388608 : Int) : ℚ) (x / 2 ^ (f32Exp x - 23)) (by
        push_cast
        rw [le_div_iff₀ hu, ← e23]
        exact hge)
      rw [roundEven_intCast] at this
      exact this
    have h0 : (8388608 : ℚ) ≤ (roundEven (x / 2 ^ (f32Exp x - 23)) : ℚ) := by exact_mod_cast this
    rw [e23]
    exact mul_le_mul_of_nonneg_right h0 (le_of_lt hu)
  · have hb := (roundEven_bounds (x / 2 ^ (f32Exp x - 23))).2
    have hx2 : x = x / 2 ^ (f32Exp x - 23) * 2 ^ (f32Exp x - 23) := by
      field_simp
    have : (roundEven (x / 2 ^ (f32Exp x - 23)) : ℚ) * 2 ^ (f32Exp x - 23) - x
        = ((roundEven (x / 2 ^ (f32Exp x - 23)) : ℚ) - x / 2 ^ (f32Exp x - 23))
          * 2 ^ (f32Exp x - 23) := by
      field_simp
    rw [this, abs_mul, abs_of_pos hu, e22]
    exact mul_le_mul_of_nonneg_right hb (le_of_lt hu)

theorem f32Exp_mono (x y : ℚ) (hx : 0 < x) (h : x ≤ y) : f32Exp x ≤ f32Exp y := by
  rw [f32Exp_eq x hx, f32Exp_eq y (lt_of_lt_of_le hx h)]
  exact max_le_max (Int.log_mono_right hx h) (le_refl _)

theorem f32_mono_pos (x y : ℚ) (hx : 0 < x) (h : x ≤ y) : f32 x ≤ f32 y := by
  have hy : 0 < y := lt_of_lt_of_le hx h
  rcases lt_or_eq_of_le (f32Exp_mono x y hx h) with hlt | heq
  · have h1 := (f32_pos_bounds x hx).2.1
    have hlog : f32Exp y = Int.log 2 y := by
      rw [f32Exp_eq x hx, f32Exp_eq y hy] at hlt
      rw [f32Exp_eq y hy]
      omega
    have hge : (2 : ℚ) ^ f32Exp y ≤ y := by
      rw [hlog]
      have := Int.zpow_log_le_self (b := 2) (by norm_num) hy
      exact_mod_cast this
    have h2 := (f32_pos_bounds y hy).2.2.1 hge
    have h3 : (2 : ℚ) ^ (f32Exp x + 1) ≤ 2 ^ f32Exp y :=
      zpow_le_zpow_right₀ (by norm_num) (by omega)
    linarith
  · unfold f32
    rw [if_neg (ne_of_gt hx), if_neg (ne_of_gt hy), abs_of_pos hx, abs_of_pos hy, heq]
    have hu := two_zpow_pos (f32Exp y - 23)
    have := roundEven_mono (x / 2 ^ (f32Exp y - 23)) (y / 2 ^ (f32Exp y - 23))
      (div_le_div_of_nonneg_right h (le_of_lt hu))
    have h0 : (roundEven (x / 2 ^ (f32Exp y - 23)) : ℚ)
        ≤ (roundEven (y / 2 ^ (f32Exp y - 23)) : ℚ) := by exact_mod_cast this
    exact mul_le_mul_of_nonneg_right h0 (le_of_lt hu)

theorem f32_nonneg (x : ℚ) (hx : 0 ≤ x) : 0 ≤ f32 x := by
  rcases eq_or_lt_of_le hx with h | h
  · rw [← h, f32_zero]
  · exact (f32_pos_bounds x h).1

theorem f32_nonpos (x : ℚ) (hx : x ≤ 0) : f32 x ≤ 0 := by
  have := f32_nonneg (-x) (by linarith)
  rw [f32_neg] at this
  linarith

/-- Rounding to `float` is monotone. -/
theorem f32_mono (x y : ℚ) (h : x ≤ y) : f32 x ≤ f32 y := by
  rcases lt_trichotomy x 0 with hx | hx | hx
  · rcases lt_or_le y 0 with hy | hy
    · have := f32_mono_pos (-y) (-x) (by linarith) (by linarith)
      rw [f32_neg, f32_neg] at this
      linarith
    · exact le_trans (f32_nonpos x (le_of_lt hx)) (f32_nonneg y hy)
  · subst hx
    rw [f32_zero]
    exact f32_nonneg y h
  · exact f32_mono_pos x y hx h

/-- The rounding error of `float`: half a unit in the last place. -/
theorem f32_error (x : ℚ) : |f32 x - x| ≤ |x| / 16777216 + 1 / 2 ^ 150 := by
  have key : ∀ x : ℚ, 0 < x → |f32 x - x| ≤ |x| / 16777216 + 1 / 2 ^ 150 := by
    intro x hx
    have h := (f32_pos_bounds x hx).2.2.2
    rw [abs_of_pos hx]
    have e : (2 : ℚ) ^ (f32Exp x - 24) = 2 ^ f32Exp x / 16777216 := by
      rw [zpow_sub₀ (by norm_num)]
      norm_num
    rw [e] at h
    by_cases hl : Int.log 2 x ≤ -126
    · have h1 : f32Exp x = -126 := by
        rw [f32Exp_eq x hx]
        omega
      rw [h1] at h
      have e2 : (2 : ℚ) ^ (-126 : Int) / 16777216 = 1 / 2 ^ 150 := by
        rw [zpow_neg, show ((126 : Int)) = ((126 : Nat) : Int) by rfl, zpow_natCast]
        norm_num
      rw [e2] at h
      have : 0 ≤ x / 16777216 := by positivity
      linarith
    · have h1 : f32Exp x = Int.log 2 x := by
        rw [f32Exp_eq x hx]
        omega
      have hge : (2 : ℚ) ^ f32Exp x ≤ x := by
        rw [h1]
        have := Int.zpow_log_le_self (b := 2) (by norm_num) hx
        exact_mod_cast this
      have : (2 : ℚ) ^ f32Exp x / 16777216 ≤ x / 16777216 :=
        div_le_div_of_nonneg_right hge (by norm_num)
      have : (0 : ℚ) ≤ 1 / 2 ^ 150 := by positivity
      linarith
  rcases lt_trichotomy x 0 with hx | hx | hx
  · have := key (-x) (by linarith)
    rw [f32_neg, abs_neg] at this
    have e : -f32 x - -x = -(f32 x - x) := by ring
    rw [e, abs_neg] at this
    exact this
  · subst hx
    rw [f32_zero]
    simp
  · exact key x hx

/-- Integers below 2^24 are `float` values. -/
theorem f32_natCast (n : Nat) (hn : n < 2 ^ 24) : f32 (n : ℚ) = n := by
  rcases Nat.eq_zero_or_pos n with h0 | hpos
  · subst h0
    simp [f32_zero]
  · have hk : Nat.log 2 n < 24 := Nat.log_lt_of_lt_pow (by omega) hn
    have hne : (n : ℚ) ≠ 0 := Nat.cast_ne_zero.mpr (by omega)
    have he : f32Exp |(n : ℚ)| = (Nat.log 2 n : Int) := by
      rw [abs_of_nonneg (Nat.cast_nonneg n),
        f32Exp_eq _ (by exact_mod_cast hpos : (0 : ℚ) < (n : ℚ)), Int.log_natCast]
      omega
    obtain ⟨j, hj⟩ : ∃ j : Nat, (Nat.log 2 n : Int) - 23 = -(j : Int) :=
      ⟨23 - Nat.log 2 n, by omega⟩
    unfold f32
    rw [if_neg hne, he, hj, zpow_neg, zpow_natCast]
    have e : (n : ℚ) / ((2 : ℚ) ^ j)⁻¹ = (((n * 2 ^ j : Nat) : Int) : ℚ) := by
      push_cast
      field_simp
    rw [e, roundEven_intCast]
    push_cast
    field_simp

theorem f32_intCast (z : Int) (hz : |z| < 2 ^ 24) : f32 (z : ℚ) = z := by
  rcases le_total 0 z with h | h
  · obtain ⟨n, rfl⟩ := Int.eq_ofNat_of_zero_le h
    rw [abs_of_nonneg h] at hz
    have := f32_natCast n (by exact_mod_cast hz)
    exact_mod_cast this
  · obtain ⟨n, hn⟩ := Int.eq_ofNat_of_zero_le (neg_nonneg.mpr h)
    rw [abs_of_nonpos h, hn] at hz
    have := f32_natCast n (by exact_mod_cast hz)
    have e : (z : ℚ) = -((n : Nat) : ℚ) := by
      have : z = -(n : Int) := by omega
      rw [this]
      push_cast
      rfl
    rw [e, f32_neg, this]

theorem f32_one : f32 1 = 1 := by
  have := f32_natCast 1 (by norm_num)
  exact_mod_cast this

/-- Rounding to `float` keeps a value between two `float` bounds. -/
theorem f32_between_int (x : ℚ) (a b : Int) (ha : |a| < 2 ^ 24) (hb : |b| < 2 ^ 24)
    (h1 : (a : ℚ) ≤ x) (h2 : x ≤ (b : ℚ)) : (a : ℚ) ≤ f32 x ∧ f32 x ≤ (b : ℚ) := by
  have e1 := f32_mono _ _ h1
  have e2 := f32_mono _ _ h2
  rw [f32_intCast a ha] at e1
  rw [f32_intCast b hb] at e2
  exact ⟨e1, e2⟩

/-! ## Facts about the tables -/

theorem gainCase_none_of_ge (t : NoiseType) (h : 47 ≤ t) : gainCase t = none := by
  unfold gainCase
  split <;> first | rfl | exact absurd h (by decide)

theorem extraCase_none_of_ge (t : NoiseType) (h : 47 ≤ t) : extraCase t = none := by
  unfold extraCase
  split <;> first | rfl | exact absurd h (by decide)

theorem builtinCase_none_of_ge (t : NoiseType) (h : 32 ≤ t) : builtinCase t = none := by
  unfold builtinCase
  split <;> first | rfl | exact absurd h (by decide)

theorem isExtraType_false_of_ge (t : NoiseType) (h : 47 ≤ t) : isExtraType t = false := by
  unfold isExtraType extraTypeSupported
  split <;> first | rfl | exact absurd h (by decide)

theorem isExtraType_iff (t : NoiseType) : isExtraType t = true ↔ 32 ≤ t ∧ t ≤ 46 := by
  constructor
  · intro h
    rcases Nat.lt_or_ge t 32 with h1 | h1
    · interval_cases t <;> exact absurd h (by decide)
    · rcases Nat.lt_or_ge t 47 with h2 | h2
      · exact ⟨h1, Nat.lt_succ_iff.mp h2⟩
      · rw [isExtraType_false_of_ge t h2] at h
        exact absurd h (by decide)
  · rintro ⟨h1, h2⟩
    interval_cases t <;> rfl

theorem generatorOf_none_of_ge (t : NoiseType) (h : 47 ≤ t) : generatorOf t = none := by
  unfold generatorOf
  rw [isExtraType_false_of_ge t h]
  exact builtinCase_none_of_ge t (Nat.le_trans (by decide) h)

theorem generatorOf_some_of_lt (t : NoiseType) (h : t < 47) :
    ∃ g, generatorOf t = some g := by
  interval_cases t <;> exact ⟨_, rfl⟩

theorem generatorOf_selectorOf (t : NoiseType) (g : Generator) (h : generatorOf t = some g) :
    g = .tone ∨ selectorOf g = t := by
  rcases Nat.lt_or_ge t 47 with h1 | h1
  · interval_cases t <;> cases h <;> first | exact Or.inr rfl | exact Or.inl rfl
  · rw [generatorOf_none_of_ge t h1] at h
    exact absurd h (by simp)

theorem clampU8_le (v : Int) : clampU8 v ≤ 255 := by
  unfold clampU8
  split
  · exact Nat.zero_le _
  · split
    · exact Nat.le_refl _
    · omega

theorem tmod_bounds (a b : Int) (ha : 0 ≤ a) (hb : 0 < b) :
    0 ≤ Int.tmod a b ∧ Int.tmod a b < b :=
  ⟨Int.tmod_nonneg b ha, Int.tmod_lt_of_pos a hb⟩

theorem random_bounds (lo hi : Int) (raw : Nat) (h : lo < hi) :
    lo ≤ random lo hi raw ∧ random lo hi raw < hi := by
  unfold random
  rw [if_neg (by omega)]
  have h1 := Int.emod_nonneg (raw : Int) (show hi - lo ≠ 0 by omega)
  have h2 := Int.emod_lt_of_pos (raw : Int) (show 0 < hi - lo by omega)
  omega

theorem karplus_len_const : truncI ((SAMPLE_RATE_HZ : ℚ) / 196) = 56 := by decide!

theorem repluck_const : truncI (0.8 * (SAMPLE_RATE_HZ : ℚ)) = 8820 := by decide!

theorem nextKarplusU8_total (d : Nat → Nat) (st : KarplusState)
    (hv : GenValid .karplus st) :
    ∃ st1 r, nextKarplusU8 d st = some (st1, r) ∧ GenValid .karplus st1 ∧ r ≤ 255 := by
  obtain ⟨h1, h2, h3⟩ := hv
  unfold nextKarplusU8
  simp only [karplus_len_const, repluck_const, show ¬ ((56 : Int) < 8) by decide,
    show ¬ ((56 : Int) > 256) by decide, if_false]
  by_cases h0 : st.len = 0
  · have hb := tmod_bounds (st.idx + 1) 56 (by omega) (by omega)
    have c1 : ¬ ((8820 : Int) - 1 ≤ 0 ∧ (56 : Int) > 256) := by decide
    have c2 : ¬ ((56 : Int) = 0) := by decide
    have c3 : ¬ (st.idx < 0 ∨ 256 ≤ st.idx ∨ Int.tmod (st.idx + 1) 56 < 0 ∨
        256 ≤ Int.tmod (st.idx + 1) 56) := by omega
    simp only [h0, if_true, c1, c2, c3, if_false]
    exact ⟨_, _, rfl, ⟨hb.1, by dsimp only; omega, Or.inr ⟨by dsimp only; omega, by dsimp only; omega⟩⟩, clampU8_le _⟩
  · have hl : 1 ≤ st.len ∧ st.len ≤ 256 := by omega
    have hb := tmod_bounds (st.idx + 1) st.len (by omega) (by omega)
    have c1 : ¬ (st.repluck - 1 ≤ 0 ∧ st.len > 256) := by omega
    have c3 : ¬ (st.idx < 0 ∨ 256 ≤ st.idx ∨ Int.tmod (st.idx + 1) st.len < 0 ∨
        256 ≤ Int.tmod (st.idx + 1) st.len) := by omega
    simp only [h0, if_false, c1, c3]
    exact ⟨_, _, rfl, ⟨hb.1, by dsimp only; omega, Or.inr hl⟩, clampU8_le _⟩

theorem nextGatedReverbU8_total (d : Nat → Nat) (st : GatedReverbState)
    (hv : GenValid .gatedReverb st) :
    ∃ st1 r, nextGatedReverbU8 d st = some (st1, r) ∧ GenValid .gatedReverb st1 ∧ r ≤ 255 := by
  obtain ⟨h1, h2⟩ := hv
  have hb := tmod_bounds (st.w + 1) 900 (by omega) (by omega)
  have c1 : ¬ (Int.tmod (st.w + 1) 900 < 0 ∨ (900 : Int) ≤ Int.tmod (st.w + 1) 900) := by omega
  have c2 : ¬ (st.w < 0 ∨ (900 : Int) ≤ st.w) := by omega
  unfold nextGatedReverbU8
  dsimp only
  rw [if_neg c1, if_neg c2]
  exact ⟨_, _, rfl, ⟨hb.1, hb.2⟩, clampU8_le _⟩

theorem nextPhaserU8_total (L : Libm) (st : PhaserState)
    (hv : GenValid .phaser st) :
    ∃ st1 r, nextPhaserU8 L st = some (st1, r) ∧ GenValid .phaser st1 ∧ r ≤ 255 := by
  obtain ⟨h1, h2⟩ := hv
  have c2 : ¬ (st.w < 0 ∨ (512 : Int) ≤ st.w) := by omega
  unfold nextPhaserU8
  dsimp only
  rw [if_neg c2]
  exact ⟨_, _, rfl, ⟨Int.emod_nonneg _ (by decide), Int.emod_lt_of_pos _ (by decide)⟩,
    clampU8_le _⟩

theorem euclidGate_total (L : Libm) (pat : List Bool) (f decay : ℚ) (st : EuclidState)
    (hv : 0 ≤ st.idx ∧ st.idx < 16) :
    ∃ st1 r, euclidGate L pat f decay st = some (st1, r) ∧ (0 ≤ st1.idx ∧ st1.idx < 16)
      ∧ r ≤ 255 := by
  obtain ⟨h1, h2⟩ := hv
  have c1 : ¬ (st.toStep - 1 ≤ 0 ∧ (st.idx < 0 ∨ (16 : Int) ≤ st.idx)) := by omega
  unfold euclidGate
  dsimp only
  rw [if_neg c1]
  refine ⟨_, _, rfl, ⟨?_, ?_⟩, clampU8_le _⟩
  · dsimp only
    split
    · exact Int.emod_nonneg _ (by decide)
    · exact h1
  · dsimp only
    split
    · exact Int.emod_lt_of_pos _ (by decide)
    · exact h2

theorem stutter_lo_const : truncI (0.05 * (SAMPLE_RATE_HZ : ℚ)) = 551 := by decide!

theorem nextStutterU8_total (L : Libm) (d : Nat → Nat) (st : StutterState)
    (hv : GenValid .stutter st) :
    ∃ st1 r, nextStutterU8 L d st = some (st1, r) ∧ GenValid .stutter st1 ∧ r ≤ 255 := by
  obtain ⟨h1, h2, h3, h4⟩ := hv
  have hr := random_bounds 18 120 (d 0) (by omega)
  have hR : ¬ (random 18 120 (d 0) > 256) := by omega
  unfold nextStutterU8
  simp only [hR, if_false]
  by_cases hm : st.modeLeft ≤ 0
  · have hb := tmod_bounds (0 + 1) (random 18 120 (d 0)) (by omega) (by omega)
    have c1 : ¬ ((0 : Int) < 0 ∨ (256 : Int) ≤ 0) := by decide
    have c2 : ¬ (random 18 120 (d 0) = 0) := by omega
    simp only [hm, if_true, c1, c2, if_false]
    exact ⟨_, _, rfl, ⟨hb.1, by dsimp only; omega, by dsimp only; omega, by dsimp only; omega⟩,
      clampU8_le _⟩
  · have hb := tmod_bounds (st.idx + 1) st.len (by omega) (by omega)
    have c1 : ¬ (st.idx < 0 ∨ 256 ≤ st.idx) := by omega
    have c2 : ¬ (st.len = 0) := by omega
    simp only [hm, if_false, c1, c2]
    exact ⟨_, _, rfl, ⟨hb.1, by dsimp only; omega, h3, h4⟩, clampU8_le _⟩

/-! ## One call of a generator -/

theorem toU8_le (v : Int) : toU8 v ≤ 255 := by
  unfold toU8
  omega

theorem genStep_total (L : Libm) (t : NoiseType) (d : Nat → Nat) (g : Generator)
    (st : StateOf g) (hv : GenValid g st) :
    ∃ st1 r, genStep L t d g st = some (st1, r) ∧ GenValid g st1 ∧ r ≤ 255 := by
  cases g
  case karplus => exact nextKarplusU8_total d st hv
  case euclid => exact euclidGate_total L euclidPat 1000 0.995 st hv
  case euclid716 => exact euclidGate_total L euclid716Pat 1600 0.994 st hv
  case stutter => exact nextStutterU8_total L d st hv
  case phaser => exact nextPhaserU8_total L st hv
  case gatedReverb => exact nextGatedReverbU8_total d st hv
  all_goals
    refine ⟨_, _, rfl, trivial, ?_⟩
    first
      | exact clampU8_le _
      | exact toU8_le _

theorem init_valid : State.init.Valid := by
  intro g
  cases g <;> trivial

theorem runGenerator_frame (L : Libm) (g : Generator) (t : NoiseType) (d : Nat → Nat)
    (s s1 : State) (r : Nat) (h : runGenerator L g t d s = some (s1, r)) :
    s1.g_masterGain = s.g_masterGain ∧ ∀ g1, g1 ≠ g → s1.gen g1 = s.gen g1 := by
  unfold runGenerator at h
  cases hg : genStep L t d g (s.gen g) with
  | none => rw [hg] at h; exact absurd h (by simp)
  | some p =>
    rw [hg] at h
    simp only [Option.some.injEq, Prod.mk.injEq] at h
    obtain ⟨h1, _⟩ := h
    subst h1
    exact ⟨rfl, fun g1 hne => Function.update_noteq hne _ _⟩

theorem runGenerator_total (L : Libm) (g : Generator) (t : NoiseType) (d : Nat → Nat)
    (s : State) (hv : s.Valid) :
    ∃ s1 r, runGenerator L g t d s = some (s1, r) ∧ s1.Valid ∧ r ≤ 255 := by
  obtain ⟨st1, r, h1, h2, h3⟩ := genStep_total L t d g (s.gen g) (hv g)
  refine ⟨{ s with gen := Function.update s.gen g st1 }, r, ?_, ?_, h3⟩
  · unfold runGenerator
    rw [h1]
  · intro g1
    by_cases hg : g1 = g
    · subst hg
      simpa using h2
    · simpa [Function.update_noteq hg] using hv g1

theorem runGenerator_local (L : Libm) (g : Generator) (t : NoiseType) (d : Nat → Nat)
    (s s2 : State) (h : s.gen g = s2.gen g) :
    (runGenerator L g t d s).map Prod.snd = (runGenerator L g t d s2).map Prod.snd ∧
    ∀ a b, runGenerator L g t d s = some a → runGenerator L g t d s2 = some b →
      a.1.gen g = b.1.gen g := by
  unfold runGenerator
  rw [h]
  cases genStep L t d g (s2.gen g) with
  | none => simp
  | some p =>
    refine ⟨rfl, ?_⟩
    intro a b ha hb
    simp only [Option.some.injEq] at ha hb
    subst ha
    subst hb
    simp

/-! ## The gain stage -/

theorem truncI_zero : truncI 0 = 0 := by
  simp [truncI]

theorem clampU8_128 : clampU8 128 = 128 := by decide

theorem gainStage_le (r : Nat) (g m : ℚ) : gainStage r g m ≤ 255 := clampU8_le _

theorem gainStage_zero_gain (r : Nat) (g : ℚ) : gainStage r g 0 = 128 := by
  simp [gainStage, fmul, f32_zero, truncI_zero, clampU8_128]

theorem gainStage_mid (g m : ℚ) : gainStage 128 g m = 128 := by
  simp [gainStage, fmul, f32_zero, truncI_zero, clampU8_128]

/-- The two paths of `nextAudioSample` are one: the raw sample of the generator that serves
the selector (128 when none does) goes through `gainStage`. -/
theorem nextAudioSample_eq (L : Libm) (t : NoiseType) (d : Nat → Nat) (s : State) :
    nextAudioSample L t d s =
      match generatorOf t with
      | some g => (runGenerator L g t d s).map
          (fun r => (r.1, gainStage r.2 (getGainForType t) s.g_masterGain))
      | none => some (s, 128) := by
  have key : ∀ g, (match runGenerator L g t d s with
      | none => none
      | some (s1, raw) => some (s1, clampU8 (truncI (fmul (fmul (((raw : Int) - 128 : Int) : ℚ)
          (f32 (getGainForType t))) s1.g_masterGain) + 128))) =
      (runGenerator L g t d s).map
        (fun r => (r.1, gainStage r.2 (getGainForType t) s.g_masterGain)) := by
    intro g
    cases hr : runGenerator L g t d s with
    | none => rfl
    | some p =>
      obtain ⟨s1, raw⟩ := p
      have hf := (runGenerator_frame L g t d s s1 raw hr).1
      simp only [Option.map_some', gainStage, hf]
  unfold nextAudioSample generatorOf nextAudioSampleExtra
  by_cases he : isExtraType t = true
  · simp only [he, if_true]
    cases extraCase t with
    | none =>
      simp only []
      have := gainStage_mid (getGainForType t) s.g_masterGain
      unfold gainStage at this
      simp only [Nat.cast_ofNat] at this ⊢
      rw [this]
    | some g => exact key g
  · simp only [he]
    cases builtinCase t with
    | none =>
      simp only []
      have := gainStage_mid (getGainForType t) s.g_masterGain
      unfold gainStage at this
      simp only [Nat.cast_ofNat] at this ⊢
      simpa using this
    | some g => simpa using key g

theorem nextAudioSample_total (L : Libm) (t : NoiseType) (d : Nat → Nat) (s : State)
    (hv : s.Valid) :
    ∃ s1 v, nextAudioSample L t d s = some (s1, v) ∧ s1.Valid ∧ v ≤ 255 ∧
      s1.g_masterGain = s.g_masterGain ∧
      (∀ g, generatorOf t ≠ some g → s1.gen g = s.gen g) ∧
      (s.g_masterGain = 0 → v = 128) := by
  rw [nextAudioSample_eq]
  cases hg : generatorOf t with
  | none => exact ⟨s, 128, rfl, hv, by decide, rfl, fun _ _ => rfl, fun _ => rfl⟩
  | some g =>
    obtain ⟨s1, r, h1, h2, _⟩ := runGenerator_total L g t d s hv
    have hf := runGenerator_frame L g t d s s1 r h1
    refine ⟨s1, gainStage r (getGainForType t) s.g_masterGain, ?_, h2, gainStage_le _ _ _,
      hf.1, ?_, ?_⟩
    · simp only [h1, Option.map_some']
    · intro g1 hne
      exact hf.2 g1 (fun h => hne (by rw [h]))
    · intro h0
      rw [h0]
      exact gainStage_zero_gain _ _

theorem nextAudioSample_frame (L : Libm) (t : NoiseType) (d : Nat → Nat) (s s1 : State)
    (v : Nat) (h : nextAudioSample L t d s = some (s1, v)) :
    s1.g_masterGain = s.g_masterGain ∧ ∀ g, generatorOf t ≠ some g → s1.gen g = s.gen g := by
  rw [nextAudioSample_eq] at h
  cases hg : generatorOf t with
  | none =>
    rw [hg] at h
    simp only [Option.some.injEq, Prod.mk.injEq] at h
    obtain ⟨h1, _⟩ := h
    subst h1
    exact ⟨rfl, fun _ _ => rfl⟩
  | some g =>
    rw [hg] at h
    dsimp only at h
    cases hr : runGenerator L g t d s with
    | none => rw [hr] at h; exact absurd h (by simp)
    | some p =>
      rw [hr] at h
      simp only [Option.map_some', Option.some.injEq, Prod.mk.injEq] at h
      obtain ⟨h1, _⟩ := h
      have hf := runGenerator_frame L g t d s p.1 p.2 hr
      rw [h1] at hf
      exact ⟨hf.1, fun g1 hne => hf.2 g1 (fun e => hne (by rw [e]))⟩

/-! ## Runs of samples -/

theorem produceSamples_total (L : Libm) (t : NoiseType) (ds : List (Nat → Nat)) (s : State)
    (hv : s.Valid) :
    ∃ s1 vs, produceSamples L t ds s = some (s1, vs) ∧ s1.Valid ∧
      s1.g_masterGain = s.g_masterGain ∧
      (∀ g, generatorOf t ≠ some g → s1.gen g = s.gen g) ∧
      vs.length = ds.length ∧ ∀ v ∈ vs, v ≤ 255 := by
  induction ds generalizing s with
  | nil => exact ⟨s, [], rfl, hv, rfl, fun _ _ => rfl, rfl, by simp⟩
  | cons d ds ih =>
    obtain ⟨s1, v, h1, h2, h3, h4, h5, _⟩ := nextAudioSample_total L t d s hv
    obtain ⟨s2, vs, k1, k2, k3, k4, k5, k6⟩ := ih s1 h2
    refine ⟨s2, v :: vs, ?_, k2, k3.trans h4, ?_, by simp [k5], ?_⟩
    · simp only [produceSamples, h1, k1]
    · intro g hg
      rw [k4 g hg, h5 g hg]
    · intro w hw
      rcases List.mem_cons.mp hw with e | e
      · rw [e]; exact h3
      · exact k6 w e

theorem nextAudioSample_sameFor (L : Libm) (t : NoiseType) (d : Nat → Nat) (s s2 : State)
    (h : SameFor t s s2) :
    (nextAudioSample L t d s).map Prod.snd = (nextAudioSample L t d s2).map Prod.snd ∧
    ∀ a b, nextAudioSample L t d s = some a → nextAudioSample L t d s2 = some b →
      SameFor t a.1 b.1 := by
  obtain ⟨hm, hgen⟩ := h
  constructor
  · rw [nextAudioSample_eq, nextAudioSample_eq]
    cases hg : generatorOf t with
    | none => rfl
    | some g =>
      have hl := (runGenerator_local L g t d s s2 (hgen g hg)).1
      dsimp only
      rw [hm]
      cases h1 : runGenerator L g t d s with
      | none =>
        rw [h1] at hl
        cases h2 : runGenerator L g t d s2 with
        | none => rfl
        | some q => rw [h2] at hl; exact absurd hl (by simp)
      | some p =>
        rw [h1] at hl
        cases h2 : runGenerator L g t d s2 with
        | none => rw [h2] at hl; exact absurd hl (by simp)
        | some q =>
          rw [h2] at hl
          simp only [Option.map_some', Option.some.injEq] at hl ⊢
          rw [hl]
  · intro a b ha hb
    have fa := nextAudioSample_frame L t d s a.1 a.2 ha
    have fb := nextAudioSample_frame L t d s2 b.1 b.2 hb
    refine ⟨by rw [fa.1, fb.1, hm], ?_⟩
    intro g hg
    rw [nextAudioSample_eq, hg] at ha hb
    dsimp only at ha hb
    cases h1 : runGenerator L g t d s with
    | none => rw [h1] at ha; exact absurd ha (by simp)
    | some p =>
      cases h2 : runGenerator L g t d s2 with
      | none => rw [h2] at hb; exact absurd hb (by simp)
      | some q =>
        have hl := (runGenerator_local L g t d s s2 (hgen g hg)).2 p q h1 h2
        rw [h1] at ha
        rw [h2] at hb
        simp only [Option.map_some', Option.some.injEq] at ha hb
        rw [← ha, ← hb]
        exact hl

theorem produceSamples_sameFor (L : Libm) (t : NoiseType) (ds : List (Nat → Nat))
    (s s2 : State) (h : SameFor t s s2) :
    (produceSamples L t ds s).map Prod.snd = (produceSamples L t ds s2).map Prod.snd := by
  induction ds generalizing s s2 with
  | nil => rfl
  | cons d ds ih =>
    obtain ⟨h1, h2⟩ := nextAudioSample_sameFor L t d s s2 h
    simp only [produceSamples]
    cases ha : nextAudioSample L t d s with
    | none =>
      cases hb : nextAudioSample L t d s2 with
      | none => rfl
      | some b => rw [ha, hb] at h1; exact absurd h1 (by simp)
    | some a =>
      cases hb : nextAudioSample L t d s2 with
      | none => rw [ha, hb] at h1; exact absurd h1 (by simp)
      | some b =>
        rw [ha, hb] at h1
        simp only [Option.map_some', Option.some.injEq] at h1
        have hi := ih a.1 b.1 (h2 a b ha hb)
        obtain ⟨a1, a2⟩ := a
        obtain ⟨b1, b2⟩ := b
        simp only at h1 hi ⊢
        subst h1
        cases hx : produceSamples L t ds a1 with
        | none =>
          cases hy : produceSamples L t ds b1 with
          | none => rfl
          | some y => rw [hx, hy] at hi; exact absurd hi (by simp)
        | some x =>
          cases hy : produceSamples L t ds b1 with
          | none => rw [hx, hy] at hi; exact absurd hi (by simp)
          | some y =>
            rw [hx, hy] at hi
            simp only [Option.map_some', Option.some.injEq] at hi ⊢
            rw [hi]

/-! ## The waveform renderer -/

theorem waveformColumns_playing (L : Libm) (t : NoiseType) (ds : Nat → Nat → Nat)
    (vis : VisualState) (start : Int) (n x : Nat) (s : State) :
    ∃ ys, waveformColumns L true t ds vis start n x s = some (s, ys) := by
  induction n generalizing x with
  | zero => exact ⟨[], rfl⟩
  | succ n ih =>
    obtain ⟨ys, h⟩ := ih (x + 1)
    simp only [waveformColumns, if_true, h]
    exact ⟨_, rfl⟩

theorem waveformColumns_paused (L : Libm) (t : NoiseType) (ds : Nat → Nat → Nat)
    (vis : VisualState) (start : Int) (n x : Nat) (s : State) :
    (waveformColumns L false t ds vis start n x s).map Prod.fst =
      (produceSamples L t ((List.range n).map (fun i => ds (x + i))) s).map Prod.fst := by
  induction n generalizing x s with
  | zero => rfl
  | succ n ih =>
    have hr : (List.range (n + 1)).map (fun i => ds (x + i)) =
        ds x :: (List.range n).map (fun i => ds (x + 1 + i)) := by
      rw [List.range_succ_eq_map, List.map_cons, List.map_map]
      simp only [Nat.add_zero, List.cons.injEq, true_and]
      apply List.map_congr_left
      intro i _
      simp only [Function.comp, Nat.succ_eq_add_one]
      rw [show x + (i + 1) = x + 1 + i by omega]
    rw [hr]
    simp only [waveformColumns, produceSamples, Bool.false_eq_true, if_false]
    cases h1 : nextAudioSample L t (ds x) s with
    | none => rfl
    | some p =>
      have hi := ih (x + 1) p.1
      obtain ⟨p1, p2⟩ := p
      simp only at hi ⊢
      cases h2 : waveformColumns L false t ds vis start n (x + 1) p1 with
      | none =>
        rw [h2] at hi
        cases h3 : produceSamples L t (List.map (fun i => ds (x + 1 + i)) (List.range n)) p1 with
        | none => rfl
        | some q => rw [h3] at hi; exact absurd hi (by simp)
      | some w =>
        rw [h2] at hi
        cases h3 : produceSamples L t (List.map (fun i => ds (x + 1 + i)) (List.range n)) p1 with
        | none => rw [h3] at hi; exact absurd hi (by simp)
        | some q =>
          rw [h3] at hi
          simp only [Option.map_some', Option.some.injEq] at hi ⊢
          exact hi

/-! ## Properties of the dispatch and gain layer -/

theorem setMasterGain_valid (g : ℚ) (s : State) (hv : s.Valid) : (setMasterGain g s).Valid :=
  fun k => hv k

theorem reachable_valid (L : Libm) (s : State) (h : Reachable L s) : s.Valid := by
  induction h with
  | init => exact init_valid
  | sample t d s s1 v _ hs ih =>
    obtain ⟨s2, v2, h1, h2, _⟩ := nextAudioSample_total L t d s ih
    rw [hs] at h1
    simp only [Option.some.injEq, Prod.mk.injEq] at h1
    rw [h1.1]
    exact h2
  | gain g s _ ih => exact setMasterGain_valid g s ih
  | reinit s _ ih => exact fun k => ih k

theorem setMasterGain_range (g : ℚ) (s : State) :
    0 ≤ (setMasterGain g s).g_masterGain ∧ (setMasterGain g s).g_masterGain ≤ 1 := by
  unfold setMasterGain
  dsimp only
  split_ifs <;> constructor <;> linarith

theorem reachable_masterGain (L : Libm) (s : State) (h : Reachable L s) :
    0 ≤ s.g_masterGain ∧ s.g_masterGain ≤ 1 := by
  induction h with
  | init => exact ⟨by decide!, by decide!⟩
  | sample t d s s1 v _ hs ih =>
    rw [(nextAudioSample_frame L t d s s1 v hs).1]
    exact ih
  | gain g s _ _ => exact setMasterGain_range g s
  | reinit s _ _ => exact ⟨by simp [initAudioState], by simp [initAudioState]⟩

/-- C1: for every selector value (enumerated or not), every well-formed generator state,
every master gain and every outcome of the random draws, `nextAudioSample` completes (no
access outside an array, no remainder by zero) and returns a sample in [0,255]; the state
it leaves is well-formed again, so the same holds for every later call. -/
theorem nextAudioSample_in_range (L : Libm) (t : NoiseType) (d : Nat → Nat) (s : State)
    (hv : s.Valid) :
    ∃ s1 v, nextAudioSample L t d s = some (s1, v) ∧ v ≤ 255 ∧ s1.Valid := by
  obtain ⟨s1, v, h1, h2, h3, _⟩ := nextAudioSample_total L t d s hv
  exact ⟨s1, v, h1, h3, h2⟩

theorem nextAudioSample_in_range_witness :
    State.init.Valid ∧
    ∃ s1 v, nextAudioSample Libm.zero TONE_KARPLUS (fun _ => 77) State.init = some (s1, v) ∧
      v ≤ 255 ∧ s1.Valid :=
  ⟨by decide,
   nextAudioSample_in_range Libm.zero TONE_KARPLUS (fun _ => 77) State.init (by decide)⟩

/-- C2: for every selector value, every well-formed generator state and every outcome of
the random draws, a master gain of 0 makes `nextAudioSample` return exactly 128. -/
theorem masterGain_zero_midpoint (L : Libm) (t : NoiseType) (d : Nat → Nat) (s : State)
    (hv : s.Valid) (hg : s.g_masterGain = 0) :
    ∃ s1, nextAudioSample L t d s = some (s1, 128) := by
  obtain ⟨s1, v, h1, _, _, _, _, h6⟩ := nextAudioSample_total L t d s hv
  refine ⟨s1, ?_⟩
  rw [h1, h6 hg]

theorem masterGain_zero_midpoint_witness :
    (setMasterGain 0 State.init).Valid ∧ (setMasterGain 0 State.init).g_masterGain = 0 ∧
    ∃ s1, nextAudioSample Libm.zero NOISE_WHITE (fun _ => 200) (setMasterGain 0 State.init)
      = some (s1, 128) :=
  ⟨setMasterGain_valid 0 State.init init_valid, by decide!,
    masterGain_zero_midpoint Libm.zero NOISE_WHITE (fun _ => 200) (setMasterGain 0 State.init)
      (setMasterGain_valid 0 State.init init_valid) (by decide!)⟩

/-- C3 as stated fails: TONE_TRIANGLE and TONE_SAW are distinct selectors, yet both are
served by `nextToneSample` on the one global `g_phase`.  From power-on, with every draw 0,
the next TONE_TRIANGLE sample is 195; after one TONE_SAW sample `g_phase` is no longer 0
and the next TONE_TRIANGLE sample is 188. -/
theorem tone_selectors_share_phase :
    (produceSamples Libm.zero TONE_TRIANGLE [fun _ => 0] State.init).map Prod.snd = some [195] ∧
    ((produceSamples Libm.zero TONE_SAW [fun _ => 0] State.init).bind
      (fun r => produceSamples Libm.zero TONE_TRIANGLE [fun _ => 0] r.1)).map Prod.snd
        = some [188] ∧
    (produceSamples Libm.zero TONE_SAW [fun _ => 0] State.init).map
      (fun r => (r.1.gen .tone).g_phase) = some (TAU_F * 220 / 11025 - 0.00005) ∧
    (State.init.gen .tone).g_phase = 0 ∧ TAU_F * 220 / 11025 - 0.00005 ≠ 0 := by
  refine ⟨by decide!, by decide!, by decide!, by decide!, by decide!⟩

/-- C3 amended: for every two distinct selectors A and B that are not both served by
`nextToneSample`, every well-formed state and every number of samples: producing the samples
for B completes and leaves the record of A's generator unchanged, and A's subsequent outputs,
given the same random draws, are exactly those it would have produced had B not been
selected in between. -/
theorem other_generator_untouched (L : Libm) (A B : NoiseType) (s : State)
    (dsB : List (Nat → Nat)) (hAB : A ≠ B)
    (hT : ¬ (generatorOf A = some .tone ∧ generatorOf B = some .tone)) (hv : s.Valid) :
    ∃ s1 vs, produceSamples L B dsB s = some (s1, vs) ∧ vs.length = dsB.length ∧
      (∀ g, generatorOf A = some g → s1.gen g = s.gen g) ∧
      ∀ dsA, (produceSamples L A dsA s1).map Prod.snd
        = (produceSamples L A dsA s).map Prod.snd := by
  obtain ⟨s1, vs, h1, _, h3, h4, h5, _⟩ := produceSamples_total L B dsB s hv
  have key : ∀ g, generatorOf A = some g → s1.gen g = s.gen g := by
    intro g hg
    apply h4
    intro hB
    rcases generatorOf_selectorOf A g hg with e | e
    · exact hT ⟨by rw [hg, e], by rw [hB, e]⟩
    · rcases generatorOf_selectorOf B g hB with e2 | e2
      · exact hT ⟨by rw [hg, e2], by rw [hB, e2]⟩
      · exact hAB (e.symm.trans e2)
  exact ⟨s1, vs, h1, h5, key, fun dsA => produceSamples_sameFor L A dsA s1 s ⟨h3, key⟩⟩

theorem other_generator_untouched_witness :
    ∃ s1 vs, produceSamples Libm.zero TONE_SAW [fun _ => 0, fun _ => 1] State.init
        = some (s1, vs) ∧ vs.length = 2 ∧
      (∀ g, generatorOf TONE_SYNC = some g → s1.gen g = State.init.gen g) ∧
      ∀ dsA, (produceSamples Libm.zero TONE_SYNC dsA s1).map Prod.snd
        = (produceSamples Libm.zero TONE_SYNC dsA State.init).map Prod.snd :=
  other_generator_untouched Libm.zero TONE_SYNC TONE_SAW State.init [fun _ => 0, fun _ => 1]
    (by decide) (by decide) init_valid

/-- C4 as stated fails: a frame rendered while paused takes its samples from
`nextAudioSample`.  From power-on, paused, with every raw draw 133, a frame for NOISE_BLUE
leaves `prevW = 5` in the blue generator, which held `prevW = 0` before. -/
theorem paused_frame_advances_generator :
    (drawNoiseFrame Libm.zero false NOISE_BLUE (fun _ _ => 133) VisualState.zero
      State.init).map (fun r => (r.2.1.gen .blue).prevW) = some 5 ∧
    (State.init.gen .blue).prevW = 0 := by
  refine ⟨by decide!, by decide!⟩

/-- C4 amended: while playback is paused, rendering a frame for selector `t` through
`drawNoiseFrame` / `drawWaveformFrame` completes and acts on the engine exactly as producing
`NOISE_W = 280` samples for `t` (one per column): it leaves the record of every generator
other than the one that serves `t`, and the master gain, unchanged. -/
theorem paused_frame_effect (L : Libm) (t : NoiseType) (ds : Nat → Nat → Nat)
    (vis : VisualState) (s : State) (hv : s.Valid) :
    ∃ r, drawNoiseFrame L false t ds vis s = some r ∧
      (produceSamples L t ((List.range NOISE_W).map ds) s).map Prod.fst = some r.2.1 ∧
      (∀ g, generatorOf t ≠ some g → r.2.1.gen g = s.gen g) ∧
      r.2.1.g_masterGain = s.g_masterGain := by
  obtain ⟨s1, vs, h1, _, h3, h4, _, _⟩ :=
    produceSamples_total L t ((List.range NOISE_W).map ds) s hv
  have hw := waveformColumns_paused L t ds { vis with g_visualType := t }
    ((((vis.g_visWriteIdx : Int)) - (NOISE_W : Int)) % 1024) NOISE_W 0 s
  simp only [Nat.zero_add] at hw
  have hds : (List.range NOISE_W).map (fun i => ds i) = (List.range NOISE_W).map ds := rfl
  rw [hds, h1] at hw
  unfold drawNoiseFrame drawWaveformFrame
  dsimp only
  cases hc : waveformColumns L false t ds { vis with g_visualType := t }
      (((vis.g_visWriteIdx : Int) - (NOISE_W : Int)) % 1024) NOISE_W 0 s with
  | none => rw [hc] at hw; exact absurd hw (by simp)
  | some q =>
    rw [hc] at hw
    simp only [Option.map_some', Option.some.injEq] at hw
    refine ⟨_, rfl, ?_, ?_, ?_⟩
    · simp only [h1, Option.map_some', hw]
    · intro g hg
      simp only [hw]
      exact h4 g hg
    · simp only [hw]
      exact h3

theorem paused_frame_effect_witness :
    ∃ r, drawNoiseFrame Libm.zero false TONE_SYNC (fun _ _ => 0) VisualState.zero State.init
        = some r ∧
      (produceSamples Libm.zero TONE_SYNC ((List.range NOISE_W).map (fun _ _ => 0))
        State.init).map Prod.fst = some r.2.1 ∧
      (∀ g, generatorOf TONE_SYNC ≠ some g → r.2.1.gen g = State.init.gen g) ∧
      r.2.1.g_masterGain = State.init.g_masterGain :=
  paused_frame_effect Libm.zero TONE_SYNC (fun _ _ => 0) VisualState.zero State.init init_valid

/-- C5: for every rational `g`, after `setMasterGain(g)` the value `getMasterGain()` returns
is `g` clamped to [0,1] (0 below 0, 1 above 1, `g` itself otherwise); hence the stored
master gain lies in [0,1] after every write, and in every state the engine reaches from
power-on. -/
theorem setMasterGain_clamps :
    (∀ (g : ℚ) (s : State),
      getMasterGain (setMasterGain g s) = (if g < 0 then 0 else if g > 1 then 1 else g) ∧
      0 ≤ getMasterGain (setMasterGain g s) ∧ getMasterGain (setMasterGain g s) ≤ 1) ∧
    (∀ (L : Libm) (s : State), Reachable L s → 0 ≤ getMasterGain s ∧ getMasterGain s ≤ 1) := by
  refine ⟨fun g s => ⟨?_, setMasterGain_range g s⟩, fun L s h => reachable_masterGain L s h⟩
  unfold getMasterGain setMasterGain
  dsimp only
  split_ifs <;> first | rfl | (exfalso; linarith)

theorem setMasterGain_clamps_witness :
    getMasterGain (setMasterGain (3 / 2) State.init) = 1 ∧
    getMasterGain (setMasterGain (-2) State.init) = 0 ∧
    getMasterGain (setMasterGain (1 / 4) State.init) = 1 / 4 ∧
    (0 ≤ getMasterGain (setMasterGain 7 State.init) ∧
      getMasterGain (setMasterGain 7 State.init) ≤ 1) :=
  ⟨by rw [(setMasterGain_clamps.1 (3 / 2) State.init).1]; decide!,
   by rw [(setMasterGain_clamps.1 (-2) State.init).1]; decide!,
   by rw [(setMasterGain_clamps.1 (1 / 4) State.init).1]; decide!,
   setMasterGain_clamps.2 Libm.zero (setMasterGain 7 State.init)
     (Reachable.gain 7 State.init Reachable.init)⟩

/-- C6: for every selector value that is not one of the 47 enumerated selectors, every
master gain and every generator state, `nextAudioSample` returns 128 and leaves the whole
state, so every generator record, unchanged. -/
theorem unknown_selector_silent (L : Libm) (t : NoiseType) (d : Nat → Nat) (s : State)
    (ht : FX_ALIASING_BUZZ < t) : nextAudioSample L t d s = some (s, 128) := by
  rw [nextAudioSample_eq, generatorOf_none_of_ge t ht]

theorem unknown_selector_silent_witness :
    FX_ALIASING_BUZZ < 200 ∧
    nextAudioSample Libm.zero 200 (fun _ => 5) State.init = some (State.init, 128) :=
  ⟨by decide, unknown_selector_silent Libm.zero 200 (fun _ => 5) State.init (by decide)⟩

/-- C7 as stated fails: NOISE_WHITE is not handled by the extras switch, and
`nextAudioSampleExtra(NOISE_WHITE)` returns 128, not 0. -/
theorem nextAudioSampleExtra_default_is_128 :
    isExtraType NOISE_WHITE = false ∧
    (nextAudioSampleExtra Libm.zero NOISE_WHITE (fun _ => 0) State.init).map Prod.snd
      = some 128 ∧
    (nextAudioSampleExtra Libm.zero NOISE_WHITE (fun _ => 0) State.init).map Prod.snd
      ≠ some 0 := by
  refine ⟨by decide, by decide, by decide⟩

theorem extraCase_none_of_not_extra (t : NoiseType) (h : isExtraType t = false) :
    extraCase t = none := by
  rcases Nat.lt_or_ge t 47 with h1 | h1
  · interval_cases t <;> first | rfl | exact absurd h (by decide)
  · exact extraCase_none_of_ge t h1

/-- C7 amended: for every selector value `t` that is not handled by the extras switch
(`isExtraType(t)` is false), `nextAudioSampleExtra(t)` returns 128, the mid-level that acts
as silence, and leaves the state unchanged. -/
theorem nextAudioSampleExtra_unsupported (L : Libm) (t : NoiseType) (d : Nat → Nat)
    (s : State) (h : isExtraType t = false) :
    nextAudioSampleExtra L t d s = some (s, 128) := by
  unfold nextAudioSampleExtra
  rw [extraCase_none_of_not_extra t h]

theorem nextAudioSampleExtra_unsupported_witness :
    isExtraType TONE_SINE = false ∧
    nextAudioSampleExtra Libm.zero TONE_SINE (fun _ => 0) State.init = some (State.init, 128) :=
  ⟨by decide, nextAudioSampleExtra_unsupported Libm.zero TONE_SINE (fun _ => 0) State.init
    (by decide)⟩

/-- C8 as stated fails: the two products are `float` products, each rounded before the
truncation.  (1) From power-on, 51 volume-down steps and 16 volume-up steps leave the master
gain 0.32f = 5368709/16777216; one call with selector NOISE_WHITE (table gain 0.55f, draw
253) then has raw sample 253 and returns 150: `125 * 0.55f` rounds to 68.75, times 0.32f it
rounds to 22, while the product `(253 - 128) * g * m` is below 22 and gives 149, both for
g = 0.55 and for g the stored `float` 9227469/16777216.  (2) From power-on with the master
gain set to 15/16, selector TONE_TRIANGLE (table gain 0.70f, draw 0) has raw sample 224 and
returns 190: `96 * 0.70f` rounds to 4404019/65536, times 15/16 it is just below 63, while
`(224 - 128) * 0.7 * 15/16` is 63 and gives 191.  (3) From power-on, master gain untouched
(1), selector TONE_KARPLUS (draw 149) has raw sample 138 and returns 135, `10 * 0.70f`
rounding to 7, while `(138 - 128) * g * 1` for the stored `float` g = 11744051/16777216 is
below 7 and gives 134.  None of the three generators calls the math library. -/
theorem gain_formula_rounds :
    (generatorOf NOISE_WHITE = some .white ∧ getGainForType NOISE_WHITE = 0.55 ∧
      f32 (getGainForType NOISE_WHITE) = 9227469 / 16777216 ∧
      (volumeUpStep^[16] (volumeDownStep^[51] State.init)).g_masterGain
        = 5368709 / 16777216 ∧
      f32 0.32 = 5368709 / 16777216 ∧
      (runGenerator Libm.zero .white NOISE_WHITE (fun _ => 253)
        (volumeUpStep^[16] (volumeDownStep^[51] State.init))).map Prod.snd = some 253 ∧
      (nextAudioSample Libm.zero NOISE_WHITE (fun _ => 253)
        (volumeUpStep^[16] (volumeDownStep^[51] State.init))).map Prod.snd = some 150 ∧
      clampU8 (truncI (((((253 : Nat) : Int) - 128 : Int) : ℚ) * getGainForType NOISE_WHITE
        * (5368709 / 16777216)) + 128) = 149 ∧
      clampU8 (truncI (((((253 : Nat) : Int) - 128 : Int) : ℚ)
        * f32 (getGainForType NOISE_WHITE) * (5368709 / 16777216)) + 128) = 149) ∧
    (generatorOf TONE_TRIANGLE = some .tone ∧ getGainForType TONE_TRIANGLE = 0.7 ∧
      (setMasterGain (15 / 16) State.init).g_masterGain = 15 / 16 ∧
      (runGenerator Libm.zero .tone TONE_TRIANGLE (fun _ => 0)
        (setMasterGain (15 / 16) State.init)).map Prod.snd = some 224 ∧
      (nextAudioSample Libm.zero TONE_TRIANGLE (fun _ => 0)
        (setMasterGain (15 / 16) State.init)).map Prod.snd = some 190 ∧
      clampU8 (truncI (((((224 : Nat) : Int) - 128 : Int) : ℚ) * getGainForType TONE_TRIANGLE
        * (15 / 16)) + 128) = 191 ∧
      fmul (((((224 : Nat) : Int) - 128 : Int) : ℚ)) (f32 (getGainForType TONE_TRIANGLE))
        = 4404019 / 65536) ∧
    (generatorOf TONE_KARPLUS = some .karplus ∧ getGainForType TONE_KARPLUS = 0.7 ∧
      f32 (getGainForType TONE_KARPLUS) = 11744051 / 16777216 ∧
      State.init.g_masterGain = 1 ∧
      (runGenerator Libm.zero .karplus TONE_KARPLUS (fun _ => 149) State.init).map Prod.snd
        = some 138 ∧
      (nextAudioSample Libm.zero TONE_KARPLUS (fun _ => 149) State.init).map Prod.snd
        = some 135 ∧
      clampU8 (truncI (((((138 : Nat) : Int) - 128 : Int) : ℚ)
        * f32 (getGainForType TONE_KARPLUS) * 1) + 128) = 134) := by
  refine ⟨⟨by decide, by decide!, by decide!, by decide!, by decide!, by decide!, by decide!,
      by decide!, by decide!⟩,
    ⟨by decide, by decide!, by decide!, by decide!, by decide!, by decide!, by decide!⟩,
    ⟨by decide, by decide!, by decide!, by decide!, by decide!, by decide!, by decide!⟩⟩

/-- C8 amended: for every selector `t` served by a generator, writing `r` for the raw sample
that generator returns, `g` for the `float` gain `getGainForType(t)` and `m` for the master
gain, `nextAudioSample(t)` returns `clampU8(trunc(fl(fl((r - 128) * g) * m)) + 128)`, where
`fl` rounds each of the two products to the nearest `float` and `trunc` truncates toward
zero; the extras path (15 selectors) and the built-in path (32 selectors) are both this one
formula. -/
theorem nextAudioSample_gain_formula (L : Libm) (t : NoiseType) (d : Nat → Nat) (s : State)
    (g : Generator) (hg : generatorOf t = some g) :
    nextAudioSample L t d s =
      (runGenerator L g t d s).map (fun r =>
        (r.1, clampU8 (truncI (fmul (fmul ((((r.2 : Int) - 128 : Int) : ℚ))
          (f32 (getGainForType t))) s.g_masterGain) + 128))) := by
  rw [nextAudioSample_eq, hg]
  rfl

theorem nextAudioSample_gain_formula_witness :
    generatorOf FX_DOPPLER = some .doppler ∧ generatorOf NOISE_BROWN = some .brown ∧
    nextAudioSample Libm.zero FX_DOPPLER (fun _ => 9) State.init =
      (runGenerator Libm.zero .doppler FX_DOPPLER (fun _ => 9) State.init).map (fun r =>
        (r.1, clampU8 (truncI (fmul (fmul ((((r.2 : Int) - 128 : Int) : ℚ))
          (f32 (getGainForType FX_DOPPLER))) State.init.g_masterGain) + 128))) ∧
    nextAudioSample Libm.zero NOISE_BROWN (fun _ => 9) State.init =
      (runGenerator Libm.zero .brown NOISE_BROWN (fun _ => 9) State.init).map (fun r =>
        (r.1, clampU8 (truncI (fmul (fmul ((((r.2 : Int) - 128 : Int) : ℚ))
          (f32 (getGainForType NOISE_BROWN))) State.init.g_masterGain) + 128))) :=
  ⟨rfl, rfl,
   nextAudioSample_gain_formula Libm.zero FX_DOPPLER (fun _ => 9) State.init .doppler rfl,
   nextAudioSample_gain_formula Libm.zero NOISE_BROWN (fun _ => 9) State.init .brown rfl⟩

theorem getGainForType_range (t : NoiseType) :
    0 ≤ getGainForType t ∧ getGainForType t ≤ 1 := by
  rcases Nat.lt_or_ge t 47 with h1 | h1
  · interval_cases t <;> exact ⟨by decide!, by decide!⟩
  · unfold getGainForType
    rw [gainCase_none_of_ge t h1]
    exact ⟨by decide!, by decide!⟩

/-- C9: `getGainForType` returns a multiplier within [0,1] for every selector value; each of
the 47 enumerated selectors has its own table entry (a `case` of the switch), and every
value that is not an enumerated selector has none and gets the default 0.65. -/
theorem getGainForType_total :
    (∀ t : NoiseType, 0 ≤ getGainForType t ∧ getGainForType t ≤ 1) ∧
    (∀ t : NoiseType, t ≤ FX_ALIASING_BUZZ →
      ∃ g, gainCase t = some g ∧ getGainForType t = g) ∧
    (∀ t : NoiseType, FX_ALIASING_BUZZ < t → gainCase t = none ∧ getGainForType t = 0.65) := by
  refine ⟨getGainForType_range, ?_, ?_⟩
  · intro t ht
    have h1 : t < 47 := Nat.lt_succ_of_le ht
    interval_cases t <;> exact ⟨_, rfl, rfl⟩
  · intro t ht
    refine ⟨gainCase_none_of_ge t ht, ?_⟩
    unfold getGainForType
    rw [gainCase_none_of_ge t ht]

theorem getGainForType_total_witness :
    (∃ g, gainCase NOISE_BLUE = some g ∧ getGainForType NOISE_BLUE = g) ∧
    (gainCase 47 = none ∧ getGainForType 47 = 0.65) ∧
    (0 ≤ getGainForType 255 ∧ getGainForType 255 ≤ 1) :=
  ⟨getGainForType_total.2.1 NOISE_BLUE (by decide), getGainForType_total.2.2 47 (by decide),
   getGainForType_total.1 255⟩

/-- C10: each of the 47 enumerated selectors is dispatched by `nextAudioSample` to exactly
one generator function and none falls through to the silent default: `isExtraType(t)` holds
exactly for the 15 selectors TONE_ISOCHRONIC..FX_ALIASING_BUZZ, each of which has a case in
`nextAudioSampleExtra`; each of the other 32 has a case in the switch of `nextAudioSample`;
and the call for an enumerated selector is one call of that generator followed by the gain
stage. -/
theorem dispatch_covers_enum :
    (∀ t : NoiseType, isExtraType t = true ↔ TONE_ISOCHRONIC ≤ t ∧ t ≤ FX_ALIASING_BUZZ) ∧
    (∀ t : NoiseType, TONE_ISOCHRONIC ≤ t → t ≤ FX_ALIASING_BUZZ →
      ∃ g, extraCase t = some g) ∧
    (∀ t : NoiseType, t < TONE_ISOCHRONIC → ∃ g, builtinCase t = some g) ∧
    (∀ t : NoiseType, t ≤ FX_ALIASING_BUZZ → ∃ g, generatorOf t = some g ∧
      ∀ (L : Libm) (d : Nat → Nat) (s : State), nextAudioSample L t d s =
        (runGenerator L g t d s).map
          (fun r => (r.1, gainStage r.2 (getGainForType t) s.g_masterGain))) := by
  refine ⟨isExtraType_iff, ?_, ?_, ?_⟩
  · intro t h1 h2
    have h1' : 32 ≤ t := h1
    have h2' : t ≤ 46 := h2
    interval_cases t <;> exact ⟨_, rfl⟩
  · intro t h1
    have h1' : t < 32 := h1
    interval_cases t <;> exact ⟨_, rfl⟩
  · intro t ht
    obtain ⟨g, hg⟩ := generatorOf_some_of_lt t (Nat.lt_succ_of_le ht)
    refine ⟨g, hg, fun L d s => ?_⟩
    rw [nextAudioSample_eq, hg]

theorem dispatch_covers_enum_witness :
    (isExtraType FX_STUTTER = true) ∧ (∃ g, extraCase FX_STUTTER = some g) ∧
    (∃ g, builtinCase NOISE_BLUE = some g) ∧
    (∃ g, generatorOf TONE_SHEPARD = some g ∧
      ∀ (L : Libm) (d : Nat → Nat) (s : State), nextAudioSample L TONE_SHEPARD d s =
        (runGenerator L g TONE_SHEPARD d s).map
          (fun r => (r.1, gainStage r.2 (getGainForType TONE_SHEPARD) s.g_masterGain))) :=
  ⟨(dispatch_covers_enum.1 FX_STUTTER).2 ⟨by decide, by decide⟩,
   dispatch_covers_enum.2.1 FX_STUTTER (by decide) (by decide),
   dispatch_covers_enum.2.2.1 NOISE_BLUE (by decide),
   dispatch_covers_enum.2.2.2 TONE_SHEPARD (by decide)⟩

/-! ## The track table -/

theorem getCurrentNoiseType_in_range (k : Int) (h0 : 0 ≤ k) (h1 : k < 46) :
    getCurrentNoiseType k = if k < 3 then k.toNat else k.toNat + 1 := by
  interval_cases k <;> rfl

theorem getCurrentNoiseType_outside (k : Int) (h : k < 0 ∨ 46 ≤ k) :
    getCurrentNoiseType k = NOISE_WHITE := by
  unfold getCurrentNoiseType
  split <;> first | rfl | (exfalso; omega)

/-- C11: `getCurrentNoiseType` is an ordered lookup: for every track index k with
0 <= k < TRACK_COUNT (46) it returns the selector with enum value k when k < 3 and k + 1
when k >= 3, so it is strictly increasing (hence injective) on 0..45 and reaches every
enumerated selector except NOISE_BLUE, which it never returns; for every index outside
0..45 it returns NOISE_WHITE. -/
theorem getCurrentNoiseType_ordered :
    (∀ k : Int, 0 ≤ k → k < TRACK_COUNT →
      getCurrentNoiseType k = if k < 3 then k.toNat else k.toNat + 1) ∧
    (∀ j k : Int, 0 ≤ j → j < k → k < TRACK_COUNT →
      getCurrentNoiseType j < getCurrentNoiseType k) ∧
    (∀ j k : Int, 0 ≤ j → j < TRACK_COUNT → 0 ≤ k → k < TRACK_COUNT →
      getCurrentNoiseType j = getCurrentNoiseType k → j = k) ∧
    (∀ t : NoiseType, t ≤ FX_ALIASING_BUZZ → t ≠ NOISE_BLUE →
      ∃ k : Int, 0 ≤ k ∧ k < TRACK_COUNT ∧ getCurrentNoiseType k = t) ∧
    (∀ k : Int, getCurrentNoiseType k ≠ NOISE_BLUE) ∧
    (∀ k : Int, k < 0 ∨ TRACK_COUNT ≤ k → getCurrentNoiseType k = NOISE_WHITE) := by
  have hval : ∀ k : Int, 0 ≤ k → k < 46 →
      (getCurrentNoiseType k : Int) = if k < 3 then k else k + 1 := by
    intro k h0 h1
    interval_cases k <;> rfl
  have hmono : ∀ j k : Int, 0 ≤ j → j < k → k < 46 →
      getCurrentNoiseType j < getCurrentNoiseType k := by
    intro j k h0 h1 h2
    have hj := hval j h0 (by omega)
    have hk := hval k (by omega) h2
    have : (getCurrentNoiseType j : Int) < (getCurrentNoiseType k : Int) := by
      rw [hj, hk]
      split_ifs <;> omega
    exact_mod_cast this
  refine ⟨getCurrentNoiseType_in_range, hmono, ?_, ?_, ?_, getCurrentNoiseType_outside⟩
  · intro j k hj0 hj1 hk0 hk1 he
    by_contra hne
    rcases lt_or_gt_of_ne hne with h | h
    · exact absurd he (Nat.ne_of_lt (hmono j k hj0 h hk1))
    · exact absurd he.symm (Nat.ne_of_lt (hmono k j hk0 h hj1))
  · intro t ht hne
    have ht' : t < 47 := Nat.lt_succ_of_le ht
    refine ⟨if t < 3 then (t : Int) else (t : Int) - 1, ?_, ?_, ?_⟩ <;>
      interval_cases t <;> first | decide | exact absurd rfl hne
  · intro k
    rcases lt_or_ge k 0 with h | h
    · rw [getCurrentNoiseType_outside k (Or.inl h)]; decide
    · rcases lt_or_ge k 46 with h2 | h2
      · interval_cases k <;> decide
      · rw [getCurrentNoiseType_outside k (Or.inr h2)]; decide

theorem getCurrentNoiseType_ordered_witness :
    getCurrentNoiseType 2 = NOISE_BROWN ∧ getCurrentNoiseType 3 = NOISE_VIOLET ∧
    getCurrentNoiseType 7 < getCurrentNoiseType 30 ∧
    (∃ k : Int, 0 ≤ k ∧ k < TRACK_COUNT ∧ getCurrentNoiseType k = TONE_SYNC) ∧
    getCurrentNoiseType 46 = NOISE_WHITE ∧ getCurrentNoiseType (-1) = NOISE_WHITE :=
  ⟨getCurrentNoiseType_ordered.1 2 (by decide) (by decide),
   getCurrentNoiseType_ordered.1 3 (by decide) (by decide),
   getCurrentNoiseType_ordered.2.1 7 30 (by decide) (by decide) (by decide),
   getCurrentNoiseType_ordered.2.2.2.1 TONE_SYNC (by decide) (by decide),
   getCurrentNoiseType_ordered.2.2.2.2.2 46 (Or.inr (by decide)),
   getCurrentNoiseType_ordered.2.2.2.2.2 (-1) (Or.inl (by decide))⟩

/-! ## The rhythm gates -/

theorem foldr_max_nonneg (l : List ℚ) : 0 ≤ l.foldr max 0 := by
  induction l with
  | nil => exact le_refl 0
  | cons x xs ih => exact le_max_of_le_right ih

theorem le_foldr_max (l : List ℚ) (x : ℚ) (hx : x ∈ l) : x ≤ l.foldr max 0 := by
  induction l with
  | nil => exact absurd hx (List.not_mem_nil x)
  | cons y ys ih =>
    rcases List.mem_cons.mp hx with e | e
    · rw [e]; exact le_max_left _ _
    · exact le_max_of_le_right (ih e)

theorem foldr_max_le (l : List ℚ) (M : ℚ) (hM : 0 ≤ M) (h : ∀ x ∈ l, x ≤ M) :
    l.foldr max 0 ≤ M := by
  induction l with
  | nil => exact hM
  | cons y ys ih =>
    exact max_le (h y (List.mem_cons_self y ys))
      (ih (fun x hx => h x (List.mem_cons_of_mem y hx)))

theorem bufLevel_nonneg (n : Nat) (buf : Nat → ℚ) : 0 ≤ bufLevel n buf :=
  foldr_max_nonneg _

theorem abs_le_bufLevel (n : Nat) (buf : Nat → ℚ) (i : Nat) (hi : i < n) :
    |buf i| ≤ bufLevel n buf :=
  le_foldr_max _ _ (List.mem_map.mpr ⟨i, List.mem_range.mpr hi, rfl⟩)

theorem bufLevel_le (n : Nat) (buf : Nat → ℚ) (M : ℚ) (hM : 0 ≤ M)
    (h : ∀ i, i < n → |buf i| ≤ M) : bufLevel n buf ≤ M := by
  apply foldr_max_le _ _ hM
  intro x hx
  obtain ⟨i, hi, e⟩ := List.mem_map.mp hx
  rw [← e]
  exact h i (List.mem_range.mp hi)

theorem nextKarplusU8_no_pluck (d : Nat → Nat) (st : KarplusState)
    (hv : GenValid .karplus st) (hno : ¬ karplusPlucks st) :
    nextKarplusU8 d st = some
      ({ buf := Function.update st.buf st.idx.toNat
            (0.5 * (st.buf st.idx.toNat + st.buf (Int.tmod (st.idx + 1) st.len).toNat) * 0.996),
         len := st.len, idx := Int.tmod (st.idx + 1) st.len, repluck := st.repluck - 1 },
        clampU8 (truncI (st.buf st.idx.toNat * 127) + 128)) := by
  obtain ⟨h1, h2, h3⟩ := hv
  unfold karplusPlucks at hno
  have h0 : ¬ st.len = 0 := fun h => hno (Or.inl h)
  have hr : ¬ st.repluck - 1 ≤ 0 := fun h => hno (Or.inr h)
  have hl : 1 ≤ st.len ∧ st.len ≤ 256 := by omega
  have hb := tmod_bounds (st.idx + 1) st.len (by omega) (by omega)
  have c1 : ¬ (st.repluck - 1 ≤ 0 ∧ st.len > 256) := by omega
  have c3 : ¬ (st.idx < 0 ∨ 256 ≤ st.idx ∨ Int.tmod (st.idx + 1) st.len < 0 ∨
      256 ≤ Int.tmod (st.idx + 1) st.len) := by omega
  unfold nextKarplusU8
  simp only [h0, hr, if_false, c1, c3, false_and]

/-- C13 as stated fails on the first call: from power-on (all cells 0, `len` = 0) the call
fills the buffer with the initial pluck, the re-pluck timer does not fire (it is set to 8820
and counted down to 8819), and the level rises from 0 to 1/2. -/
theorem karplus_first_call_raises_level :
    bufLevel 256 (initOf .karplus).buf = 0 ∧
    (nextKarplusU8 (fun _ => 0) (initOf .karplus)).map
      (fun r => (bufLevel 256 r.1.buf, r.1.repluck, r.1.len)) = some (1 / 2, 8819, 56) := by
  constructor <;> decide!

/-- C13 amended: for every buffer state in which the string has been plucked (`len != 0`,
true after the first call) and every call of `nextKarplusU8` on which no re-pluck occurs, the
signal level held in the delay buffer, its largest absolute cell value, is after the call no
greater than before it, both over the whole array and over the `len` cells in use; hence
between re-plucks the plucked signal only decays and never grows. -/
theorem karplus_level_never_grows (d : Nat → Nat) (st : KarplusState)
    (hv : GenValid .karplus st) (hno : ¬ karplusPlucks st) :
    ∃ st1 r, nextKarplusU8 d st = some (st1, r) ∧ ¬ (st1.len = 0) ∧
      bufLevel 256 st1.buf ≤ bufLevel 256 st.buf ∧
      (st.idx < st.len → st1.idx < st1.len ∧
        bufLevel st.len.toNat st1.buf ≤ bufLevel st.len.toNat st.buf) := by
  have hcall := nextKarplusU8_no_pluck d st hv hno
  obtain ⟨h1, h2, h3⟩ := hv
  unfold karplusPlucks at hno
  have h0 : ¬ st.len = 0 := fun h => hno (Or.inl h)
  have hl : 1 ≤ st.len ∧ st.len ≤ 256 := by omega
  have hb := tmod_bounds (st.idx + 1) st.len (by omega) (by omega)
  have key : ∀ n : Nat, st.idx.toNat < n → (Int.tmod (st.idx + 1) st.len).toNat < n →
      bufLevel n (Function.update st.buf st.idx.toNat
        (0.5 * (st.buf st.idx.toNat + st.buf (Int.tmod (st.idx + 1) st.len).toNat) * 0.996))
        ≤ bufLevel n st.buf := by
    intro n hi hn
    apply bufLevel_le _ _ _ (bufLevel_nonneg n st.buf)
    intro i hin
    by_cases e : i = st.idx.toNat
    · rw [e, Function.update_same]
      have ha := abs_le_bufLevel n st.buf _ hi
      have hb2 := abs_le_bufLevel n st.buf _ hn
      have hlev := bufLevel_nonneg n st.buf
      rw [abs_le] at ha hb2 ⊢
      constructor <;> nlinarith [ha.1, ha.2, hb2.1, hb2.2]
    · rw [Function.update_noteq e]
      exact abs_le_bufLevel n st.buf i hin
  refine ⟨_, _, hcall, h0, ?_, ?_⟩
  · exact key 256 (by omega) (by omega)
  · intro hlt
    exact ⟨hb.2, key st.len.toNat (by omega) (by omega)⟩

theorem karplus_level_never_grows_witness :
    ∃ st1 r, nextKarplusU8 (fun _ => 0)
        { buf := fun i => if i = 1 then 1 / 2 else 0, len := 56, idx := 0, repluck := 100 }
        = some (st1, r) ∧ ¬ (st1.len = 0) ∧
      bufLevel 256 st1.buf ≤ bufLevel 256 (fun i => if i = 1 then 1 / 2 else 0) ∧
      ((0 : Int) < 56 → st1.idx < st1.len ∧
        bufLevel (56 : Int).toNat st1.buf
          ≤ bufLevel (56 : Int).toNat (fun i => if i = 1 then 1 / 2 else 0)) :=
  karplus_level_never_grows (fun _ => 0)
    { buf := fun i => if i = 1 then 1 / 2 else 0, len := 56, idx := 0, repluck := 100 }
    (by decide) (by decide)

/-! ## The feedback howl and the phase accumulators -/

theorem clampHiLo_range (lo hi v : ℚ) (h : lo ≤ hi) :
    lo ≤ clampHiLo lo hi v ∧ clampHiLo lo hi v ≤ hi := by
  unfold clampHiLo
  dsimp only
  split_ifs <;> constructor <;> linarith

theorem clampHiLo_of_mem (lo hi v : ℚ) (h1 : lo ≤ v) (h2 : v ≤ hi) : clampHiLo lo hi v = v := by
  unfold clampHiLo
  dsimp only
  rw [if_neg (not_lt.mpr h2), if_neg (not_lt.mpr h1)]

theorem clampHiLo_of_gt (lo hi v : ℚ) (h : lo ≤ hi) (hv : hi < v) : clampHiLo lo hi v = hi := by
  unfold clampHiLo
  dsimp only
  split_ifs <;> linarith

theorem clampHiLo_of_lt (lo hi v : ℚ) (h : lo ≤ hi) (hv : v < lo) : clampHiLo lo hi v = lo := by
  unfold clampHiLo
  dsimp only
  split_ifs <;> linarith

theorem clampLoHi_range (lo hi v : ℚ) (h : lo ≤ hi) :
    lo ≤ clampLoHi lo hi v ∧ clampLoHi lo hi v ≤ hi := by
  unfold clampLoHi
  dsimp only
  split_ifs <;> constructor <;> linarith

theorem wrapTau_range (p step : ℚ) (hp0 : 0 ≤ p) (hp1 : p < TAU_F) (hs0 : 0 ≤ step)
    (hs1 : step < TAU_F) : 0 ≤ wrapTau (p + step) ∧ wrapTau (p + step) < TAU_F := by
  unfold wrapTau
  split_ifs with h
  · constructor <;> linarith
  · constructor <;> linarith

theorem wrapTau_of_lt (x : ℚ) (h : x < TAU_F) : wrapTau x = x := by
  unfold wrapTau
  rw [if_neg (not_le.mpr h)]

theorem nextFMMetalU8_pc_negative (L : Libm) (st : FMMetalState)
    (h : st.pc + hz_to_step (330 + 3.2 * 780 * L.sinf (wrapTau (st.pm + hz_to_step 780))) < 0) :
    (nextFMMetalU8 L st).1.pc < 0 := by
  have e : (nextFMMetalU8 L st).1.pc
      = wrapTau (st.pc + hz_to_step (330 + 3.2 * 780 * L.sinf (wrapTau (st.pm + hz_to_step 780))))
      := rfl
  rw [e, wrapTau_of_lt _ (lt_trans h (by unfold TAU_F; norm_num))]
  exact h

/-- C15 fails on the code for `nextFMMetalU8`: its instantaneous frequency
`330 + 3.2 * 780 * sinf(pm)` is negative whenever `sinf(pm) < -0.1322`, the wrap only
handles `pc >= TAU_F`, and the carrier accumulator leaves [0, 2*pi).  From power-on, ten
consecutive samples of TONE_FM_METAL (trigonometry of `Libm.trig`) leave `pc < -1`; after
nine it is still non-negative. -/
theorem fmMetal_phase_goes_negative :
    (produceSamples Libm.trig TONE_FM_METAL (List.replicate 10 (fun _ => 0)) State.init).map
      (fun r => decide ((r.1.gen .fmMetal).pc < -1)) = some true ∧
    (produceSamples Libm.trig TONE_FM_METAL (List.replicate 9 (fun _ => 0)) State.init).map
      (fun r => decide (0 ≤ (r.1.gen .fmMetal).pc)) = some true := by
  refine ⟨by decide!, by decide!⟩

/-! ## The noise colours -/

theorem ctzAux_dvd (fuel : Nat) : ∀ (m i : Nat), 0 < m → m < 2 ^ fuel →
    (2 ^ i ∣ m ↔ i ≤ ctzAux fuel m) := by
  induction fuel with
  | zero =>
    intro m i h0 h1
    simp only [pow_zero, Nat.lt_one_iff] at h1
    omega
  | succ fuel ih =>
    intro m i h0 h1
    unfold ctzAux
    by_cases hm : m % 2 = 0
    · rw [if_pos hm]
      have hm2 : 0 < m / 2 := by omega
      have hlt : m / 2 < 2 ^ fuel := by
        rw [pow_succ] at h1
        omega
      cases i with
      | zero => simp
      | succ j =>
        have key := ih (m / 2) j hm2 hlt
        have hmm : m = 2 * (m / 2) := by omega
        have : (2 ^ (j + 1) ∣ m ↔ 2 ^ j ∣ m / 2) := by
          rw [pow_succ, mul_comm]
          constructor
          · intro h
            rw [hmm] at h
            exact (Nat.mul_dvd_mul_iff_left (by decide)).mp h
          · intro h
            rw [hmm]
            exact Nat.mul_dvd_mul_left 2 h
        rw [this, key]
        omega
    · rw [if_neg hm]
      cases i with
      | zero => simp
      | succ j =>
        constructor
        · intro h
          exfalso
          have h2 : 2 ∣ m := Nat.dvd_trans (Dvd.intro_left (2 ^ j) rfl) h
          omega
        · intro h
          omega

theorem pinkCalls_counter (L : Libm) (ds : Nat → Nat → Nat) (k : Nat) (hk : k < 2 ^ 32) :
    (pinkCalls L ds k).counter = k := by
  induction k with
  | zero => rfl
  | succ k ih =>
    have e : (pinkCalls L ds (k + 1)).counter = ((pinkCalls L ds k).counter + 1) % 2 ^ 32 := rfl
    rw [e, ih (Nat.lt_of_succ_lt hk)]
    exact Nat.mod_eq_of_lt hk

theorem pinkCalls_init (L : Libm) (ds : Nat → Nat → Nat) (k : Nat) :
    (pinkCalls L ds k).init = true ↔ 1 ≤ k := by
  cases k with
  | zero => simp [pinkCalls, initOf]
  | succ k =>
    have e : (pinkCalls L ds (k + 1)).init = true := rfl
    simp [e]

theorem nextPinkSample_rows (L : Libm) (d : Nat → Nat) (st : PinkState) (i : Nat) :
    (nextPinkSample L d st).1.rows i =
      if i ≤ pinkRefreshTop L st then
        random (-32768) 32767 (d ((if st.init then 0 else 16) + i))
      else if st.init then st.rows i
      else if i < 16 then random (-32768) 32767 (d i) else st.rows i := by
  unfold nextPinkSample pinkRefreshTop
  dsimp only
  by_cases hi : st.init = true
  · simp only [hi, if_true]
  · simp only [hi, if_false]
    rfl

/-- C16 as stated fails on the first call: 2^1 does not divide 1, yet after call 1 register 1
holds a random value drawn during this call (draw number 1 of the call: -32767 for the raw
stream k, -32766 for the raw stream 2k), where it held 0 before. -/
theorem pink_first_call_fills_all_registers :
    ¬ (2 ^ 1 ∣ 1) ∧ (initOf .pink).rows 1 = 0 ∧
    (nextPinkSample Libm.zero (fun k => k) (initOf .pink)).1.rows 1 = -32767 ∧
    (nextPinkSample Libm.zero (fun k => 2 * k) (initOf .pink)).1.rows 1 = -32766 := by
  refine ⟨by decide, by decide!, by decide!, by decide!⟩

/-- C16 amended: on the n-th call of `nextPinkSample` from power-on (1 <= n < 2^32) the
counter reaches n, and the refresh loop gives octave register i (0 <= i <= 15) a fresh random
value if and only if 2^i divides n, so that register i is refreshed once every 2^i samples;
on every call but the first a register that is not refreshed keeps its value, and on the
first call it holds the random value that the one-time initialisation of all sixteen
registers gave it. -/
theorem pink_refresh_schedule (L : Libm) (ds : Nat → Nat → Nat) (n i : Nat)
    (h1 : 1 ≤ n) (h2 : n < 2 ^ 32) (hi : i ≤ 15) :
    (nextPinkSample L (ds (n - 1)) (pinkCalls L ds (n - 1))).1.counter = n ∧
    (i ≤ pinkRefreshTop L (pinkCalls L ds (n - 1)) ↔ 2 ^ i ∣ n) ∧
    (2 ^ i ∣ n → (nextPinkSample L (ds (n - 1)) (pinkCalls L ds (n - 1))).1.rows i =
      random (-32768) 32767 (ds (n - 1) ((if 2 ≤ n then 0 else 16) + i))) ∧
    (¬ 2 ^ i ∣ n → 2 ≤ n → (nextPinkSample L (ds (n - 1)) (pinkCalls L ds (n - 1))).1.rows i =
      (pinkCalls L ds (n - 1)).rows i) ∧
    (¬ 2 ^ i ∣ n → n = 1 → (nextPinkSample L (ds (n - 1)) (pinkCalls L ds (n - 1))).1.rows i =
      random (-32768) 32767 (ds (n - 1) i)) := by
  have hc : (pinkCalls L ds (n - 1)).counter = n - 1 := pinkCalls_counter L ds (n - 1) (by omega)
  have hmod : ((pinkCalls L ds (n - 1)).counter + 1) % 2 ^ 32 = n := by
    rw [hc, Nat.sub_add_cancel h1]
    exact Nat.mod_eq_of_lt h2
  have htop : (i ≤ pinkRefreshTop L (pinkCalls L ds (n - 1)) ↔ 2 ^ i ∣ n) := by
    unfold pinkRefreshTop
    dsimp only
    rw [hmod]
    have hz : ctz32 L n = ctzAux 32 n := by
      unfold ctz32
      rw [if_neg (by omega)]
    rw [hz, ctzAux_dvd 32 n i (by omega) h2]
    split_ifs <;> omega
  have hinit : ((pinkCalls L ds (n - 1)).init = true ↔ 2 ≤ n) := by
    rw [pinkCalls_init]
    omega
  have hrows := nextPinkSample_rows L (ds (n - 1)) (pinkCalls L ds (n - 1)) i
  refine ⟨hmod, htop, ?_, ?_, ?_⟩
  · intro hd
    rw [hrows, if_pos (htop.mpr hd)]
    by_cases h2n : 2 ≤ n
    · rw [if_pos (hinit.mpr h2n), if_pos h2n]
    · rw [if_neg (fun h => h2n (hinit.mp h)), if_neg h2n]
  · intro hd h2n
    rw [hrows, if_neg (fun h => hd (htop.mp h)), if_pos (hinit.mpr h2n)]
  · intro hd hn1
    rw [hrows, if_neg (fun h => hd (htop.mp h)), if_neg (fun h => by have := hinit.mp h; omega),
      if_pos (by omega)]

theorem pink_refresh_schedule_witness :
    (nextPinkSample Libm.zero (fun _ => 7) (pinkCalls Libm.zero (fun _ _ => 7) (12 - 1))).1.counter
      = 12 ∧
    (2 ≤ pinkRefreshTop Libm.zero (pinkCalls Libm.zero (fun _ _ => 7) (12 - 1)) ↔ 2 ^ 2 ∣ 12) :=
  ⟨(pink_refresh_schedule Libm.zero (fun _ _ => 7) 12 2 (by decide) (by decide) (by decide)).1,
   (pink_refresh_schedule Libm.zero (fun _ _ => 7) 12 2 (by decide) (by decide) (by decide)).2.1⟩

theorem clampInt_range (lo hi v : Int) (h : lo ≤ hi) :
    lo ≤ clampInt lo hi v ∧ clampInt lo hi v ≤ hi := by
  unfold clampInt
  dsimp only
  split_ifs <;> constructor <;> omega

theorem toU8_of_range (v : Int) (h0 : 0 ≤ v) (h1 : v < 256) : (toU8 v : Int) = v := by
  unfold toU8
  rw [Int.emod_eq_of_lt h0 h1]
  exact Int.toNat_of_nonneg h0

/-- C17 as stated fails: with previous draw p = 0 and fresh draw w = 10 (raw value 138)
`nextBlueSample` returns 138 = 128 + (w + (w - p)) / 2, whereas 128 plus the halved first
difference (w - p) / 2 is 133. -/
theorem blue_is_not_halved_difference :
    random (-128) 128 138 = 10 ∧
    (nextBlueSample (fun _ => 138) { prevW := 0 }).2 = 138 ∧
    (nextBlueSample (fun _ => 138) { prevW := 0 }).1.prevW = 10 ∧
    128 + clampInt (-128) 127 (Int.tdiv (10 - 0) 2) = 133 := by
  refine ⟨by decide, by decide, by decide, by decide⟩

/-- C17 amended: for every fresh white draw w and previous draw p, `nextBlueSample` returns
128 plus the average of the fresh draw and its first difference against the previous one,
(w + (w - p)) / 2 (truncated toward zero, clamped to [-128,127]), and stores w as the new
previous draw; w lies in [-128,127]. -/
theorem blue_sample_formula (d : Nat → Nat) (st : BlueState) :
    -128 ≤ random (-128) 128 (d 0) ∧ random (-128) 128 (d 0) ≤ 127 ∧
    ((nextBlueSample d st).2 : Int) = 128 + clampInt (-128) 127
      (Int.tdiv (random (-128) 128 (d 0) + (random (-128) 128 (d 0) - st.prevW)) 2) ∧
    (nextBlueSample d st).1.prevW = random (-128) 128 (d 0) := by
  have hr := random_bounds (-128) 128 (d 0) (by decide)
  refine ⟨hr.1, by omega, ?_, rfl⟩
  have hc := clampInt_range (-128) 127
    (Int.tdiv (random (-128) 128 (d 0) + (random (-128) 128 (d 0) - st.prevW)) 2) (by decide)
  unfold nextBlueSample
  dsimp only
  rw [toU8_of_range _ (by omega) (by omega)]
  omega

/-- C18: for every fresh white draw w0 and the two previous draws w1 (latest) and w2 (both
0 at power-on), `nextVioletSample` returns 128 plus the second difference w0 - 2*w1 + w2
divided by 3 (truncated toward zero, clamped to [-128,127]), and shifts the history so that
the next call sees w1 = w0 and w2 = the old w1. -/
theorem violet_sample_formula (d : Nat → Nat) (st : VioletState) :
    ((nextVioletSample d st).2 : Int) = 128 + clampInt (-128) 127
      (Int.tdiv (random (-128) 128 (d 0) - 2 * st.w1 + st.w2) 3) ∧
    (nextVioletSample d st).1.w1 = random (-128) 128 (d 0) ∧
    (nextVioletSample d st).1.w2 = st.w1 ∧
    (initOf .violet).w1 = 0 ∧ (initOf .violet).w2 = 0 ∧
    -128 ≤ random (-128) 128 (d 0) ∧ random (-128) 128 (d 0) ≤ 127 := by
  have hr := random_bounds (-128) 128 (d 0) (by decide)
  refine ⟨?_, rfl, rfl, rfl, rfl, hr.1, by omega⟩
  have hc := clampInt_range (-128) 127
    (Int.tdiv (random (-128) 128 (d 0) - 2 * st.w1 + st.w2) 3) (by decide)
  unfold nextVioletSample
  dsimp only
  rw [toU8_of_range _ (by omega) (by omega)]
  omega

theorem truncI_bounds (x : ℚ) (n : Int) (h0 : 0 ≤ n) (h1 : -(n : ℚ) ≤ x) (h2 : x ≤ n) :
    -n ≤ truncI x ∧ truncI x ≤ n := by
  unfold truncI
  split_ifs with h
  · constructor
    · have := Int.floor_nonneg.mpr h
      omega
    · exact Int.floor_le_iff.mpr (by linarith [Int.floor_le x] : x < n + 1) |> fun _ =>
        Int.cast_le.mp (le_trans (Int.floor_le x) h2)
  · push_neg at h
    constructor
    · have : (-n : ℚ) ≤ x := h1
      have h3 : ((-n : Int) : ℚ) ≤ x := by push_cast; exact h1
      exact Int.cast_le.mp (le_trans h3 (Int.le_ceil x))
    · have : ⌈x⌉ ≤ 0 := Int.ceil_le.mpr (by push_cast; linarith)
      omega

theorem clampU8_of_range (v : Int) (h0 : 0 ≤ v) (h1 : v ≤ 255) : (clampU8 v : Int) = v := by
  unfold clampU8
  rw [if_neg (by omega), if_neg (by omega)]
  exact Int.toNat_of_nonneg h0

/-- What a call of `nextAudioSample` does to the record of generator `g`: nothing, or one
call of the generator function on it. -/
theorem nextAudioSample_gen (L : Libm) (t : NoiseType) (d : Nat → Nat) (s s1 : State)
    (v : Nat) (h : nextAudioSample L t d s = some (s1, v)) (g : Generator) :
    s1.gen g = s.gen g ∨ ∃ r, genStep L t d g (s.gen g) = some (s1.gen g, r) := by
  by_cases hg : generatorOf t = some g
  · right
    rw [nextAudioSample_eq, hg] at h
    dsimp only at h
    unfold runGenerator at h
    cases hs : genStep L t d g (s.gen g) with
    | none => rw [hs] at h; exact absurd h (by simp)
    | some p =>
      rw [hs] at h
      simp only [Option.map_some', Option.some.injEq, Prod.mk.injEq] at h
      obtain ⟨h1, _⟩ := h
      subst h1
      exact ⟨p.2, by simp⟩
  · left
    exact (nextAudioSample_frame L t d s s1 v h).2 g hg

theorem chirp_delta : fdiv 1000 (fmul ((SAMPLE_RATE_HZ : Int) : ℚ) 4) = 1521743 / 67108864 := by
  have h1 : fmul ((SAMPLE_RATE_HZ : Int) : ℚ) 4 = 44100 := by
    have e : ((SAMPLE_RATE_HZ : Int) : ℚ) * 4 = ((44100 : Nat) : ℚ) := by
      unfold SAMPLE_RATE_HZ
      norm_num
    unfold fmul
    rw [e, f32_natCast 44100 (by norm_num)]
    norm_num
  have h2 : fdiv 1000 44100 = 1521743 / 67108864 := by decide!
  rw [h1, h2]

theorem nextToneSample_chirp (L : Libm) (d : Nat → Nat) (st : ToneState) :
    (nextToneSample L TONE_CHIRP d st).1.g_chirpFreq =
      (if fadd st.g_chirpFreq (if st.g_chirpDir > 0 then 1521743 / 67108864 else
          -(1521743 / 67108864)) > 1200 then 1200
       else if fadd st.g_chirpFreq (if st.g_chirpDir > 0 then 1521743 / 67108864 else
          -(1521743 / 67108864)) < 200 then 200
       else fadd st.g_chirpFreq (if st.g_chirpDir > 0 then 1521743 / 67108864 else
          -(1521743 / 67108864))) ∧
    (nextToneSample L TONE_CHIRP d st).1.g_chirpDir =
      (if fadd st.g_chirpFreq (if st.g_chirpDir > 0 then 1521743 / 67108864 else
          -(1521743 / 67108864)) > 1200 then -1
       else if fadd st.g_chirpFreq (if st.g_chirpDir > 0 then 1521743 / 67108864 else
          -(1521743 / 67108864)) < 200 then 1
       else st.g_chirpDir) := by
  unfold nextToneSample
  simp only [chirp_delta]
  split_ifs <;> first | exact ⟨rfl, rfl⟩ | (exfalso; linarith)

theorem nextToneSample_chirp_frame (L : Libm) (t : NoiseType) (d : Nat → Nat)
    (st : ToneState) (h : t ≠ TONE_CHIRP) :
    (nextToneSample L t d st).1.g_chirpFreq = st.g_chirpFreq ∧
    (nextToneSample L t d st).1.g_chirpDir = st.g_chirpDir := by
  unfold nextToneSample
  dsimp only
  split <;> first | exact ⟨rfl, rfl⟩ | exact absurd rfl h

theorem nextToneSample_chirp_inv (L : Libm) (t : NoiseType) (d : Nat → Nat) (st : ToneState)
    (h : 200 ≤ st.g_chirpFreq ∧ st.g_chirpFreq ≤ 1200 ∧
      (st.g_chirpDir = 1 ∨ st.g_chirpDir = -1)) :
    200 ≤ (nextToneSample L t d st).1.g_chirpFreq ∧
    (nextToneSample L t d st).1.g_chirpFreq ≤ 1200 ∧
    ((nextToneSample L t d st).1.g_chirpDir = 1 ∨
      (nextToneSample L t d st).1.g_chirpDir = -1) := by
  by_cases ht : t = TONE_CHIRP
  · subst ht
    obtain ⟨h1, h2⟩ := nextToneSample_chirp L d st
    rw [h1, h2]
    obtain ⟨ha, hb, hc⟩ := h
    split_ifs <;> refine ⟨?_, ?_, ?_⟩ <;> first | exact hc | linarith | norm_num
  · obtain ⟨h1, h2⟩ := nextToneSample_chirp_frame L t d st ht
    rw [h1, h2]
    exact h

/-- One `float` step of the sweep from a frequency in [200,1200] is within 2^-13 Hz of a
step of 1000/(4*11025) Hz. -/
theorem chirp_step_error (f : ℚ) (dir : Int) (h0 : 200 ≤ f) (h1 : f ≤ 1200)
    (hd : dir = 1 ∨ dir = -1) :
    |fadd f ((dir : ℚ) * (1521743 / 67108864)) - (f + (dir : ℚ) * (1000 / (4 * 11025)))|
      ≤ 1 / 8192 := by
  unfold fadd
  have e := f32_error (f + (dir : ℚ) * (1521743 / 67108864))
  have tiny : (1 : ℚ) / 2 ^ 150 ≤ 1 / 16777216 / 1000 := by norm_num
  rcases hd with hd | hd <;> subst hd
  · have hs : |f + ((1 : Int) : ℚ) * (1521743 / 67108864)| ≤ 1201 := by
      rw [abs_le]
      norm_num
      constructor <;> linarith
    have ea : |f32 (f + ((1 : Int) : ℚ) * (1521743 / 67108864))
        - (f + ((1 : Int) : ℚ) * (1521743 / 67108864))|
        ≤ 1201 / 16777216 + 1 / 16777216 / 1000 := by
      have := div_le_div_of_nonneg_right hs (by norm_num : (0 : ℚ) ≤ 16777216)
      linarith
    rw [abs_le] at ea ⊢
    norm_num at ea ⊢
    constructor <;> linarith
  · have hs : |f + ((-1 : Int) : ℚ) * (1521743 / 67108864)| ≤ 1201 := by
      rw [abs_le]
      norm_num
      constructor <;> linarith
    have ea : |f32 (f + ((-1 : Int) : ℚ) * (1521743 / 67108864))
        - (f + ((-1 : Int) : ℚ) * (1521743 / 67108864))|
        ≤ 1201 / 16777216 + 1 / 16777216 / 1000 := by
      have := div_le_div_of_nonneg_right hs (by norm_num : (0 : ℚ) ≤ 16777216)
      linarith
    rw [abs_le] at ea ⊢
    norm_num at ea ⊢
    constructor <;> linarith

/-- C20 as stated fails in its second part: the frequency is a `float`.  The first call from
power-on (f = 200, direction +1) leaves f = 6554343/32768 (200.02267456...), which is not
200 + 1000/(4*11025): the increment the code adds is the `float` quotient 1521743/67108864,
not 1000/44100, and the sum is rounded to the nearest `float` (it is not 200 plus that
`float` increment either). -/
theorem chirp_step_is_rounded :
    ChirpReachable Libm.zero (initOf .tone) ∧
    (initOf .tone).g_chirpFreq = 200 ∧ (initOf .tone).g_chirpDir = 1 ∧
    (nextToneSample Libm.zero TONE_CHIRP (fun _ => 0) (initOf .tone)).1.g_chirpFreq
      = 6554343 / 32768 ∧
    (nextToneSample Libm.zero TONE_CHIRP (fun _ => 0) (initOf .tone)).1.g_chirpFreq
      ≠ (initOf .tone).g_chirpFreq + 1000 / (4 * 11025) ∧
    (nextToneSample Libm.zero TONE_CHIRP (fun _ => 0) (initOf .tone)).1.g_chirpFreq
      ≠ (initOf .tone).g_chirpFreq + fdiv 1000 (fmul 11025 4) := by
  have hf : fadd 200 (1521743 / 67108864) = 6554343 / 32768 := by decide!
  have hq : fdiv 1000 (fmul 11025 4) = 1521743 / 67108864 := by
    have := chirp_delta
    unfold SAMPLE_RATE_HZ at this
    norm_num at this
    exact this
  have e : (nextToneSample Libm.zero TONE_CHIRP (fun _ => 0) (initOf .tone)).1.g_chirpFreq
      = 6554343 / 32768 := by
    rw [(nextToneSample_chirp Libm.zero (fun _ => 0) (initOf .tone)).1]
    have h1 : (initOf .tone).g_chirpFreq = 200 := rfl
    have h2 : (initOf .tone).g_chirpDir = 1 := rfl
    rw [h1, h2]
    simp only [if_pos (show (1 : Int) > 0 by decide), hf]
    norm_num
  refine ⟨ChirpReachable.init, rfl, rfl, e, ?_, ?_⟩
  · rw [e]
    have h1 : (initOf .tone).g_chirpFreq = 200 := rfl
    rw [h1]
    norm_num
  · rw [e, hq]
    have h1 : (initOf .tone).g_chirpFreq = 200 := rfl
    rw [h1]
    norm_num

/-- C20 amended: in every state that calls of `nextToneSample(TONE_CHIRP)` reach from
power-on, and in every state the whole engine reaches, the chirp frequency satisfies
200 <= f <= 1200 and the direction is +1 or -1; each call with selector TONE_CHIRP moves f
to the `float` nearest f plus or minus the `float` increment 1000.0f/44100.0f =
1521743/67108864 in the current direction, which is within 2^-13 Hz of a move by
1000/(4*11025) Hz (not exactly that move), except that a move past 1200 sets f to 1200 and
the direction to -1, and a move below 200 sets f to 200 and the direction to +1. -/
theorem chirp_sweep_bounded (L : Libm) :
    (∀ st, ChirpReachable L st →
      (200 ≤ st.g_chirpFreq ∧ st.g_chirpFreq ≤ 1200 ∧
        (st.g_chirpDir = 1 ∨ st.g_chirpDir = -1)) ∧
      |fadd st.g_chirpFreq ((st.g_chirpDir : ℚ) * (1521743 / 67108864))
        - (st.g_chirpFreq + (st.g_chirpDir : ℚ) * (1000 / (4 * 11025)))| ≤ 1 / 8192 ∧
      ∀ d, (nextToneSample L TONE_CHIRP d st).1.g_chirpFreq =
          (if fadd st.g_chirpFreq ((st.g_chirpDir : ℚ) * (1521743 / 67108864)) > 1200
            then 1200
           else if fadd st.g_chirpFreq ((st.g_chirpDir : ℚ) * (1521743 / 67108864)) < 200
            then 200
           else fadd st.g_chirpFreq ((st.g_chirpDir : ℚ) * (1521743 / 67108864))) ∧
        (nextToneSample L TONE_CHIRP d st).1.g_chirpDir =
          (if fadd st.g_chirpFreq ((st.g_chirpDir : ℚ) * (1521743 / 67108864)) > 1200
            then -1
           else if fadd st.g_chirpFreq ((st.g_chirpDir : ℚ) * (1521743 / 67108864)) < 200
            then 1
           else st.g_chirpDir)) ∧
    (∀ s, Reachable L s →
      200 ≤ (s.gen .tone).g_chirpFreq ∧ (s.gen .tone).g_chirpFreq ≤ 1200 ∧
        ((s.gen .tone).g_chirpDir = 1 ∨ (s.gen .tone).g_chirpDir = -1)) ∧
    fdiv 1000 (fmul ((SAMPLE_RATE_HZ : Int) : ℚ) 4) = 1521743 / 67108864 := by
  have hinit : 200 ≤ (initOf .tone).g_chirpFreq ∧ (initOf .tone).g_chirpFreq ≤ 1200 ∧
      ((initOf .tone).g_chirpDir = 1 ∨ (initOf .tone).g_chirpDir = -1) :=
    ⟨by decide!, by decide!, Or.inl rfl⟩
  have hinv : ∀ st, ChirpReachable L st → 200 ≤ st.g_chirpFreq ∧ st.g_chirpFreq ≤ 1200 ∧
      (st.g_chirpDir = 1 ∨ st.g_chirpDir = -1) := by
    intro st h
    induction h with
    | init => exact hinit
    | call d st _ ih => exact nextToneSample_chirp_inv L TONE_CHIRP d st ih
  refine ⟨fun st h => ⟨hinv st h, ?_, fun d => ?_⟩, ?_, chirp_delta⟩
  · obtain ⟨h0, h1, hc⟩ := hinv st h
    exact chirp_step_error st.g_chirpFreq st.g_chirpDir h0 h1 hc
  · obtain ⟨h1, h2⟩ := nextToneSample_chirp L d st
    rw [h1, h2]
    obtain ⟨_, _, hc⟩ := hinv st h
    rcases hc with hc | hc <;> rw [hc] <;> norm_num
  · intro s h
    induction h with
    | init => exact hinit
    | sample t d s s1 v _ hs ih =>
      rcases nextAudioSample_gen L t d s s1 v hs .tone with h1 | ⟨r, h1⟩
      · rw [h1]
        exact ih
      · have h2 : s1.gen .tone = (nextToneSample L t d (s.gen .tone)).1 := by
          simp only [genStep, Option.some.injEq] at h1
          rw [h1]
        rw [h2]
        exact nextToneSample_chirp_inv L t d (s.gen .tone) ih
    | gain g s _ ih => exact ih
    | reinit s _ ih => exact ih

theorem chirp_sweep_bounded_witness :
    (200 ≤ (nextToneSample Libm.zero TONE_CHIRP (fun _ => 0) (initOf .tone)).1.g_chirpFreq ∧
      (nextToneSample Libm.zero TONE_CHIRP (fun _ => 0) (initOf .tone)).1.g_chirpFreq ≤ 1200 ∧
      ((nextToneSample Libm.zero TONE_CHIRP (fun _ => 0) (initOf .tone)).1.g_chirpDir = 1 ∨
        (nextToneSample Libm.zero TONE_CHIRP (fun _ => 0) (initOf .tone)).1.g_chirpDir = -1)) ∧
    ChirpReachable Libm.zero
      (nextToneSample Libm.zero TONE_CHIRP (fun _ => 0) (initOf .tone)).1 :=
  ⟨((chirp_sweep_bounded Libm.zero).1 _
      (ChirpReachable.call (fun _ => 0) _ ChirpReachable.init)).1,
    ChirpReachable.call (fun _ => 0) _ ChirpReachable.init⟩

/-! ## Reachable generator records -/

theorem euclid_step_const : truncI ((SAMPLE_RATE_HZ : ℚ) / 8) = 1378 := by decide!

/-- What a call of the rhythm gate does to the step counter and the pattern position. -/
theorem euclidGate_step (L : Libm) (pat : List Bool) (f decay : ℚ) (st st1 : EuclidState)
    (r : Nat) (h : euclidGate L pat f decay st = some (st1, r)) :
    st1.toStep = (if st.toStep - 1 ≤ 0 then 1378 else st.toStep - 1) ∧
    st1.idx = (if st.toStep - 1 ≤ 0 then (st.idx + 1) % 16 else st.idx) := by
  unfold euclidGate at h
  simp only [euclid_step_const] at h
  split at h
  · exact absurd h (by simp)
  · simp only [Option.some.injEq, Prod.mk.injEq] at h
    obtain ⟨h1, _⟩ := h
    subst h1
    exact ⟨rfl, rfl⟩

/-- The step counter and the pattern position before call number m + 1 from power-on. -/
theorem euclidGate_schedule (L : Libm) (pat : List Bool) (f decay : ℚ) (st0 : EuclidState)
    (h0 : st0.toStep = 0 ∧ st0.idx = 0) (m : Nat) :
    ∃ st, iterCalls (euclidGate L pat f decay) m st0 = some st ∧
      ((m = 0 ∧ st.toStep = 0 ∧ st.idx = 0) ∨
       (1 ≤ m ∧ st.toStep = 1378 - (((m : Int) - 1) % 1378) ∧
          st.idx = (((m : Int) - 1) / 1378 + 1) % 16)) := by
  induction m with
  | zero => exact ⟨st0, rfl, Or.inl ⟨rfl, h0.1, h0.2⟩⟩
  | succ m ih =>
    obtain ⟨st, hs, hinv⟩ := ih
    have hidx : 0 ≤ st.idx ∧ st.idx < 16 := by
      rcases hinv with ⟨_, _, h2⟩ | ⟨_, _, h2⟩ <;> omega
    obtain ⟨st1, r, hc, _, _⟩ := euclidGate_total L pat f decay st hidx
    obtain ⟨e1, e2⟩ := euclidGate_step L pat f decay st st1 r hc
    refine ⟨st1, ?_, Or.inr ⟨by omega, ?_, ?_⟩⟩
    · simp only [iterCalls, hs, hc, Option.map_some']
    · rw [e1]
      rcases hinv with ⟨hm, h1, _⟩ | ⟨hm, h1, _⟩
      · subst hm
        rw [h1]
        decide
      · rw [h1]
        push_cast
        split_ifs <;> omega
    · rw [e2]
      rcases hinv with ⟨hm, h1, h2⟩ | ⟨hm, h1, h2⟩
      · subst hm
        rw [h1, h2]
        decide
      · rw [h1, h2]
        push_cast
        split_ifs <;> omega

/-- C22: for `nextEuclidU8` and `nextEuclid716U8`, from power-on, every call n >= 1
completes, and the 16-step pattern is stepped at a fixed sub-rate of the sample rate: call n
advances the pattern exactly when n = 1 + 1378*k for some k >= 0 (1378 being the truncation
of 11025/8), that k-th advance consults pattern position k mod 16, and 16*1378 calls later
the gate is at the same pattern position and advances on the same calls, so the whole
pattern repeats every 16*1378 calls. -/
theorem euclid_step_schedule (L : Libm) (gen : EuclidState → Option (EuclidState × Nat))
    (st0 : EuclidState)
    (hgen : (gen = nextEuclidU8 L ∧ st0 = initOf .euclid) ∨
      (gen = nextEuclid716U8 L ∧ st0 = initOf .euclid716)) (n : Nat) (hn : 1 ≤ n) :
    truncI ((11025 : ℚ) / 8) = 1378 ∧
    ∃ st st2, iterCalls gen (n - 1) st0 = some st ∧ (gen st).isSome = true ∧
      (euclidAdvances st ↔ ∃ k : Nat, n = 1 + 1378 * k) ∧
      (∀ k : Nat, n = 1 + 1378 * k → st.idx = ((k % 16 : Nat) : Int)) ∧
      iterCalls gen (n - 1 + 16 * 1378) st0 = some st2 ∧
      st2.idx = st.idx ∧ (euclidAdvances st2 ↔ euclidAdvances st) := by
  have main : ∀ (pat : List Bool) (f decay : ℚ), gen = euclidGate L pat f decay →
      st0.toStep = 0 ∧ st0.idx = 0 →
      ∃ st st2, iterCalls gen (n - 1) st0 = some st ∧ (gen st).isSome = true ∧
        (euclidAdvances st ↔ ∃ k : Nat, n = 1 + 1378 * k) ∧
        (∀ k : Nat, n = 1 + 1378 * k → st.idx = ((k % 16 : Nat) : Int)) ∧
        iterCalls gen (n - 1 + 16 * 1378) st0 = some st2 ∧
        st2.idx = st.idx ∧ (euclidAdvances st2 ↔ euclidAdvances st) := by
    intro pat f decay hg h0
    subst hg
    obtain ⟨st, hs, hinv⟩ := euclidGate_schedule L pat f decay st0 h0 (n - 1)
    obtain ⟨st2, hs2, hinv2⟩ := euclidGate_schedule L pat f decay st0 h0 (n - 1 + 16 * 1378)
    have hidx : 0 ≤ st.idx ∧ st.idx < 16 := by
      rcases hinv with ⟨_, _, h2⟩ | ⟨_, _, h2⟩ <;> omega
    obtain ⟨st1, r, hc, _, _⟩ := euclidGate_total L pat f decay st hidx
    have hper : (((n - 1 + 16 * 1378 : Nat) : Int) - 1) % 1378 = (((n - 1 : Nat) : Int) - 1) % 1378 ∧
        (((n - 1 + 16 * 1378 : Nat) : Int) - 1) / 1378 = (((n - 1 : Nat) : Int) - 1) / 1378 + 16 := by
      have e : ((n - 1 + 16 * 1378 : Nat) : Int) - 1 = (((n - 1 : Nat) : Int) - 1) + 16 * 1378 := by
        push_cast
        ring
      rw [e]
      exact ⟨Int.add_mul_emod_self, Int.add_mul_ediv_right _ _ (by decide)⟩
    have hinv2b : st2.toStep = 1378 - (((n - 1 : Nat) : Int) - 1) % 1378 ∧
        st2.idx = ((((n - 1 : Nat) : Int) - 1) / 1378 + 16 + 1) % 16 := by
      rcases hinv2 with ⟨hm, _, _⟩ | ⟨_, h1, h2⟩
      · exact absurd hm (Nat.succ_ne_zero _)
      · rw [hper.1] at h1
        rw [hper.2] at h2
        exact ⟨h1, h2⟩
    refine ⟨st, st2, hs, by rw [hc]; rfl, ?_, ?_, hs2, ?_, ?_⟩
    · unfold euclidAdvances
      rcases hinv with ⟨hm, h1, _⟩ | ⟨hm, h1, _⟩
      · rw [h1]
        constructor
        · intro _
          exact ⟨0, by omega⟩
        · intro _
          decide
      · rw [h1]
        constructor
        · intro ha
          refine ⟨(n - 1) / 1378, ?_⟩
          omega
        · rintro ⟨k, hk⟩
          subst hk
          omega
    · intro k hk
      subst hk
      rcases hinv with ⟨_, _, h2⟩ | ⟨_, _, h2⟩
      · rw [h2]
        omega
      · rw [h2]
        omega
    · rw [hinv2b.2]
      rcases hinv with ⟨hm, _, h2⟩ | ⟨hm, _, h2⟩
      · rw [h2, hm]
        decide
      · rw [h2]
        omega
    · unfold euclidAdvances
      rw [hinv2b.1]
      rcases hinv with ⟨hm, h1, _⟩ | ⟨hm, h1, _⟩
      · rw [h1, hm]
        decide
      · rw [h1]
  refine ⟨by decide!, ?_⟩
  rcases hgen with ⟨h1, h2⟩ | ⟨h1, h2⟩
  · exact main euclidPat 1000 0.995 (by rw [h1]; rfl) (by rw [h2]; exact ⟨rfl, rfl⟩)
  · exact main euclid716Pat 1600 0.994 (by rw [h1]; rfl) (by rw [h2]; exact ⟨rfl, rfl⟩)

theorem euclid_step_schedule_witness :
    truncI ((11025 : ℚ) / 8) = 1378 ∧
    ∃ st st2, iterCalls (nextEuclidU8 Libm.zero) (1379 - 1) (initOf .euclid) = some st ∧
      ((nextEuclidU8 Libm.zero) st).isSome = true ∧
      (euclidAdvances st ↔ ∃ k : Nat, 1379 = 1 + 1378 * k) ∧
      (∀ k : Nat, 1379 = 1 + 1378 * k → st.idx = ((k % 16 : Nat) : Int)) ∧
      iterCalls (nextEuclidU8 Libm.zero) (1379 - 1 + 16 * 1378) (initOf .euclid) = some st2 ∧
      st2.idx = st.idx ∧ (euclidAdvances st2 ↔ euclidAdvances st) :=
  euclid_step_schedule Libm.zero (nextEuclidU8 Libm.zero) (initOf .euclid)
    (Or.inl ⟨rfl, rfl⟩) 1379 (by decide)

/-! ## Hard sync and the missing fundamental -/

/-- C23 as stated fails in its exact values: the phases are `float` values, and a call
stores the `float` nearest a sum, not the sum.  From power-on the first two calls leave the
slave phase 8034803/134217728; the master does not complete its cycle on the third call, and
the slave phase after it is neither that phase plus 330/11025 nor that phase plus the
`float` increment 8034803/268435456.  The roundings add up: the 98th call from power-on (no
reset so far) returns 231, where 98 advances of exactly 330/11025 with two wraps give the
phase 14/15 and the sample 232.  The 101st call is the first on which the master completes
a cycle: the slave phase after it is the `float` increment, which is not 330/11025. -/
theorem sync_advance_is_rounded :
    initOf .sync = { phM := 0, phS := 0 } ∧
    ((fun st => (nextSyncU8 st).1)^[2] (initOf .sync)).phS = 8034803 / 134217728 ∧
    ¬ (fadd ((fun st => (nextSyncU8 st).1)^[2] (initOf .sync)).phM (fdiv 110 11025) ≥ 1) ∧
    (nextSyncU8 ((fun st => (nextSyncU8 st).1)^[2] (initOf .sync))).1.phS
      ≠ wrapOne (((fun st => (nextSyncU8 st).1)^[2] (initOf .sync)).phS + 330 / 11025) ∧
    (nextSyncU8 ((fun st => (nextSyncU8 st).1)^[2] (initOf .sync))).1.phS
      ≠ wrapOne (((fun st => (nextSyncU8 st).1)^[2] (initOf .sync)).phS + fdiv 330 11025) ∧
    (nextSyncU8 ((fun st => (nextSyncU8 st).1)^[97] (initOf .sync))).2 = 231 ∧
    (98 : ℚ) * (330 / 11025) - 2 = 14 / 15 ∧
    clampU8 (truncI ((2 * (14 / 15 : ℚ) - 1) * 120) + 128) = 232 ∧
    fadd ((fun st => (nextSyncU8 st).1)^[100] (initOf .sync)).phM (fdiv 110 11025) ≥ 1 ∧
    (nextSyncU8 ((fun st => (nextSyncU8 st).1)^[100] (initOf .sync))).1.phS
      = 8034803 / 268435456 ∧
    (nextSyncU8 ((fun st => (nextSyncU8 st).1)^[100] (initOf .sync))).1.phS ≠ 330 / 11025 := by
  have h100 : (nextSyncU8 ((fun st => (nextSyncU8 st).1)^[100] (initOf .sync))).1.phS
      = 8034803 / 268435456 := by decide!
  refine ⟨rfl, by decide!, by decide!, by decide!, by decide!, by decide!, by norm_num,
    by decide!, by decide!, h100, ?_⟩
  rw [h100]
  norm_num

theorem nextSyncU8_eq (st : SyncState) :
    nextSyncU8 st =
      ({ phM := if fadd st.phM (fdiv 110 11025) ≥ 1 then fsub (fadd st.phM (fdiv 110 11025)) 1
                else fadd st.phM (fdiv 110 11025)
         phS := if fadd (if fadd st.phM (fdiv 110 11025) ≥ 1 then 0 else st.phS)
                    (fdiv 330 11025) ≥ 1
                then fsub (fadd (if fadd st.phM (fdiv 110 11025) ≥ 1 then 0 else st.phS)
                    (fdiv 330 11025)) 1
                else fadd (if fadd st.phM (fdiv 110 11025) ≥ 1 then 0 else st.phS)
                    (fdiv 330 11025) },
       clampU8 (truncI (fmul (fsub (fmul 2
          (if fadd (if fadd st.phM (fdiv 110 11025) ≥ 1 then 0 else st.phS)
                    (fdiv 330 11025) ≥ 1
           then fsub (fadd (if fadd st.phM (fdiv 110 11025) ≥ 1 then 0 else st.phS)
                    (fdiv 330 11025)) 1
           else fadd (if fadd st.phM (fdiv 110 11025) ≥ 1 then 0 else st.phS)
                    (fdiv 330 11025))) 1) 120) + 128)) := by
  have hs : ((SAMPLE_RATE_HZ : Int) : ℚ) = 11025 := by
    unfold SAMPLE_RATE_HZ
    norm_num
  unfold nextSyncU8
  simp only [hs]

/-- One `float` advance of the slave phase is within 2^-23 of an advance by 330/11025,
less 1 when it wraps. -/
theorem sync_advance_error (p : ℚ) (h0 : 0 ≤ p) (h1 : p < 1) :
    (fadd p (fdiv 330 11025) ≥ 1 →
      |fsub (fadd p (fdiv 330 11025)) 1 - (p + 330 / 11025 - 1)| ≤ 1 / 8388608) ∧
    (¬ (fadd p (fdiv 330 11025) ≥ 1) →
      |fadd p (fdiv 330 11025) - (p + 330 / 11025)| ≤ 1 / 8388608) := by
  have hq : fdiv 330 11025 = 8034803 / 268435456 := by decide!
  rw [hq]
  unfold fadd fsub
  have e1 := f32_error (p + 8034803 / 268435456)
  have hs : |p + 8034803 / 268435456| ≤ 1 + 8034803 / 268435456 := by
    rw [abs_le]
    constructor <;> linarith
  have tiny : (1 : ℚ) / 2 ^ 150 ≤ 1 / 16777216 / 1000 := by norm_num
  have ea : |f32 (p + 8034803 / 268435456) - (p + 8034803 / 268435456)|
      ≤ (1 + 8034803 / 268435456) / 16777216 + 1 / 16777216 / 1000 := by
    have : |p + 8034803 / 268435456| / 16777216
        ≤ (1 + 8034803 / 268435456) / 16777216 := by
      apply div_le_div_of_nonneg_right hs (by norm_num)
    linarith
  rw [abs_le] at ea
  constructor
  · intro hw
    have e2 := f32_error (f32 (p + 8034803 / 268435456) - 1)
    have hb : |f32 (p + 8034803 / 268435456) - 1| ≤ 1 / 16 := by
      rw [abs_le]
      constructor
      · linarith
      · norm_num at ea ⊢
        linarith
    have eb : |f32 (f32 (p + 8034803 / 268435456) - 1) - (f32 (p + 8034803 / 268435456) - 1)|
        ≤ (1 / 16) / 16777216 + 1 / 16777216 / 1000 := by
      have : |f32 (p + 8034803 / 268435456) - 1| / 16777216 ≤ (1 / 16) / 16777216 := by
        apply div_le_div_of_nonneg_right hb (by norm_num)
      linarith
    rw [abs_le] at eb
    rw [abs_le]
    norm_num at ea eb ⊢
    constructor <;> linarith
  · intro _
    rw [abs_le]
    norm_num at ea ⊢
    constructor <;> linarith

/-- C23 amended: on every call of `nextSyncU8` on which the master phase completes a cycle
(its `float` sum with the increment reaches or exceeds 1), the slave phase is reset to zero
before its own increment, so the slave phase after the call is the `float` nearest
330/11025 (8034803/268435456) and the returned sample (16) does not depend on the slave's
previous phase; on every other call the slave phase becomes the `float` sum of the previous
phase and that increment, less 1 when the sum reaches 1: for a previous phase in [0,1) this
is within 2^-23 of an advance by 330/11025 wrapping at 1, not exactly that advance. -/
theorem sync_slave_reset (st : SyncState) :
    (fadd st.phM (fdiv 110 11025) ≥ 1 →
      (nextSyncU8 st).1.phM = fsub (fadd st.phM (fdiv 110 11025)) 1 ∧
      (nextSyncU8 st).1.phS = 8034803 / 268435456 ∧ (nextSyncU8 st).2 = 16 ∧
      ∀ phS : ℚ, (nextSyncU8 { st with phS := phS }).2 = (nextSyncU8 st).2 ∧
        (nextSyncU8 { st with phS := phS }).1 = (nextSyncU8 st).1) ∧
    (¬ (fadd st.phM (fdiv 110 11025) ≥ 1) →
      (nextSyncU8 st).1.phM = fadd st.phM (fdiv 110 11025) ∧
      (nextSyncU8 st).1.phS =
        (if fadd st.phS (fdiv 330 11025) ≥ 1 then fsub (fadd st.phS (fdiv 330 11025)) 1
         else fadd st.phS (fdiv 330 11025)) ∧
      (nextSyncU8 st).2
        = clampU8 (truncI (fmul (fsub (fmul 2 (nextSyncU8 st).1.phS) 1) 120) + 128) ∧
      (0 ≤ st.phS → st.phS < 1 →
        |(nextSyncU8 st).1.phS - (st.phS + 330 / 11025)| ≤ 1 / 8388608 ∨
        |(nextSyncU8 st).1.phS - (st.phS + 330 / 11025 - 1)| ≤ 1 / 8388608)) := by
  constructor
  · intro h
    have hq : fadd 0 (fdiv 330 11025) = 8034803 / 268435456 := by decide!
    have hw : ¬ ((8034803 / 268435456 : ℚ) ≥ 1) := by norm_num
    have h16 : clampU8 (truncI (fmul (fsub (fmul 2 (8034803 / 268435456)) 1) 120) + 128)
        = 16 := by decide!
    have key : ∀ phS : ℚ, nextSyncU8 { st with phS := phS } =
        ({ phM := fsub (fadd st.phM (fdiv 110 11025)) 1, phS := 8034803 / 268435456 }, 16) := by
      intro phS
      rw [nextSyncU8_eq]
      simp only [if_pos h, hq, if_neg hw, h16]
    have k0 := key st.phS
    have e : ({ st with phS := st.phS } : SyncState) = st := rfl
    rw [e] at k0
    refine ⟨by rw [k0], by rw [k0], by rw [k0], fun phS => ?_⟩
    rw [key phS, k0]
    exact ⟨rfl, rfl⟩
  · intro h
    have k := nextSyncU8_eq st
    simp only [if_neg h] at k
    refine ⟨by rw [k], by rw [k], by rw [k], ?_⟩
    intro h0 h1
    obtain ⟨a, b⟩ := sync_advance_error st.phS h0 h1
    rw [k]
    dsimp only
    by_cases hw : fadd st.phS (fdiv 330 11025) ≥ 1
    · rw [if_pos hw]
      exact Or.inr (a hw)
    · rw [if_neg hw]
      exact Or.inl (b hw)

theorem sync_slave_reset_witness :
    (nextSyncU8 { phM := 0.995, phS := 0.7 }).1.phS = 8034803 / 268435456 ∧
    (nextSyncU8 { phM := 0.995, phS := 0.7 }).2 = 16 ∧
    (nextSyncU8 { phM := 0.5, phS := 0.99 }).1.phS
      = fsub (fadd 0.99 (fdiv 330 11025)) 1 := by
  have h1 := (sync_slave_reset { phM := 0.995, phS := 0.7 }).1 (by decide!)
  have h2 := (sync_slave_reset { phM := 0.5, phS := 0.99 }).2 (by decide!)
  refine ⟨h1.2.1, h1.2.2.1, ?_⟩
  rw [h2.2.1]
  rw [if_pos (by decide!)]

theorem nextMissingFundU8_wave (L : Libm) (st : MissingFundState) :
    (nextMissingFundU8 L st).1.p = wrapTau (st.p + hz_to_step 180) ∧
    (nextMissingFundU8 L st).2 =
      clampU8 (truncI (missingFundWave L (nextMissingFundU8 L st).1.p * 0.9 * 127) + 128) :=
  ⟨rfl, rfl⟩

/-- C24 as stated fails: at the phase p = 3.14159265 / 2 (a quarter cycle, trigonometry of
`Libm.trig`) the harmonics are 0, -1, 0, 1, so the unweighted sum is 0 while the waveform of
the code is -1/3 + 1/5 = -2/15; the waveform is therefore no multiple of the unweighted sum,
and the sample returned at that phase is 113 and not the midpoint 128. -/
theorem missingFund_is_weighted :
    unweightedHarmonics Libm.trig (3.14159265 / 2) = 0 ∧
    missingFundWave Libm.trig (3.14159265 / 2) = -2 / 15 ∧
    (nextMissingFundU8 Libm.trig { p := 3.14159265 / 2 - hz_to_step 180 }).1.p
      = 3.14159265 / 2 ∧
    (nextMissingFundU8 Libm.trig { p := 3.14159265 / 2 - hz_to_step 180 }).2 = 113 ∧
    ¬ ∃ c : ℚ, ∀ p : ℚ, missingFundWave Libm.trig p = c * unweightedHarmonics Libm.trig p := by
  have h1 : unweightedHarmonics Libm.trig (3.14159265 / 2) = 0 := by decide!
  have h2 : missingFundWave Libm.trig (3.14159265 / 2) = -2 / 15 := by decide!
  refine ⟨h1, h2, by decide!, by decide!, ?_⟩
  rintro ⟨c, hc⟩
  have h3 := hc (3.14159265 / 2)
  rw [h1, h2] at h3
  norm_num at h3

/-- C24 amended: the missing-fundamental generator's waveform is the sum of harmonics 2, 3,
4 and 5 of its fundamental phase p weighted 1/2, 1/3, 1/4 and 1/5, with no component at the
fundamental itself: for every phase, v = sin(2p)/2 + sin(3p)/3 + sin(4p)/4 + sin(5p)/5
before the common output scaling by 0.9, p being the phase advanced by the step of 180 Hz
and wrapped. -/
theorem missingFund_weighted_harmonics (L : Libm) (st : MissingFundState) :
    (nextMissingFundU8 L st).1.p = wrapTau (st.p + TAU_F * 180 / 11025) ∧
    (nextMissingFundU8 L st).2 = clampU8 (truncI
      ((L.sinf (2 * (nextMissingFundU8 L st).1.p) / 2 +
        L.sinf (3 * (nextMissingFundU8 L st).1.p) / 3 +
        L.sinf (4 * (nextMissingFundU8 L st).1.p) / 4 +
        L.sinf (5 * (nextMissingFundU8 L st).1.p) / 5) * 0.9 * 127) + 128) ∧
    missingFundWave L (nextMissingFundU8 L st).1.p =
      L.sinf (2 * (nextMissingFundU8 L st).1.p) / 2 +
        L.sinf (3 * (nextMissingFundU8 L st).1.p) / 3 +
        L.sinf (4 * (nextMissingFundU8 L st).1.p) / 4 +
        L.sinf (5 * (nextMissingFundU8 L st).1.p) / 5 := by
  have hw : ∀ p, missingFundWave L p =
      L.sinf (2 * p) / 2 + L.sinf (3 * p) / 3 + L.sinf (4 * p) / 4 + L.sinf (5 * p) / 5 := by
    intro p
    unfold missingFundWave
    ring
  have hs : ((SAMPLE_RATE_HZ : Int) : ℚ) = 11025 := by
    unfold SAMPLE_RATE_HZ
    norm_num
  refine ⟨?_, ?_, hw _⟩
  · rw [(nextMissingFundU8_wave L st).1, hz_to_step, hs]
  · rw [(nextMissingFundU8_wave L st).2, hw]

/-! ## The gated reverb -/

/-- What a call of `nextGatedReverbU8` leaves in its record. -/
theorem nextGatedReverbU8_effect (d : Nat → Nat) (st st1 : GatedReverbState) (r : Nat)
    (hv : 0 ≤ st.w ∧ st.w < 900) (hs : nextGatedReverbU8 d st = some (st1, r)) :
    st1.env = (if st.retrig - 1 ≤ 0 then 1 else st.env) * 0.985 ∧
    st1.w = Int.tmod (st.w + 1) 900 ∧
    (∀ i, i ≠ st.w.toNat → st1.comb i = st.comb i) ∧
    (st1.comb st.w.toNat = 0 ∨
      st1.comb st.w.toNat = ((random (-128) 128 (d 0) : ℚ) / 128 *
          (if st.retrig - 1 ≤ 0 then 1 else st.env)
        + 0.80 * st.comb (Int.tmod (st.w + 1) 900).toNat) * 0.88) := by
  have hb := tmod_bounds (st.w + 1) 900 (by omega) (by omega)
  have c1 : ¬ (Int.tmod (st.w + 1) 900 < 0 ∨ (900 : Int) ≤ Int.tmod (st.w + 1) 900) := by omega
  have c2 : ¬ (st.w < 0 ∨ (900 : Int) ≤ st.w) := by omega
  unfold nextGatedReverbU8 at hs
  dsimp only at hs
  rw [if_neg c1, if_neg c2] at hs
  simp only [Option.some.injEq, Prod.mk.injEq] at hs
  obtain ⟨e, _⟩ := hs
  subst e
  refine ⟨rfl, rfl, fun i hi => Function.update_noteq hi _ _, ?_⟩
  simp only [Function.update_same]
  split_ifs <;> simp

/-- The bound of the gated-reverb record: envelope in [0,1], every comb cell within 110/37,
write position inside the comb. -/
theorem gatedReverb_inv (L : Libm) (st : GatedReverbState)
    (h : GenReachable L .gatedReverb st) :
    (0 ≤ st.w ∧ st.w < 900) ∧ 0 ≤ st.env ∧ st.env ≤ 1 ∧ ∀ i, |st.comb i| ≤ 110 / 37 := by
  induction h with
  | init =>
    refine ⟨⟨by decide, by decide⟩, le_refl _, by decide!, fun i => ?_⟩
    show |(0 : ℚ)| ≤ 110 / 37
    norm_num
  | call t d st st1 r _ hs ih =>
    obtain ⟨hw, he0, he1, hc⟩ := ih
    have hs1 : nextGatedReverbU8 d st = some (st1, r) := hs
    obtain ⟨e1, e2, e3, e4⟩ := nextGatedReverbU8_effect d st st1 r hw hs1
    have hb := tmod_bounds (st.w + 1) 900 (by omega) (by omega)
    have henv : 0 ≤ (if st.retrig - 1 ≤ 0 then 1 else st.env) ∧
        (if st.retrig - 1 ≤ 0 then 1 else st.env) ≤ 1 := by
      split_ifs
      · exact ⟨by norm_num, le_refl _⟩
      · exact ⟨he0, he1⟩
    refine ⟨⟨by rw [e2]; exact hb.1, by rw [e2]; exact hb.2⟩, ?_, ?_, ?_⟩
    · rw [e1]
      nlinarith [henv.1]
    · rw [e1]
      nlinarith [henv.2]
    · intro i
      by_cases hi : i = st.w.toNat
      · subst hi
        rcases e4 with e | e
        · rw [e]
          norm_num
        · rw [e]
          have hr := random_bounds (-128) 128 (d 0) (by decide)
          have hr1 : (-128 : ℚ) ≤ (random (-128) 128 (d 0) : ℚ) := by exact_mod_cast hr.1
          have hr2 : (random (-128) 128 (d 0) : ℚ) ≤ 128 := by
            have : random (-128) 128 (d 0) ≤ 128 := by omega
            exact_mod_cast this
          have hx : |(random (-128) 128 (d 0) : ℚ) / 128 *
              (if st.retrig - 1 ≤ 0 then 1 else st.env)| ≤ 1 := by
            rw [abs_mul]
            have ha : |(random (-128) 128 (d 0) : ℚ) / 128| ≤ 1 := by
              rw [abs_le]
              constructor <;> linarith
            have hb2 : |(if st.retrig - 1 ≤ 0 then 1 else st.env)| ≤ 1 := by
              rw [abs_le]
              constructor <;> linarith [henv.1, henv.2]
            calc |(random (-128) 128 (d 0) : ℚ) / 128| *
                  |(if st.retrig - 1 ≤ 0 then 1 else st.env)|
                ≤ 1 * 1 := mul_le_mul ha hb2 (abs_nonneg _) (by norm_num)
              _ = 1 := by norm_num
          have hcr := hc (Int.tmod (st.w + 1) 900).toNat
          rw [abs_le] at hx hcr ⊢
          constructor <;> linarith [hx.1, hx.2, hcr.1, hcr.2]
      · rw [e3 i hi]
        exact hc i

/-- C26: the gated-reverb comb never diverges: in every state that calls of
`nextGatedReverbU8` reach from the initial one (all cells 0), for every sequence of noise
draws, the excitation envelope lies in [0,1] and every comb cell satisfies
|comb[i]| <= 110/37 (= 0.88 / (1 - 0.8*0.88)); the next call completes and leaves a state
within the same bounds. -/
theorem gatedReverb_never_diverges (L : Libm) (st : GatedReverbState)
    (h : GenReachable L .gatedReverb st) :
    (0 ≤ st.env ∧ st.env ≤ 1 ∧ ∀ i, |st.comb i| ≤ 110 / 37) ∧
    (110 / 37 : ℚ) = 0.88 / (1 - 0.8 * 0.88) ∧
    ∀ d, ∃ st1 r, nextGatedReverbU8 d st = some (st1, r) ∧
      0 ≤ st1.env ∧ st1.env ≤ 1 ∧ ∀ i, |st1.comb i| ≤ 110 / 37 := by
  obtain ⟨hw, hrest⟩ := gatedReverb_inv L st h
  refine ⟨hrest, by norm_num, fun d => ?_⟩
  obtain ⟨st1, r, hs, _, _⟩ := nextGatedReverbU8_total d st hw
  have hs1 : genStep L 0 d .gatedReverb st = some (st1, r) := hs
  exact ⟨st1, r, hs, (gatedReverb_inv L st1 (GenReachable.call 0 d st st1 r h hs1)).2⟩

theorem gatedReverb_never_diverges_witness :
    ∃ st1 r, nextGatedReverbU8 (fun _ => 255) (initOf .gatedReverb) = some (st1, r) ∧
      0 ≤ st1.env ∧ st1.env ≤ 1 ∧ ∀ i, |st1.comb i| ≤ 110 / 37 :=
  (gatedReverb_never_diverges Libm.zero (initOf .gatedReverb) GenReachable.init).2.2
    (fun _ => 255)

/-! ## The gain stage never amplifies -/

/-- Truncation toward zero moves a value by less than 1, toward zero. -/
theorem truncI_between (x : ℚ) :
    (0 ≤ x → 0 ≤ truncI x ∧ (truncI x : ℚ) ≤ x ∧ x < (truncI x : ℚ) + 1) ∧
    (x ≤ 0 → truncI x ≤ 0 ∧ x ≤ (truncI x : ℚ) ∧ (truncI x : ℚ) - 1 < x) := by
  unfold truncI
  constructor
  · intro h
    rw [if_pos h]
    exact ⟨Int.floor_nonneg.mpr h, Int.floor_le x, Int.lt_floor_add_one x⟩
  · intro h
    by_cases h0 : 0 ≤ x
    · have e : x = 0 := le_antisymm h h0
      subst e
      simp
    · rw [if_neg h0]
      refine ⟨Int.ceil_le.mpr (by push_cast; exact h), Int.le_ceil x, ?_⟩
      linarith [Int.ceil_lt_add_one x]

/-- The `float` product of the gain stage on a raw sample in [0,255] with gains in [0,1]
lies between 0 and the re-centred raw sample. -/
theorem gainStage_product_between (r : Nat) (g m : ℚ) (hr : r ≤ 255) (hg0 : 0 ≤ g)
    (hg1 : g ≤ 1) (hm0 : 0 ≤ m) (hm1 : m ≤ 1) :
    ((128 : Int) ≤ r → 0 ≤ fmul (fmul (((r : Int) - 128 : Int) : ℚ) (f32 g)) m ∧
      fmul (fmul (((r : Int) - 128 : Int) : ℚ) (f32 g)) m ≤ (((r : Int) - 128 : Int) : ℚ)) ∧
    ((r : Int) ≤ 128 → fmul (fmul (((r : Int) - 128 : Int) : ℚ) (f32 g)) m ≤ 0 ∧
      (((r : Int) - 128 : Int) : ℚ) ≤ fmul (fmul (((r : Int) - 128 : Int) : ℚ) (f32 g)) m) := by
  have hG0 : 0 ≤ f32 g := f32_nonneg g hg0
  have hG1 : f32 g ≤ 1 := by
    have := f32_mono g 1 hg1
    rwa [f32_one] at this
  have hcb : |(r : Int) - 128| < 2 ^ 24 := by
    rw [abs_lt]
    constructor <;> omega
  have h0b : |(0 : Int)| < 2 ^ 24 := by norm_num
  unfold fmul
  constructor
  · intro h
    have hc : (0 : ℚ) ≤ (((r : Int) - 128 : Int) : ℚ) := by
      have : (0 : Int) ≤ (r : Int) - 128 := by omega
      exact_mod_cast this
    have a1 : ((0 : Int) : ℚ) ≤ (((r : Int) - 128 : Int) : ℚ) * f32 g := by
      rw [Int.cast_zero]
      exact mul_nonneg hc hG0
    have a2 : (((r : Int) - 128 : Int) : ℚ) * f32 g ≤ (((r : Int) - 128 : Int) : ℚ) := by
      nlinarith
    obtain ⟨b1, b2⟩ := f32_between_int _ 0 ((r : Int) - 128) h0b hcb a1 a2
    have b1' : (0 : ℚ) ≤ f32 ((((r : Int) - 128 : Int) : ℚ) * f32 g) := by exact_mod_cast b1
    have c1 : ((0 : Int) : ℚ) ≤ f32 ((((r : Int) - 128 : Int) : ℚ) * f32 g) * m := by
      rw [Int.cast_zero]
      exact mul_nonneg b1' hm0
    have c2 : f32 ((((r : Int) - 128 : Int) : ℚ) * f32 g) * m
        ≤ (((r : Int) - 128 : Int) : ℚ) := by
      nlinarith
    obtain ⟨d1, d2⟩ := f32_between_int _ 0 ((r : Int) - 128) h0b hcb c1 c2
    exact ⟨by exact_mod_cast d1, d2⟩
  · intro h
    have hc : (((r : Int) - 128 : Int) : ℚ) ≤ 0 := by
      have : (r : Int) - 128 ≤ 0 := by omega
      exact_mod_cast this
    have a1 : (((r : Int) - 128 : Int) : ℚ) * f32 g ≤ ((0 : Int) : ℚ) := by
      rw [Int.cast_zero]
      exact mul_nonpos_of_nonpos_of_nonneg hc hG0
    have a2 : (((r : Int) - 128 : Int) : ℚ) ≤ (((r : Int) - 128 : Int) : ℚ) * f32 g := by
      nlinarith
    obtain ⟨b1, b2⟩ := f32_between_int _ ((r : Int) - 128) 0 hcb h0b a2 a1
    have b2' : f32 ((((r : Int) - 128 : Int) : ℚ) * f32 g) ≤ 0 := by exact_mod_cast b2
    have c1 : f32 ((((r : Int) - 128 : Int) : ℚ) * f32 g) * m ≤ ((0 : Int) : ℚ) := by
      rw [Int.cast_zero]
      exact mul_nonpos_of_nonpos_of_nonneg b2' hm0
    have c2 : (((r : Int) - 128 : Int) : ℚ)
        ≤ f32 ((((r : Int) - 128 : Int) : ℚ) * f32 g) * m := by
      nlinarith
    obtain ⟨d1, d2⟩ := f32_between_int _ ((r : Int) - 128) 0 hcb h0b c2 c1
    exact ⟨by exact_mod_cast d2, d1⟩

/-- The truncated `float` product of the gain stage lies between 0 and the re-centred raw
sample. -/
theorem gainStage_trunc_between (r : Nat) (g m : ℚ) (hr : r ≤ 255) (hg0 : 0 ≤ g)
    (hg1 : g ≤ 1) (hm0 : 0 ≤ m) (hm1 : m ≤ 1) :
    ((128 : Int) ≤ r → 0 ≤ truncI (fmul (fmul (((r : Int) - 128 : Int) : ℚ) (f32 g)) m) ∧
      truncI (fmul (fmul (((r : Int) - 128 : Int) : ℚ) (f32 g)) m) ≤ (r : Int) - 128) ∧
    ((r : Int) ≤ 128 → truncI (fmul (fmul (((r : Int) - 128 : Int) : ℚ) (f32 g)) m) ≤ 0 ∧
      (r : Int) - 128 ≤ truncI (fmul (fmul (((r : Int) - 128 : Int) : ℚ) (f32 g)) m)) := by
  have hp := gainStage_product_between r g m hr hg0 hg1 hm0 hm1
  have hb := truncI_between (fmul (fmul (((r : Int) - 128 : Int) : ℚ) (f32 g)) m)
  constructor
  · intro h
    obtain ⟨p0, p1⟩ := hp.1 h
    obtain ⟨h1, h2, _⟩ := hb.1 p0
    exact ⟨h1, Int.cast_le.mp (le_trans h2 p1)⟩
  · intro h
    obtain ⟨p0, p1⟩ := hp.2 h
    obtain ⟨h1, h2, _⟩ := hb.2 p0
    exact ⟨h1, Int.cast_le.mp (le_trans p1 h2)⟩

/-- The `float` product of the gain stage is within 2^-15 of the exact product. -/
theorem gainStage_product_error (r : Nat) (g m : ℚ) (hr : r ≤ 255) (hg0 : 0 ≤ g)
    (hg1 : g ≤ 1) (hm0 : 0 ≤ m) (hm1 : m ≤ 1) :
    |fmul (fmul (((r : Int) - 128 : Int) : ℚ) (f32 g)) m
      - (((r : Int) - 128 : Int) : ℚ) * g * m| < 1 / 32768 := by
  have hG0 : 0 ≤ f32 g := f32_nonneg g hg0
  have hG1 : f32 g ≤ 1 := by
    have := f32_mono g 1 hg1
    rwa [f32_one] at this
  have hc : |(((r : Int) - 128 : Int) : ℚ)| ≤ 128 := by
    rw [abs_le]
    have h1 : (-128 : Int) ≤ (r : Int) - 128 := by omega
    have h2 : (r : Int) - 128 ≤ 128 := by omega
    constructor
    · exact_mod_cast h1
    · exact_mod_cast h2
  set c : ℚ := (((r : Int) - 128 : Int) : ℚ) with hcdef
  have e0 := f32_error g
  rw [abs_of_nonneg hg0] at e0
  have e1 := f32_error (c * f32 g)
  have e2 := f32_error (f32 (c * f32 g) * m)
  have hcg : |c * f32 g| ≤ 128 := by
    rw [abs_mul, abs_of_nonneg hG0]
    calc |c| * f32 g ≤ 128 * 1 := mul_le_mul hc hG1 hG0 (by norm_num)
      _ = 128 := by norm_num
  have hp1 : |f32 (c * f32 g)| ≤ 129 := by
    have := abs_sub_abs_le_abs_sub (f32 (c * f32 g)) (c * f32 g)
    have t : (1 : ℚ) / 2 ^ 150 ≤ 1 / 2 := by norm_num
    linarith
  have hp1m : |f32 (c * f32 g) * m| ≤ 129 := by
    rw [abs_mul, abs_of_nonneg hm0]
    calc |f32 (c * f32 g)| * m ≤ 129 * 1 := mul_le_mul hp1 hm1 hm0 (by norm_num)
      _ = 129 := by norm_num
  unfold fmul
  have split : f32 (f32 (c * f32 g) * m) - c * g * m
      = (f32 (f32 (c * f32 g) * m) - f32 (c * f32 g) * m)
        + (f32 (c * f32 g) - c * f32 g) * m + c * (f32 g - g) * m := by ring
  rw [split]
  have t1 : |(f32 (c * f32 g) - c * f32 g) * m| ≤ 128 / 16777216 + 1 / 2 ^ 150 := by
    rw [abs_mul, abs_of_nonneg hm0]
    calc |f32 (c * f32 g) - c * f32 g| * m
        ≤ (|c * f32 g| / 16777216 + 1 / 2 ^ 150) * 1 :=
          mul_le_mul e1 hm1 hm0 (by positivity)
      _ ≤ 128 / 16777216 + 1 / 2 ^ 150 := by linarith
  have t2 : |c * (f32 g - g) * m| ≤ 128 * (1 / 16777216 + 1 / 2 ^ 150) := by
    rw [abs_mul, abs_mul, abs_of_nonneg hm0]
    have hq : |f32 g - g| ≤ 1 / 16777216 + 1 / 2 ^ 150 := by linarith
    calc |c| * |f32 g - g| * m ≤ 128 * (1 / 16777216 + 1 / 2 ^ 150) * 1 :=
          mul_le_mul (mul_le_mul hc hq (abs_nonneg _) (by norm_num)) hm1 hm0 (by positivity)
      _ = 128 * (1 / 16777216 + 1 / 2 ^ 150) := by ring
  have t0 : |f32 (f32 (c * f32 g) * m) - f32 (c * f32 g) * m|
      ≤ 129 / 16777216 + 1 / 2 ^ 150 := by linarith
  have tiny : (1 : ℚ) / 2 ^ 150 ≤ 1 / 16777216 / 1000 := by norm_num
  calc |f32 (f32 (c * f32 g) * m) - f32 (c * f32 g) * m
        + (f32 (c * f32 g) - c * f32 g) * m + c * (f32 g - g) * m|
      ≤ |f32 (f32 (c * f32 g) * m) - f32 (c * f32 g) * m|
        + |(f32 (c * f32 g) - c * f32 g) * m| + |c * (f32 g - g) * m| := abs_add_three _ _ _
    _ < 1 / 32768 := by
      have : (1 : ℚ) / 32768 = 512 / 16777216 := by norm_num
      rw [this]
      linarith

/-- C27 as stated fails in its third part: the stage truncates a product computed in
`float`, which can fall below an integer that the exact product reaches.  (1) With r = 141,
g = 0.7 (TONE_KARPLUS, stored as 0.70f) and the `float` master gain m = 12905551/16777216
(the `float` nearest 10/13) the stage returns 134, o - 128 = 6: `13 * 0.70f` rounds down and
its product with m stays below 7, while the exact product `13 * g * m` exceeds 7 both for
g = 0.7 and for g the stored `float`; the engine returns that 134 from power-on with the
master gain set to m (TONE_KARPLUS, draw 155, raw sample 141; no math-library call).
(2) With r = 224, g = 0.7 and m = 15/16 the stage returns 190, o - 128 = 62, while the exact
product `96 * 0.7 * 15/16` is 63.  (3) With r = 161, g = 0.55 (0.55f = 9227469/16777216)
and the `float` master gain m = 1848729/33554432 the stage returns 128, o - 128 = 0, while
the exact product `33 * 0.55f * m` is at least 1. -/
theorem gainStage_off_by_one :
    (gainStage 141 0.7 (12905551 / 16777216) = 134 ∧
      f32 (12905551 / 16777216) = 12905551 / 16777216 ∧
      ¬ |((((gainStage 141 0.7 (12905551 / 16777216) : Nat) : Int) - 128 : Int) : ℚ)
          - ((((141 : Nat) : Int) - 128 : Int) : ℚ) * 0.7 * (12905551 / 16777216)| < 1 ∧
      ¬ |((((gainStage 141 0.7 (12905551 / 16777216) : Nat) : Int) - 128 : Int) : ℚ)
          - ((((141 : Nat) : Int) - 128 : Int) : ℚ) * f32 0.7 * (12905551 / 16777216)| < 1 ∧
      getGainForType TONE_KARPLUS = 0.7 ∧
      (runGenerator Libm.zero .karplus TONE_KARPLUS (fun _ => 155)
        (setMasterGain (12905551 / 16777216) State.init)).map Prod.snd = some 141 ∧
      (nextAudioSample Libm.zero TONE_KARPLUS (fun _ => 155)
        (setMasterGain (12905551 / 16777216) State.init)).map Prod.snd = some 134) ∧
    (gainStage 224 0.7 (15 / 16) = 190 ∧
      ¬ |((((gainStage 224 0.7 (15 / 16) : Nat) : Int) - 128 : Int) : ℚ)
          - ((((224 : Nat) : Int) - 128 : Int) : ℚ) * 0.7 * (15 / 16)| < 1 ∧
      getGainForType TONE_TRIANGLE = 0.7 ∧
      (runGenerator Libm.zero .tone TONE_TRIANGLE (fun _ => 0)
        (setMasterGain (15 / 16) State.init)).map Prod.snd = some 224 ∧
      (nextAudioSample Libm.zero TONE_TRIANGLE (fun _ => 0)
        (setMasterGain (15 / 16) State.init)).map Prod.snd = some 190) ∧
    (gainStage 161 0.55 (1848729 / 33554432) = 128 ∧
      f32 0.55 = 9227469 / 16777216 ∧ f32 (1848729 / 33554432) = 1848729 / 33554432 ∧
      ¬ |((((gainStage 161 0.55 (1848729 / 33554432) : Nat) : Int) - 128 : Int) : ℚ)
          - ((((161 : Nat) : Int) - 128 : Int) : ℚ) * f32 0.55 * (1848729 / 33554432)| < 1 ∧
      getGainForType NOISE_WHITE = 0.55 ∧
      (runGenerator Libm.zero .white NOISE_WHITE (fun _ => 161)
        (setMasterGain (1848729 / 33554432) State.init)).map Prod.snd = some 161 ∧
      (nextAudioSample Libm.zero NOISE_WHITE (fun _ => 161)
        (setMasterGain (1848729 / 33554432) State.init)).map Prod.snd = some 128) := by
  refine ⟨⟨by decide!, by decide!, by decide!, by decide!, by decide!, by decide!, by decide!⟩,
    ⟨by decide!, by decide!, by decide!, by decide!, by decide!⟩,
    ⟨by decide!, by decide!, by decide!, by decide!, by decide!, by decide!, by decide!⟩⟩

/-- C27 amended: the gain stage never amplifies: for every raw sample r in [0,255], every
selector gain g in [0,1] and every master gain m in [0,1], the output o of the gain stage
satisfies |o - 128| <= |r - 128|, o - 128 is zero or has the sign of r - 128, and it
differs by less than 1 from the `float` product fl(fl((r - 128) * fl(g)) * m) that the
code truncates, hence by less than 1 + 2^-15 (not always by less than 1) from the exact
product (r - 128)*g*m; consequently the final `clampU8` never changes the value: o is the
truncated `float` product plus 128.  In every state the engine reaches, the output of
`nextAudioSample` is such an o, for a raw sample in [0,255], the selector gain and the
master gain. -/
theorem gainStage_never_amplifies (r : Nat) (g m : ℚ) (hr : r ≤ 255) (hg0 : 0 ≤ g)
    (hg1 : g ≤ 1) (hm0 : 0 ≤ m) (hm1 : m ≤ 1) :
    (|(gainStage r g m : Int) - 128| ≤ |(r : Int) - 128| ∧
      ((gainStage r g m : Int) - 128 = 0 ∨
        (0 < (gainStage r g m : Int) - 128 ∧ 0 < (r : Int) - 128) ∨
        ((gainStage r g m : Int) - 128 < 0 ∧ (r : Int) - 128 < 0)) ∧
      |(((gainStage r g m : Int) - 128 : Int) : ℚ)
        - fmul (fmul (((r : Int) - 128 : Int) : ℚ) (f32 g)) m| < 1 ∧
      |(((gainStage r g m : Int) - 128 : Int) : ℚ) - (((r : Int) - 128 : Int) : ℚ) * g * m|
        < 1 + 1 / 32768 ∧
      (gainStage r g m : Int)
        = truncI (fmul (fmul (((r : Int) - 128 : Int) : ℚ) (f32 g)) m) + 128) ∧
    (∀ (L : Libm) (t : NoiseType) (d : Nat → Nat) (s s1 : State) (v : Nat),
      Reachable L s → nextAudioSample L t d s = some (s1, v) →
      ∃ raw : Nat, raw ≤ 255 ∧ v = gainStage raw (getGainForType t) s.g_masterGain ∧
        0 ≤ getGainForType t ∧ getGainForType t ≤ 1 ∧
        0 ≤ s.g_masterGain ∧ s.g_masterGain ≤ 1 ∧
        (v : Int) = truncI (fmul (fmul (((raw : Int) - 128 : Int) : ℚ)
          (f32 (getGainForType t))) s.g_masterGain) + 128) := by
  have core : ∀ (r : Nat) (g m : ℚ), r ≤ 255 → 0 ≤ g → g ≤ 1 → 0 ≤ m → m ≤ 1 →
      (gainStage r g m : Int)
        = truncI (fmul (fmul (((r : Int) - 128 : Int) : ℚ) (f32 g)) m) + 128 := by
    intro r g m hr hg0 hg1 hm0 hm1
    have hb := gainStage_trunc_between r g m hr hg0 hg1 hm0 hm1
    unfold gainStage
    apply clampU8_of_range
    · rcases le_total (128 : Int) r with h | h
      · have := hb.1 h
        omega
      · have := hb.2 h
        omega
    · rcases le_total (128 : Int) r with h | h
      · have := hb.1 h
        omega
      · have := hb.2 h
        omega
  refine ⟨?_, ?_⟩
  · have hb := gainStage_trunc_between r g m hr hg0 hg1 hm0 hm1
    have hp := gainStage_product_between r g m hr hg0 hg1 hm0 hm1
    have he := gainStage_product_error r g m hr hg0 hg1 hm0 hm1
    have ho := core r g m hr hg0 hg1 hm0 hm1
    have hx := truncI_between (fmul (fmul (((r : Int) - 128 : Int) : ℚ) (f32 g)) m)
    have e : (gainStage r g m : Int) - 128
        = truncI (fmul (fmul (((r : Int) - 128 : Int) : ℚ) (f32 g)) m) := by omega
    have hd : |(((gainStage r g m : Int) - 128 : Int) : ℚ)
        - fmul (fmul (((r : Int) - 128 : Int) : ℚ) (f32 g)) m| < 1 := by
      rw [e, abs_lt]
      rcases le_total (128 : Int) r with h | h
      · obtain ⟨_, h2, h3⟩ := hx.1 (hp.1 h).1
        constructor <;> linarith
      · obtain ⟨_, h2, h3⟩ := hx.2 (hp.2 h).1
        constructor <;> linarith
    have hd2 : |(((gainStage r g m : Int) - 128 : Int) : ℚ)
        - (((r : Int) - 128 : Int) : ℚ) * g * m| < 1 + 1 / 32768 := by
      have := abs_sub_le ((((gainStage r g m : Int) - 128 : Int) : ℚ))
        (fmul (fmul (((r : Int) - 128 : Int) : ℚ) (f32 g)) m)
        ((((r : Int) - 128 : Int) : ℚ) * g * m)
      linarith
    refine ⟨?_, ?_, hd, hd2, ho⟩
    · rcases le_total (128 : Int) r with h | h
      · have := hb.1 h
        rw [abs_le]
        rw [abs_of_nonneg (by omega : (0 : Int) ≤ (r : Int) - 128)]
        constructor <;> omega
      · have := hb.2 h
        rw [abs_le]
        rw [abs_of_nonpos (by omega : (r : Int) - 128 ≤ 0)]
        constructor <;> omega
    · rcases le_total (128 : Int) r with h | h
      · have := hb.1 h
        omega
      · have := hb.2 h
        omega
  · intro L t d s s1 v hreach hs
    have hG := getGainForType_range t
    have hM := reachable_masterGain L s hreach
    rw [nextAudioSample_eq] at hs
    cases hgen : generatorOf t with
    | none =>
      rw [hgen] at hs
      simp only [Option.some.injEq, Prod.mk.injEq] at hs
      obtain ⟨_, e⟩ := hs
      refine ⟨128, by decide, ?_, hG.1, hG.2, hM.1, hM.2, ?_⟩
      · rw [← e, gainStage_mid]
      · rw [← core 128 _ _ (by decide) hG.1 hG.2 hM.1 hM.2, gainStage_mid, ← e]
    | some gen =>
      rw [hgen] at hs
      dsimp only at hs
      obtain ⟨s2, raw, hrun, _, hraw⟩ := runGenerator_total L gen t d s (reachable_valid L s hreach)
      rw [hrun] at hs
      simp only [Option.map_some', Option.some.injEq, Prod.mk.injEq] at hs
      obtain ⟨_, e⟩ := hs
      refine ⟨raw, hraw, e.symm, hG.1, hG.2, hM.1, hM.2, ?_⟩
      rw [← e]
      exact core raw _ _ hraw hG.1 hG.2 hM.1 hM.2

theorem gainStage_never_amplifies_witness :
    |(gainStage 200 (7 / 10) (1 / 2) : Int) - 128| ≤ |((200 : Nat) : Int) - 128| ∧
    (gainStage 200 (7 / 10) (1 / 2) : Int)
      = truncI (fmul (fmul ((((200 : Nat) : Int) - 128 : Int) : ℚ) (f32 (7 / 10))) (1 / 2))
        + 128 ∧
    gainStage 200 (7 / 10) (1 / 2) = 153 :=
  ⟨(gainStage_never_amplifies 200 (7 / 10) (1 / 2) (by decide) (by norm_num) (by norm_num)
      (by norm_num) (by norm_num)).1.1,
   (gainStage_never_amplifies 200 (7 / 10) (1 / 2) (by decide) (by norm_num) (by norm_num)
      (by norm_num) (by norm_num)).1.2.2.2.2,
   by decide!⟩

/-! ## The Shepard tones -/

theorem shepardPart_cases (L : Libm) (base : ℚ) (acc : (Nat → ℚ) × ℚ × ℚ) (j : Nat) :
    shepardPart L base acc j = acc ∨
    ∃ w p : ℚ, w = L.expf (-0.5 * (L.log2f (base * L.powf 2 (((j : Int) - 5 : Int) : ℚ) / 440)
          * L.log2f (base * L.powf 2 (((j : Int) - 5 : Int) : ℚ) / 440)) / (0.55 * 0.55)) ∧
      (shepardPart L base acc j).2.1 = acc.2.1 + w * L.sinf p ∧
      (shepardPart L base acc j).2.2 = acc.2.2 + w := by
  unfold shepardPart
  dsimp only
  have e : ((j : Int) - ((12 : Int) / 2 - 1)) = (j : Int) - 5 := by norm_num
  rw [e]
  split_ifs
  · exact Or.inl rfl
  · exact Or.inr ⟨_, _, rfl, rfl, rfl⟩

theorem shepardPart_five (L : Libm) (hL : ShepardLibm L) (base : ℚ) (h0 : 110 ≤ base)
    (h1 : base ≤ 1760) (acc : (Nat → ℚ) × ℚ × ℚ) :
    ¬ (base * L.powf 2 (((5 : Nat) : Int) - 5 : Int) < 20 ∨
      base * L.powf 2 (((5 : Nat) : Int) - 5 : Int) > 6000) ∧
    acc.2.2 < (shepardPart L base acc 5).2.2 := by
  obtain ⟨hp, _, _, _, hpos, hlog, _⟩ := hL
  have e0 : ((((5 : Nat) : Int) - 5 : Int) : ℚ) = 0 := by norm_num
  have hband : ¬ (base * L.powf 2 (((5 : Nat) : Int) - 5 : Int) < 20 ∨
      base * L.powf 2 (((5 : Nat) : Int) - 5 : Int) > 6000) := by
    rw [e0, hp]
    intro h
    rcases h with h | h <;> linarith
  refine ⟨hband, ?_⟩
  unfold shepardPart
  dsimp only
  have e : (((5 : Nat) : Int) - ((12 : Int) / 2 - 1)) = ((5 : Nat) : Int) - 5 := by norm_num
  rw [e, if_neg hband]
  dsimp only
  rw [e0, hp, mul_one]
  have hy := hlog (base / 440) (by linarith) (by linarith)
  have hsq : L.log2f (base / 440) * L.log2f (base / 440) ≤ 4 := by
    rw [abs_le] at hy
    nlinarith [hy.1, hy.2]
  have := hpos (-0.5 * (L.log2f (base / 440) * L.log2f (base / 440)) / (0.55 * 0.55)) (by
    rw [le_div_iff₀ (by norm_num)]
    linarith)
  linarith

theorem shepardPart_inv (L : Libm) (hL : ShepardLibm L) (base : ℚ)
    (acc : (Nat → ℚ) × ℚ × ℚ) (j : Nat) (h : |acc.2.1| ≤ acc.2.2) :
    |(shepardPart L base acc j).2.1| ≤ (shepardPart L base acc j).2.2 ∧
    acc.2.2 ≤ (shepardPart L base acc j).2.2 := by
  obtain ⟨_, _, _, hnn, _, _, hsin⟩ := hL
  rcases shepardPart_cases L base acc j with e | ⟨w, p, hw, e1, e2⟩
  · rw [e]
    exact ⟨h, le_refl _⟩
  · rw [e1, e2]
    have hw0 : 0 ≤ w := by rw [hw]; exact hnn _
    have hs := hsin p
    rw [abs_le] at h hs ⊢
    refine ⟨⟨?_, ?_⟩, by linarith⟩
    · nlinarith [hs.1, hs.2]
    · nlinarith [hs.1, hs.2]

theorem shepard_fold_inv (L : Libm) (hL : ShepardLibm L) (base : ℚ) (l : List Nat) :
    ∀ acc : (Nat → ℚ) × ℚ × ℚ, |acc.2.1| ≤ acc.2.2 →
      |(l.foldl (shepardPart L base) acc).2.1| ≤ (l.foldl (shepardPart L base) acc).2.2 ∧
      acc.2.2 ≤ (l.foldl (shepardPart L base) acc).2.2 := by
  induction l with
  | nil => exact fun acc h => ⟨h, le_refl _⟩
  | cons j l ih =>
    intro acc h
    obtain ⟨h1, h2⟩ := shepardPart_inv L hL base acc j h
    obtain ⟨h3, h4⟩ := ih _ h1
    exact ⟨h3, le_trans h2 h4⟩

/-- The mix of the twelve partials at a base frequency in [110, 1760]: the weight sum is
positive and bounds the weighted sum. -/
theorem shepard_mix (L : Libm) (hL : ShepardLibm L) (base : ℚ) (h0 : 110 ≤ base)
    (h1 : base ≤ 1760) (ph : Nat → ℚ) :
    0 < ((List.range 12).foldl (shepardPart L base) (ph, 0, 0)).2.2 ∧
    |((List.range 12).foldl (shepardPart L base) (ph, 0, 0)).2.1| ≤
      ((List.range 12).foldl (shepardPart L base) (ph, 0, 0)).2.2 := by
  have e : List.range 12 = [0, 1, 2, 3, 4] ++ 5 :: [6, 7, 8, 9, 10, 11] := by decide
  rw [e, List.foldl_append, List.foldl_cons]
  have a0 : |((ph, 0, 0) : (Nat → ℚ) × ℚ × ℚ).2.1| ≤ ((ph, 0, 0) : (Nat → ℚ) × ℚ × ℚ).2.2 := by
    simp
  obtain ⟨b1, b2⟩ := shepard_fold_inv L hL base [0, 1, 2, 3, 4] (ph, 0, 0) a0
  obtain ⟨c1, _⟩ := shepardPart_inv L hL base _ 5 b1
  have c2 := (shepardPart_five L hL base h0 h1
    ([0, 1, 2, 3, 4].foldl (shepardPart L base) (ph, 0, 0))).2
  obtain ⟨d1, d2⟩ := shepard_fold_inv L hL base [6, 7, 8, 9, 10, 11] _ c1
  refine ⟨?_, d1⟩
  have : (0 : ℚ) ≤ ([0, 1, 2, 3, 4].foldl (shepardPart L base) (ph, 0, 0)).2.2 := b2
  linarith

/-- The sample computed from a mix whose weighted sum is bounded by a positive weight sum. -/
theorem shepard_sample_range (sum wsum : ℚ) (hw : 0 < wsum) (hs : |sum| ≤ wsum) :
    |(if wsum > 0 then sum / wsum else 0)| ≤ 1 ∧
    1 ≤ clampU8 (truncI ((if wsum > 0 then sum / wsum else 0) * 127) + 128) ∧
    clampU8 (truncI ((if wsum > 0 then sum / wsum else 0) * 127) + 128) ≤ 255 := by
  rw [if_pos hw]
  have hv : |sum / wsum| ≤ 1 := by
    rw [abs_div, abs_of_pos hw]
    exact (div_le_one hw).mpr hs
  have hv2 := abs_le.mp hv
  have ht := truncI_bounds (sum / wsum * 127) 127 (by decide) (by push_cast; linarith [hv2.1])
    (by push_cast; linarith [hv2.2])
  have hc := clampU8_of_range (truncI (sum / wsum * 127) + 128) (by omega) (by omega)
  refine ⟨hv, ?_, clampU8_le _⟩
  have : (1 : Int) ≤ (clampU8 (truncI (sum / wsum * 127) + 128) : Int) := by
    rw [hc]
    omega
  exact_mod_cast this

theorem shepardUp_base (L : Libm) (hL : ShepardLibm L) (st : ShepardUpState)
    (h0 : 110 ≤ st.g_shepBaseHzUp) (h1 : st.g_shepBaseHzUp ≤ 880) :
    110 ≤ (nextShepardUpU8 L st).1.g_shepBaseHzUp ∧
    (nextShepardUpU8 L st).1.g_shepBaseHzUp ≤ 880 := by
  obtain ⟨_, hr1, hr2, _⟩ := hL
  unfold nextShepardUpU8
  dsimp only
  split_ifs with h
  · constructor <;> nlinarith
  · constructor <;> nlinarith

theorem shepardDown_base (L : Libm) (hL : ShepardLibm L) (st : ShepardDownState)
    (h0 : 220 ≤ st.g_shepBaseHzDown) (h1 : st.g_shepBaseHzDown ≤ 1760) :
    220 ≤ (nextShepardDownU8 L st).1.g_shepBaseHzDown ∧
    (nextShepardDownU8 L st).1.g_shepBaseHzDown ≤ 1760 := by
  obtain ⟨_, hr1, hr2, _⟩ := hL
  have hpos : 0 < L.powf 2 (1 / ((SAMPLE_RATE_HZ : ℚ) * 6)) := by linarith
  have hq1 : st.g_shepBaseHzDown / L.powf 2 (1 / ((SAMPLE_RATE_HZ : ℚ) * 6))
      ≤ st.g_shepBaseHzDown := div_le_self (by linarith) hr1
  have hq2 : st.g_shepBaseHzDown / 2
      ≤ st.g_shepBaseHzDown / L.powf 2 (1 / ((SAMPLE_RATE_HZ : ℚ) * 6)) :=
    div_le_div_of_nonneg_left (by linarith) hpos hr2
  unfold nextShepardDownU8
  dsimp only
  split_ifs with h
  · constructor <;> linarith
  · constructor <;> linarith

theorem shepardUp_inv (L : Libm) (hL : ShepardLibm L) (st : ShepardUpState)
    (h : GenReachable L .shepardUp st) :
    110 ≤ st.g_shepBaseHzUp ∧ st.g_shepBaseHzUp ≤ 880 := by
  induction h with
  | init => exact ⟨by decide!, by decide!⟩
  | call t d st st1 r _ hs ih =>
    have e : some (nextShepardUpU8 L st) = some (st1, r) := hs
    simp only [Option.some.injEq] at e
    have := shepardUp_base L hL st ih.1 ih.2
    rw [e] at this
    exact this

theorem shepardDown_inv (L : Libm) (hL : ShepardLibm L) (st : ShepardDownState)
    (h : GenReachable L .shepardDown st) :
    220 ≤ st.g_shepBaseHzDown ∧ st.g_shepBaseHzDown ≤ 1760 := by
  induction h with
  | init => exact ⟨by decide!, by decide!⟩
  | call t d st st1 r _ hs ih =>
    have e : some (nextShepardDownU8 L st) = some (st1, r) := hs
    simp only [Option.some.injEq] at e
    have := shepardDown_base L hL st ih.1 ih.2
    rw [e] at this
    exact this

/-- C28: with a math library that meets `ShepardLibm`, in every state reachable from the
initial one the ascending Shepard base frequency stays in [110, 880] Hz and the descending
one in [220, 1760] Hz, also after the next call; so on every call the partial with octave
offset 0 (frequency base * powf(2, 0)) is inside the 20..6000 Hz band, the weight sum is
strictly positive (the zero-weight fallback is not taken), the mixed value sum/wsum has
magnitude at most 1, and the output lies in [1,255]. -/
theorem shepard_base_bounded (L : Libm) (hL : ShepardLibm L) :
    (∀ st, GenReachable L .shepardUp st →
      (110 ≤ st.g_shepBaseHzUp ∧ st.g_shepBaseHzUp ≤ 880) ∧
      (110 ≤ (nextShepardUpU8 L st).1.g_shepBaseHzUp ∧
        (nextShepardUpU8 L st).1.g_shepBaseHzUp ≤ 880) ∧
      (20 ≤ (nextShepardUpU8 L st).1.g_shepBaseHzUp * L.powf 2 0 ∧
        (nextShepardUpU8 L st).1.g_shepBaseHzUp * L.powf 2 0 ≤ 6000) ∧
      0 < ((List.range 12).foldl (shepardPart L (nextShepardUpU8 L st).1.g_shepBaseHzUp)
        (st.g_shepPhaseUp, 0, 0)).2.2 ∧
      |((List.range 12).foldl (shepardPart L (nextShepardUpU8 L st).1.g_shepBaseHzUp)
          (st.g_shepPhaseUp, 0, 0)).2.1 /
        ((List.range 12).foldl (shepardPart L (nextShepardUpU8 L st).1.g_shepBaseHzUp)
          (st.g_shepPhaseUp, 0, 0)).2.2| ≤ 1 ∧
      (nextShepardUpU8 L st).2 = clampU8 (truncI
        (((List.range 12).foldl (shepardPart L (nextShepardUpU8 L st).1.g_shepBaseHzUp)
            (st.g_shepPhaseUp, 0, 0)).2.1 /
          ((List.range 12).foldl (shepardPart L (nextShepardUpU8 L st).1.g_shepBaseHzUp)
            (st.g_shepPhaseUp, 0, 0)).2.2 * 127) + 128) ∧
      1 ≤ (nextShepardUpU8 L st).2 ∧ (nextShepardUpU8 L st).2 ≤ 255) ∧
    (∀ st, GenReachable L .shepardDown st →
      (220 ≤ st.g_shepBaseHzDown ∧ st.g_shepBaseHzDown ≤ 1760) ∧
      (220 ≤ (nextShepardDownU8 L st).1.g_shepBaseHzDown ∧
        (nextShepardDownU8 L st).1.g_shepBaseHzDown ≤ 1760) ∧
      (20 ≤ (nextShepardDownU8 L st).1.g_shepBaseHzDown * L.powf 2 0 ∧
        (nextShepardDownU8 L st).1.g_shepBaseHzDown * L.powf 2 0 ≤ 6000) ∧
      0 < ((List.range 12).foldl (shepardPart L (nextShepardDownU8 L st).1.g_shepBaseHzDown)
        (st.g_shepPhaseDown, 0, 0)).2.2 ∧
      |((List.range 12).foldl (shepardPart L (nextShepardDownU8 L st).1.g_shepBaseHzDown)
          (st.g_shepPhaseDown, 0, 0)).2.1 /
        ((List.range 12).foldl (shepardPart L (nextShepardDownU8 L st).1.g_shepBaseHzDown)
          (st.g_shepPhaseDown, 0, 0)).2.2| ≤ 1 ∧
      (nextShepardDownU8 L st).2 = clampU8 (truncI
        (((List.range 12).foldl (shepardPart L (nextShepardDownU8 L st).1.g_shepBaseHzDown)
            (st.g_shepPhaseDown, 0, 0)).2.1 /
          ((List.range 12).foldl (shepardPart L (nextShepardDownU8 L st).1.g_shepBaseHzDown)
            (st.g_shepPhaseDown, 0, 0)).2.2 * 127) + 128) ∧
      1 ≤ (nextShepardDownU8 L st).2 ∧ (nextShepardDownU8 L st).2 ≤ 255) := by
  have hp : L.powf 2 0 = 1 := hL.1
  constructor
  · intro st h
    have hi := shepardUp_inv L hL st h
    have hb := shepardUp_base L hL st hi.1 hi.2
    obtain ⟨m1, m2⟩ := shepard_mix L hL (nextShepardUpU8 L st).1.g_shepBaseHzUp hb.1
      (by linarith [hb.2]) st.g_shepPhaseUp
    obtain ⟨s1, s2, s3⟩ := shepard_sample_range _ _ m1 m2
    rw [if_pos m1] at s1 s2 s3
    have ho : (nextShepardUpU8 L st).2 = clampU8 (truncI
        (((List.range 12).foldl (shepardPart L (nextShepardUpU8 L st).1.g_shepBaseHzUp)
            (st.g_shepPhaseUp, 0, 0)).2.1 /
          ((List.range 12).foldl (shepardPart L (nextShepardUpU8 L st).1.g_shepBaseHzUp)
            (st.g_shepPhaseUp, 0, 0)).2.2 * 127) + 128) := by
      have e : (nextShepardUpU8 L st).2 = clampU8 (truncI
          ((if ((List.range 12).foldl (shepardPart L (nextShepardUpU8 L st).1.g_shepBaseHzUp)
              (st.g_shepPhaseUp, 0, 0)).2.2 > 0 then
            ((List.range 12).foldl (shepardPart L (nextShepardUpU8 L st).1.g_shepBaseHzUp)
              (st.g_shepPhaseUp, 0, 0)).2.1 /
            ((List.range 12).foldl (shepardPart L (nextShepardUpU8 L st).1.g_shepBaseHzUp)
              (st.g_shepPhaseUp, 0, 0)).2.2 else 0) * 127) + 128) := rfl
      rw [e, if_pos m1]
    refine ⟨hi, hb, ?_, m1, s1, ho, ?_, ?_⟩
    · rw [hp, mul_one]
      constructor <;> linarith [hb.1, hb.2]
    · rw [ho]
      exact s2
    · rw [ho]
      exact s3
  · intro st h
    have hi := shepardDown_inv L hL st h
    have hb := shepardDown_base L hL st hi.1 hi.2
    obtain ⟨m1, m2⟩ := shepard_mix L hL (nextShepardDownU8 L st).1.g_shepBaseHzDown
      (by linarith [hb.1]) hb.2 st.g_shepPhaseDown
    obtain ⟨s1, s2, s3⟩ := shepard_sample_range _ _ m1 m2
    rw [if_pos m1] at s1 s2 s3
    have ho : (nextShepardDownU8 L st).2 = clampU8 (truncI
        (((List.range 12).foldl (shepardPart L (nextShepardDownU8 L st).1.g_shepBaseHzDown)
            (st.g_shepPhaseDown, 0, 0)).2.1 /
          ((List.range 12).foldl (shepardPart L (nextShepardDownU8 L st).1.g_shepBaseHzDown)
            (st.g_shepPhaseDown, 0, 0)).2.2 * 127) + 128) := by
      have e : (nextShepardDownU8 L st).2 = clampU8 (truncI
          ((if ((List.range 12).foldl
              (shepardPart L (nextShepardDownU8 L st).1.g_shepBaseHzDown)
              (st.g_shepPhaseDown, 0, 0)).2.2 > 0 then
            ((List.range 12).foldl (shepardPart L (nextShepardDownU8 L st).1.g_shepBaseHzDown)
              (st.g_shepPhaseDown, 0, 0)).2.1 /
            ((List.range 12).foldl (shepardPart L (nextShepardDownU8 L st).1.g_shepBaseHzDown)
              (st.g_shepPhaseDown, 0, 0)).2.2 else 0) * 127) + 128) := rfl
      rw [e, if_pos m1]
    refine ⟨hi, hb, ?_, m1, s1, ho, ?_, ?_⟩
    · rw [hp, mul_one]
      constructor <;> linarith [hb.1, hb.2]
    · rw [ho]
      exact s2
    · rw [ho]
      exact s3

theorem firstOrder_shepardLibm : ShepardLibm Libm.firstOrder := by
  refine ⟨by decide!, by decide!, by decide!, ?_, ?_, ?_, ?_⟩
  · intro x
    show 0 ≤ 1 / (1 + x * x)
    exact le_of_lt (div_pos one_pos (by nlinarith [mul_self_nonneg x]))
  · intro x _
    show 0 < 1 / (1 + x * x)
    exact div_pos one_pos (by nlinarith [mul_self_nonneg x])
  · intro y _ _
    show |clampLoHi (-2) 2 (y - 1)| ≤ 2
    rw [abs_le]
    exact clampLoHi_range (-2) 2 (y - 1) (by norm_num)
  · intro x
    show |clampLoHi (-1) 1 (bhaskaraSin x)| ≤ 1
    rw [abs_le]
    exact clampLoHi_range (-1) 1 (bhaskaraSin x) (by norm_num)

theorem shepard_base_bounded_witness :
    ShepardLibm Libm.firstOrder ∧
    (110 ≤ (nextShepardUpU8 Libm.firstOrder (initOf .shepardUp)).1.g_shepBaseHzUp ∧
      (nextShepardUpU8 Libm.firstOrder (initOf .shepardUp)).1.g_shepBaseHzUp ≤ 880) ∧
    1 ≤ (nextShepardUpU8 Libm.firstOrder (initOf .shepardUp)).2 ∧
    (nextShepardDownU8 Libm.firstOrder (initOf .shepardDown)).2 ≤ 255 :=
  ⟨firstOrder_shepardLibm,
   ((shepard_base_bounded Libm.firstOrder firstOrder_shepardLibm).1 (initOf .shepardUp)
      GenReachable.init).2.1,
   ((shepard_base_bounded Libm.firstOrder firstOrder_shepardLibm).1 (initOf .shepardUp)
      GenReachable.init).2.2.2.2.2.2.1,
   ((shepard_base_bounded Libm.firstOrder firstOrder_shepardLibm).2 (initOf .shepardDown)
      GenReachable.init).2.2.2.2.2.2.2⟩

/-! ## The grains -/

theorem granular_hi_const : truncI (0.20 * (SAMPLE_RATE_HZ : ℚ)) = 2205 := by decide!

/-- The pool after a call of `nextGranularU8`, slot by slot, for a slot that is active after
the spawn block. -/
theorem nextGranularU8_slot_kept (L : Libm) (d : Nat → Nat) (st : GranularState) (i : Nat)
    (hi : i < 8) (hon : (st.g i).isOn = true) :
    (nextGranularU8 L d st).1.g i = grainTick (st.g i) := by
  have hkeep : ∀ j, (List.range 8).find? (fun k => !(st.g k).isOn) = some j → j ≠ i := by
    intro j hj e
    have := List.find?_some hj
    rw [e, hon] at this
    exact absurd this (by decide)
  have key : ∀ g0 : Nat → Grain, g0 i = st.g i →
      (if i < 8 ∧ (g0 i).isOn then
        ({ isOn := !(decide ((g0 i).left - 1 ≤ 0) || decide ((g0 i).amp * (g0 i).adec < 0.001))
           phase := wrapTau ((g0 i).phase + (g0 i).dphase)
           dphase := (g0 i).dphase
           amp := (g0 i).amp * (g0 i).adec
           adec := (g0 i).adec
           left := (g0 i).left - 1 } : Grain)
       else g0 i) = grainTick (st.g i) := by
    intro g0 e
    rw [e, if_pos ⟨hi, hon⟩]
    rfl
  unfold nextGranularU8
  dsimp only
  apply key
  by_cases h1 : random 0 1000 (d 0) < 6
  · rw [if_pos h1]
    cases hf : (List.range 8).find? (fun k => !(st.g k).isOn) with
    | none => rfl
    | some j =>
      have hne : i ≠ j := fun e => hkeep j hf e.symm
      exact Function.update_noteq hne _ _
  · rw [if_neg h1]

/-- The pool after a call of `nextGranularU8` that spawns a grain in slot `i`. -/
theorem nextGranularU8_slot_spawned (L : Libm) (d : Nat → Nat) (st : GranularState) (i : Nat)
    (h1 : random 0 1000 (d 0) < 6)
    (h2 : (List.range 8).find? (fun k => !(st.g k).isOn) = some i) :
    (nextGranularU8 L d st).1.g i = grainTick (spawnedGrain L d) := by
  have hi : i < 8 := List.mem_range.mp (List.mem_of_find?_eq_some h2)
  unfold nextGranularU8
  dsimp only
  simp only [if_pos h1, h2, Function.update_same]
  rw [if_pos ⟨hi, trivial⟩]
  rfl

/-- The grain after `j` updates, while its amplitude has stayed at or above the threshold
and its lifetime counter has not expired. -/
theorem grainTick_iter (G0 : Grain) (K : Nat) (hK : (K : Int) < G0.left) :
    ∀ j, j ≤ K →
      (grainTick^[j] G0).amp = G0.amp * G0.adec ^ j ∧ (grainTick^[j] G0).adec = G0.adec ∧
      (grainTick^[j] G0).left = G0.left - j ∧
      (1 ≤ j → (grainTick^[j] G0).isOn = decide (0.001 ≤ G0.amp * G0.adec ^ j)) := by
  intro j
  induction j with
  | zero =>
    intro _
    refine ⟨by simp, rfl, by simp, fun h => absurd h (by decide)⟩
  | succ j ih =>
    intro hj
    obtain ⟨e1, e2, e3, _⟩ := ih (by omega)
    rw [Function.iterate_succ_apply']
    refine ⟨?_, ?_, ?_, fun _ => ?_⟩
    · show (grainTick^[j] G0).amp * (grainTick^[j] G0).adec = _
      rw [e1, e2, pow_succ]
      ring
    · show (grainTick^[j] G0).adec = _
      exact e2
    · show (grainTick^[j] G0).left - 1 = _
      rw [e3]
      push_cast
      ring
    · show (!(decide ((grainTick^[j] G0).left - 1 ≤ 0) ||
          decide ((grainTick^[j] G0).amp * (grainTick^[j] G0).adec < 0.001))) = _
      have hl : ¬ ((grainTick^[j] G0).left - 1 ≤ 0) := by
        rw [e3]
        omega
      have ea : (grainTick^[j] G0).amp * (grainTick^[j] G0).adec = G0.amp * G0.adec ^ (j + 1) := by
        rw [e1, e2, pow_succ]
        ring
      rw [ea]
      by_cases hc : (0.001 : ℚ) ≤ G0.amp * G0.adec ^ (j + 1)
      · simp [hl, hc]
      · simp [hl, hc]
        exact lt_of_not_le hc

theorem spawnedGrain_range (L : Libm) (d : Nat → Nat) :
    0.15 ≤ (spawnedGrain L d).amp ∧ (spawnedGrain L d).amp ≤ 0.447 ∧
    551 ≤ (spawnedGrain L d).left ∧ (spawnedGrain L d).left ≤ 2204 ∧
    (spawnedGrain L d).adec = L.powf 0.001 (1 / ((spawnedGrain L d).left : ℚ)) ∧
    (spawnedGrain L d).isOn = true := by
  have h1 := random_bounds 0 100 (d 3) (by decide)
  have h2 := random_bounds 551 2205 (d 2) (by decide)
  have e : (spawnedGrain L d).left = random 551 2205 (d 2) := by
    unfold spawnedGrain
    rw [stutter_lo_const, granular_hi_const]
  have ea : (spawnedGrain L d).amp = 0.15 + (random 0 100 (d 3) : ℚ) * 0.003 := rfl
  have c1 : (0 : ℚ) ≤ (random 0 100 (d 3) : ℚ) := by exact_mod_cast h1.1
  have c2 : (random 0 100 (d 3) : ℚ) ≤ 99 := by
    have : random 0 100 (d 3) ≤ 99 := by omega
    exact_mod_cast this
  refine ⟨?_, ?_, ?_, ?_, rfl, rfl⟩
  · rw [ea]
    linarith
  · rw [ea]
    linarith
  · rw [e]
    exact h2.1
  · rw [e]
    omega

/-- The slot of a spawned grain follows `grainTick` for as long as the grain is active. -/
theorem granularCalls_slot (L : Libm) (ds : Nat → Nat → Nat) (st : GranularState) (i : Nat)
    (h1 : random 0 1000 (ds 0 0) < 6)
    (h2 : (List.range 8).find? (fun k => !(st.g k).isOn) = some i) (K : Nat)
    (hon : ∀ j, 1 ≤ j → j < K → (grainTick^[j] (spawnedGrain L (ds 0))).isOn = true) :
    ∀ j, 1 ≤ j → j ≤ K →
      (granularCalls L ds j st).g i = grainTick^[j] (spawnedGrain L (ds 0)) := by
  have hi : i < 8 := List.mem_range.mp (List.mem_of_find?_eq_some h2)
  intro j
  induction j with
  | zero => exact fun h => absurd h (by decide)
  | succ j ih =>
    intro _ hj
    rcases Nat.eq_zero_or_pos j with h0 | hpos
    · subst h0
      exact nextGranularU8_slot_spawned L (ds 0) st i h1 h2
    · have e := ih hpos (by omega)
      have hon1 := hon j hpos (by omega)
      rw [Function.iterate_succ_apply', ← e]
      rw [← e] at hon1
      exact nextGranularU8_slot_kept L (ds j) (granularCalls L ds j st) i hi hon1

/-- C29: every grain spawned by `nextGranularU8` (initial amplitude in [0.15, 0.447],
duration dur in [551, 2204]), with `powf(0.001, 1/dur)` accurate in the sense of
`GrainDecayAccurate`, is deactivated by the amplitude threshold (amp < 0.001) strictly
before its remaining-lifetime counter reaches zero: counting the spawning call as call 1,
the grain is active after calls 1 .. k-1 and inactive after call k for some k < dur, and at
that point its amplitude is below 0.001 while its counter dur - k is still positive. -/
theorem grain_ends_by_threshold (L : Libm) (ds : Nat → Nat → Nat) (st : GranularState)
    (i : Nat) (h1 : random 0 1000 (ds 0 0) < 6)
    (h2 : (List.range 8).find? (fun k => !(st.g k).isOn) = some i)
    (hacc : GrainDecayAccurate L (spawnedGrain L (ds 0)).left) :
    (0.15 ≤ (spawnedGrain L (ds 0)).amp ∧ (spawnedGrain L (ds 0)).amp ≤ 0.447 ∧
      551 ≤ (spawnedGrain L (ds 0)).left ∧ (spawnedGrain L (ds 0)).left ≤ 2204) ∧
    ∃ k : Nat, 1 ≤ k ∧ (k : Int) < (spawnedGrain L (ds 0)).left ∧
      (∀ j, 1 ≤ j → j < k → ((granularCalls L ds j st).g i).isOn = true ∧
        ((granularCalls L ds j st).g i).left = (spawnedGrain L (ds 0)).left - j) ∧
      ((granularCalls L ds k st).g i).isOn = false ∧
      ((granularCalls L ds k st).g i).amp < 0.001 ∧
      ((granularCalls L ds k st).g i).amp
        = (spawnedGrain L (ds 0)).amp * (spawnedGrain L (ds 0)).adec ^ k ∧
      ((granularCalls L ds k st).g i).left = (spawnedGrain L (ds 0)).left - k ∧
      0 < ((granularCalls L ds k st).g i).left := by
  obtain ⟨ha0, ha1, hd0, hd1, hq, _⟩ := spawnedGrain_range L (ds 0)
  refine ⟨⟨ha0, ha1, hd0, hd1⟩, ?_⟩
  obtain ⟨hq0, hq1, hqn⟩ := hacc
  rw [← hq] at hq0 hq1 hqn
  generalize hG : spawnedGrain L (ds 0) = G0 at *
  have hn : 551 ≤ G0.left.toNat := by omega
  have hlast : 1 ≤ G0.left.toNat - 1 ∧ G0.amp * G0.adec ^ (G0.left.toNat - 1) < 0.001 := by
    refine ⟨by omega, ?_⟩
    have hX : 0 ≤ G0.adec ^ (G0.left.toNat - 1) := pow_nonneg (by linarith) _
    have hpow : G0.adec ^ (G0.left.toNat - 1) * G0.adec = G0.adec ^ G0.left.toNat := by
      rw [← pow_succ]
      congr 1
      omega
    nlinarith
  have hex : ∃ k, 1 ≤ k ∧ G0.amp * G0.adec ^ k < 0.001 := ⟨_, hlast⟩
  have hK := Nat.find_spec hex
  have hKle : Nat.find hex ≤ G0.left.toNat - 1 := Nat.find_min' hex hlast
  have hKmin : ∀ j, 1 ≤ j → j < Nat.find hex → 0.001 ≤ G0.amp * G0.adec ^ j := by
    intro j hj1 hj2
    by_contra hc
    exact Nat.find_min hex hj2 ⟨hj1, lt_of_not_le hc⟩
  have hKlt : ((Nat.find hex : Nat) : Int) < G0.left := by omega
  have hiter := grainTick_iter G0 (Nat.find hex) hKlt
  have hon : ∀ j, 1 ≤ j → j < Nat.find hex → (grainTick^[j] G0).isOn = true := by
    intro j hj1 hj2
    rw [(hiter j (by omega)).2.2.2 hj1]
    exact decide_eq_true (hKmin j hj1 hj2)
  have hslot := granularCalls_slot L ds st i h1 h2 (Nat.find hex) (by rw [hG]; exact hon)
  rw [hG] at hslot
  refine ⟨Nat.find hex, hK.1, hKlt, ?_, ?_, ?_, ?_, ?_, ?_⟩
  · intro j hj1 hj2
    rw [hslot j hj1 (by omega)]
    exact ⟨hon j hj1 hj2, (hiter j (by omega)).2.2.1⟩
  · rw [hslot _ hK.1 (le_refl _), (hiter _ (le_refl _)).2.2.2 hK.1]
    exact decide_eq_false (not_le.mpr hK.2)
  · rw [hslot _ hK.1 (le_refl _), (hiter _ (le_refl _)).1]
    exact hK.2
  · rw [hslot _ hK.1 (le_refl _), (hiter _ (le_refl _)).1]
  · rw [hslot _ hK.1 (le_refl _), (hiter _ (le_refl _)).2.2.1]
  · rw [hslot _ hK.1 (le_refl _), (hiter _ (le_refl _)).2.2.1]
    omega

theorem grainDecay_accurate :
    GrainDecayAccurate Libm.grainDecay (spawnedGrain Libm.grainDecay (fun _ => 0)).left := by
  have e : (spawnedGrain Libm.grainDecay (fun _ => 0)).left = 551 := by decide!
  rw [e]
  unfold GrainDecayAccurate
  have q : Libm.grainDecay.powf 0.001 (1 / ((551 : Int) : ℚ)) = 544 / 551 := by
    show (1 : ℚ) - 7 * (1 / ((551 : Int) : ℚ)) = 544 / 551
    norm_num
  rw [q]
  refine ⟨by norm_num, by norm_num, ?_⟩
  rw [show (551 : Int).toNat = 29 * 19 from rfl, pow_mul]
  norm_num

theorem grain_ends_by_threshold_witness :
    ∃ k : Nat, 1 ≤ k ∧ (k : Int) < (spawnedGrain Libm.grainDecay (fun _ => 0)).left ∧
      ((granularCalls Libm.grainDecay (fun _ _ => 0) k (initOf .granular)).g 0).isOn = false ∧
      ((granularCalls Libm.grainDecay (fun _ _ => 0) k (initOf .granular)).g 0).amp < 0.001 ∧
      0 < ((granularCalls Libm.grainDecay (fun _ _ => 0) k (initOf .granular)).g 0).left := by
  obtain ⟨_, k, h1, h2, _, h3, h4, _, _, h5⟩ :=
    grain_ends_by_threshold Libm.grainDecay (fun _ _ => 0) (initOf .granular) 0
      (by decide) (by decide) grainDecay_accurate
  exact ⟨k, h1, h2, h3, h4, h5⟩

/-- What a call of `nextStutterU8` leaves in the grain length and the read index. -/
theorem nextStutterU8_effect (L : Libm) (d : Nat → Nat) (st st1 : StutterState) (r : Nat)
    (hs : nextStutterU8 L d st = some (st1, r)) :
    st1.len = (if st.modeLeft ≤ 0 then random 18 120 (d 0) else st.len) ∧
    st1.idx = Int.tmod ((if st.modeLeft ≤ 0 then 0 else st.idx) + 1)
      (if st.modeLeft ≤ 0 then random 18 120 (d 0) else st.len) := by
  have hr := random_bounds 18 120 (d 0) (by omega)
  have hR : ¬ (random 18 120 (d 0) > 256) := by omega
  unfold nextStutterU8 at hs
  simp only [hR, if_false] at hs
  by_cases hm : st.modeLeft ≤ 0
  · have c1 : ¬ ((0 : Int) < 0 ∨ (256 : Int) ≤ 0) := by decide
    have c2 : ¬ (random 18 120 (d 0) = 0) := by omega
    simp only [hm, if_true, c1, c2, if_false, Option.some.injEq, Prod.mk.injEq] at hs
    obtain ⟨e, _⟩ := hs
    subst e
    exact ⟨by rw [if_pos hm], by rw [if_pos hm, if_pos hm]⟩
  · simp only [hm, if_false] at hs
    by_cases c1 : st.idx < 0 ∨ 256 ≤ st.idx
    · rw [if_pos c1] at hs
      exact absurd hs (by simp)
    · rw [if_neg c1] at hs
      by_cases c2 : st.len = 0
      · rw [if_pos c2] at hs
        exact absurd hs (by simp)
      · rw [if_neg c2] at hs
        simp only [Option.some.injEq, Prod.mk.injEq] at hs
        obtain ⟨e, _⟩ := hs
        subst e
        exact ⟨by rw [if_neg hm], by rw [if_neg hm, if_neg hm]⟩

theorem stutter_inv (L : Libm) (st : StutterState) (h : GenReachable L .stutter st) :
    18 ≤ st.len ∧ st.len ≤ 119 ∧ 0 ≤ st.idx ∧ st.idx < st.len := by
  induction h with
  | init => exact ⟨by decide, by decide, by decide, by decide⟩
  | call t d st st1 r _ hs ih =>
    have hs1 : nextStutterU8 L d st = some (st1, r) := hs
    obtain ⟨e1, e2⟩ := nextStutterU8_effect L d st st1 r hs1
    have hr := random_bounds 18 120 (d 0) (by omega)
    rw [e2, e1]
    by_cases hm : st.modeLeft ≤ 0
    · simp only [hm, if_true]
      have hb := tmod_bounds (0 + 1) (random 18 120 (d 0)) (by omega) (by omega)
      exact ⟨hr.1, by omega, hb.1, hb.2⟩
    · simp only [hm, if_false]
      have hb := tmod_bounds (st.idx + 1) st.len (by omega) (by omega)
      exact ⟨ih.1, ih.2.1, hb.1, hb.2⟩

/-- C30: in every state that calls of `nextStutterU8` reach from power-on, for every outcome
of the random draws, the grain length satisfies 18 <= len <= 119 and the read index
0 <= idx < len; the next call completes (every access to the 256-cell buffer is in bounds
and the modulo by len does not divide by zero) and leaves a state within the same bounds. -/
theorem stutter_in_bounds (L : Libm) (st : StutterState) (h : GenReachable L .stutter st) :
    (18 ≤ st.len ∧ st.len ≤ 119 ∧ 0 ≤ st.idx ∧ st.idx < st.len) ∧
    ∀ d, ∃ st1 r, nextStutterU8 L d st = some (st1, r) ∧
      18 ≤ st1.len ∧ st1.len ≤ 119 ∧ 0 ≤ st1.idx ∧ st1.idx < st1.len ∧ st1.len ≤ 256 := by
  have hi := stutter_inv L st h
  refine ⟨hi, fun d => ?_⟩
  obtain ⟨st1, r, hs, _, _⟩ := nextStutterU8_total L d st ⟨hi.2.2.1, by omega, by omega, by omega⟩
  have hs1 : genStep L 0 d .stutter st = some (st1, r) := hs
  have h1 := stutter_inv L st1 (GenReachable.call 0 d st st1 r h hs1)
  exact ⟨st1, r, hs, h1.1, h1.2.1, h1.2.2.1, h1.2.2.2, by omega⟩

theorem stutter_in_bounds_witness :
    ∃ st1 r, nextStutterU8 Libm.zero (fun k => 7 * k + 5) (initOf .stutter) = some (st1, r) ∧
      18 ≤ st1.len ∧ st1.len ≤ 119 ∧ 0 ≤ st1.idx ∧ st1.idx < st1.len ∧ st1.len ≤ 256 :=
  (stutter_in_bounds Libm.zero (initOf .stutter) GenReachable.init).2 (fun k => 7 * k + 5)

/-! ## The feedback howl: the stored state stays bounded -/

/-- The two clamp statements of `nextFeedbackHowlU8` come after the state is stored and act
on the value passed to `tanhf`: the sample is computed from the stored `y1` clamped to
[-1.3, 1.3]. -/
theorem nextFeedbackHowlU8_output (L : Libm) (d : Nat → Nat) (st : FeedbackHowlState) :
    (nextFeedbackHowlU8 L d st).2 =
      clampU8 (truncI (L.tanhf (1.2 * clampHiLo (-1.3) 1.3 (nextFeedbackHowlU8 L d st).1.y1)
        * 127) + 128) :=
  rfl

end DeDeNoise
